import Mathlib

/-!
# Video capture pipeline: media-graph configuration and V4L2 capture

A shallow embedding of `media_device.cpp`, `dma_buffer.cpp` and `camera.cpp`
(R01_object_detection/src_v2h).  Calls into the kernel and into libmediactl /
mmngr are recorded in a trace of `Call`s; their outcomes are inputs of the
model, so every statement quantifies over what the platform may answer.
-/

set_option autoImplicit false

namespace Rzv

/-! ## Strings -/

/-- Offset of the first occurrence of `pat`, as `std::string::find` returns it;
`none` stands for `std::string::npos`. -/
def strFind (pat : List Char) : List Char → Option Nat
  | [] => if pat.isPrefixOf [] then some 0 else none
  | c :: cs => if pat.isPrefixOf (c :: cs) then some 0 else (strFind pat cs).map (· + 1)

/-- The test `s.find(pat) != std::string::npos`. -/
def contains (s pat : String) : Bool := (strFind pat.data s.data).isSome

/-- Variadic arguments handed to `format`. -/
inductive Arg where
  | str (s : String)
  | uint (n : Nat)

/-- The conversions `snprintf` performs for the two directives used in this
program: `%s` inserts the string, `%u` the decimal digits of the number; every
other character of the format is copied. -/
def formatAux : List Char → List Arg → List Char
  | '%' :: 's' :: rest, Arg.str s :: args => s.data ++ formatAux rest args
  | '%' :: 'u' :: rest, Arg.uint n :: args => (Nat.repr n).data ++ formatAux rest args
  | c :: rest, args => c :: formatAux rest args
  | [], _ => []

/-- The helper `format(fmt, args...)` of media_device.cpp and camera.cpp.
Entity names are C strings (copied from `char name[32]`), so `c_str()` hands
`snprintf` the whole name. -/
def format (fmt : String) (args : List Arg) : String := ⟨formatAux fmt.data args⟩

/-! ## Data model (media_device.hpp) -/

/-- The roles of `enum class EntityType`, in declaration order. -/
inductive EntityType where
  | Sensor
  | CsiMipiReceiver
  | VideoIsp
  | VideoCapture
  deriving DecidableEq, Repr

/-- The pad roles of `EntityPad::PadType`. -/
inductive PadType where
  | NONE
  | SOURCE
  | SINK
  deriving DecidableEq, Repr

/-- The pair `EntityPad::Resolution`. -/
structure Resolution where
  width : Nat := 0
  height : Nat := 0
  deriving DecidableEq, Repr

/-- The record `EntityPad` with its default member initialisers. -/
structure EntityPad where
  type : PadType := PadType.NONE
  index : Nat := 0
  img_fmt_str : String := ""
  resolution : Resolution := {}
  deriving DecidableEq, Repr

/-- The record `EntityConfig`; value-initialisation gives the first enumerator
as `type`. -/
structure EntityConfig where
  type : EntityType := EntityType.Sensor
  source_pad : EntityPad := {}
  sink_pad : EntityPad := {}
  deriving DecidableEq, Repr

/-- The record `MediaEntity`. -/
structure MediaEntity where
  type : EntityType
  name : String := ""
  config : EntityConfig := {}
  deriving DecidableEq, Repr

/-- The table `kMbusFormats`: pixel-format tag to media-bus code.  The
`MEDIA_BUS_FMT_` constants are named by their suffix, which is also how a
pad-format string spells them. -/
def kMbusFormats : List (String × String) :=
  [ ("FIXED", "FIXED"),
    ("YUYV", "YUYV8_1X16"),
    ("UYVY", "UYVY8_1X16"),
    ("SBGGR8", "SBGGR8_1X8"),
    ("SGBRG8", "SGBRG8_1X8"),
    ("SGRBG8", "SGRBG8_1X8"),
    ("SRGGB8", "SRGGB8_1X8"),
    ("SBGGR10", "SBGGR10_1X10"),
    ("SGBRG10", "SGBRG10_1X10"),
    ("SGRBG10", "SGRBG10_1X10"),
    ("SRGGB10", "SRGGB10_1X10"),
    ("SBGGR12", "SBGGR12_1X12"),
    ("SGBRG12", "SGBRG12_1X12"),
    ("SGRBG12", "SGRBG12_1X12"),
    ("SRGGB12", "SRGGB12_1X12"),
    ("RBG24", "RBG888_1X24"),
    ("RGB32", "RGB888_1X32_PADHI"),
    ("ARGB32", "ARGB8888_1X32") ]

/-- The table `kEntityNameLookup`: the name pattern of each role. -/
def kEntityNameLookup : EntityType → String
  | EntityType.Sensor => "ar1335"
  | EntityType.VideoIsp => "ap1302"
  | EntityType.CsiMipiReceiver => "csi2"
  | EntityType.VideoCapture => "CRU"

/-- The array `kSimplePipeline`. -/
def kSimplePipeline : List EntityType :=
  [EntityType.Sensor, EntityType.VideoIsp, EntityType.CsiMipiReceiver, EntityType.VideoCapture]

/-! ## External calls -/

/-- The fields of `struct v4l2_buffer` the program writes. -/
structure V4l2Buffer where
  type : Nat := 0
  memory : Nat := 0
  index : Nat := 0
  fd : Int := 0
  length : Nat := 0
  deriving DecidableEq, Repr

/-- The ioctl requests issued on the capture device; `VIDIOC_QBUF` with the
`v4l2_buffer` it hands to the driver. -/
inductive IoctlReq where
  | VIDIOC_S_FMT
  | VIDIOC_S_PARM
  | VIDIOC_REQBUFS
  | VIDIOC_QBUF (buf : V4l2Buffer)
  | VIDIOC_DQBUF
  | VIDIOC_STREAMON
  | VIDIOC_STREAMOFF
  deriving DecidableEq, Repr

/-- One call that leaves the program. -/
inductive Call where
  | media_device_new (dev_name : String)
  | media_device_enumerate
  | media_reset_links
  | media_parse_setup_links (link : String)
  | v4l2_subdev_parse_setup_formats (fmt : String)
  | sys_open (path : String)
  | sys_close (fd : Int)
  | sys_ioctl (req : IoctlReq)
  | sys_select
  | mmngr_alloc_in_user_ext (size : Nat)
  | mmngr_export_start_in_user_ext (id : Nat)
  | mmngr_flush (id : Nat) (offset : Nat) (size : Nat)
  deriving DecidableEq, Repr

/-- What the media-topology API exposes about one entity. -/
structure EntityDesc where
  name : String
  devname : String := ""
  deriving DecidableEq, Repr

/-- Outcome of creating and enumerating one media device:
`new_ok` says `media_device_new` returned a handle, `enumerated` is `none`
when `media_device_enumerate` returns a negative value and otherwise the
entities in enumeration order. -/
structure MediaWorld where
  new_ok : Bool
  enumerated : Option (List EntityDesc)

/-! ## MediaDevice (media_device.cpp) -/

/-- The state of a `MediaDevice`: `media_` holds the entities the handle
exposes, `none` being the null handle. -/
structure MediaDevice where
  media_ : Option (List EntityDesc) := none
  pipeline_entities_ : List MediaEntity := []
  open_ : Bool := false
  deriving DecidableEq, Repr

/-- Inner loop of `Enumerate`: scan the entities by index and stop at the first
whose name contains the pattern of `entity_type`. -/
def scanEntities (entity_type : EntityType) : List EntityDesc → Option MediaEntity
  | [] => none
  | e :: rest =>
    if contains e.name (kEntityNameLookup entity_type) then
      some { type := entity_type, name := e.name }
    else scanEntities entity_type rest

/-- One round of the outer loop of `Enumerate`: `push_back` of the entity found
for `entity_type`, if any. -/
def enumerateRole (topo : List EntityDesc) (pipeline : List MediaEntity)
    (entity_type : EntityType) : List MediaEntity :=
  match scanEntities entity_type topo with
  | some media_entity => pipeline ++ [media_entity]
  | none => pipeline

/-- The method `MediaDevice::Enumerate`. -/
def MediaDevice.Enumerate (w : MediaWorld) (d : MediaDevice) : Bool × MediaDevice × List Call :=
  match w.enumerated with
  | none => (false, d, [Call.media_device_enumerate])
  | some topo =>
    (true,
     { d with
       media_ := some topo
       pipeline_entities_ := kSimplePipeline.foldl (enumerateRole topo) d.pipeline_entities_ },
     [Call.media_device_enumerate])

/-- The method `MediaDevice::open`. -/
def MediaDevice.open (w : MediaWorld) (dev_name : String) (d : MediaDevice) :
    Bool × MediaDevice × List Call :=
  if d.open_ then (true, d, [])
  else
    let d1 : MediaDevice :=
      { d with media_ := if w.new_ok then some [] else none, open_ := w.new_ok }
    if !d1.open_ then (false, d1, [Call.media_device_new dev_name])
    else
      match MediaDevice.Enumerate w d1 with
      | (false, d2, t) =>
        (false, { d2 with media_ := none, open_ := false }, Call.media_device_new dev_name :: t)
      | (true, d2, t) => (true, d2, Call.media_device_new dev_name :: t)

/-- The method `MediaDevice::close`. -/
def MediaDevice.close (d : MediaDevice) : MediaDevice :=
  if !d.open_ then d else { d with media_ := none, open_ := false }

/-- The method `MediaDevice::isOpen`. -/
def MediaDevice.isOpen (d : MediaDevice) : Bool := d.open_

/-- The constructor `MediaDevice(int dev_id)`. -/
def MediaDevice.ofId (w : MediaWorld) (dev_id : Nat) : MediaDevice × List Call :=
  let r := MediaDevice.open w ("/dev/media" ++ toString dev_id) {}
  (r.2.1, r.2.2)

/-- Loop of `getVideoCaptureDevice` over the entities of the handle. -/
def scanVideoNode : List EntityDesc → String
  | [] => ""
  | e :: rest => if contains e.devname "/dev/video" then e.devname else scanVideoNode rest

/-- The method `MediaDevice::getVideoCaptureDevice`. -/
def MediaDevice.getVideoCaptureDevice (d : MediaDevice) : String :=
  scanVideoNode (d.media_.getD [])

/-- The function `createLinkString`. -/
def createLinkString (source sink : MediaEntity) : String :=
  let src_pad := source.config.source_pad
  let sink_pad := sink.config.sink_pad
  let invalid_pad_types := src_pad.type == PadType.NONE || sink_pad.type == PadType.NONE
  let invalid_entity_names := source.name.isEmpty || sink.name.isEmpty
  if invalid_entity_names || invalid_pad_types then ""
  else
    format "'%s':%u -> '%s':%u [1]"
      [Arg.str source.name, Arg.uint src_pad.index, Arg.str sink.name, Arg.uint sink_pad.index]

/-- The function `createPadFormatString`. -/
def createPadFormatString (entity_name : String) (pad : EntityPad) : String :=
  if entity_name.isEmpty || pad.type == PadType.NONE then ""
  else
    let img_fmt_str := "YUYV8_1X16"
    format "'%s':%u [fmt:%s/%ux%u field:none]"
      [Arg.str entity_name, Arg.uint pad.index, Arg.str img_fmt_str,
       Arg.uint pad.resolution.width, Arg.uint pad.resolution.height]

/-- The `std::find_if` and assignment in the first loop of `configurePipeline`:
the first entity whose type equals that of `entity_config` receives it. -/
def bindConfig (entity_config : EntityConfig) : List MediaEntity → List MediaEntity
  | [] => []
  | entity :: rest =>
    if entity.type = entity_config.type then { entity with config := entity_config } :: rest
    else entity :: bindConfig entity_config rest

/-- The first loop of `configurePipeline`. -/
def bindConfigs (pipeline_config : List EntityConfig) (ents : List MediaEntity) :
    List MediaEntity :=
  pipeline_config.foldl (fun es c => bindConfig c es) ents

/-- The link part of round `i` of the second loop: it runs when entity `i + 1`
is not the end of the vector, and issues the request when the link string is
not empty. -/
def linkRequests (ents : List MediaEntity) (i : Nat) : List Call :=
  if i + 1 ≠ ents.length then
    match ents[i]?, ents[i + 1]? with
    | some first_entity, some next_entity =>
      let link_str := createLinkString first_entity next_entity
      if !link_str.isEmpty then [Call.media_parse_setup_links link_str] else []
    | _, _ => []
  else []

/-- The pad-format part of round `i` of the second loop: sink pad, then source
pad. -/
def padRequests (ents : List MediaEntity) (i : Nat) : List Call :=
  match ents[i]? with
  | some first_entity =>
    let sink_pad_conf_str := createPadFormatString first_entity.name first_entity.config.sink_pad
    let src_pad_conf_str := createPadFormatString first_entity.name first_entity.config.source_pad
    (if !sink_pad_conf_str.isEmpty then [Call.v4l2_subdev_parse_setup_formats sink_pad_conf_str]
     else []) ++
    (if !src_pad_conf_str.isEmpty then [Call.v4l2_subdev_parse_setup_formats src_pad_conf_str]
     else [])
  | none => []

/-- The second loop of `configurePipeline`, every request paired with the loop
index `i` at which it is issued. -/
def configureLoop (ents : List MediaEntity) : List (Nat × Call) :=
  (List.range ents.length).flatMap
    (fun i => (linkRequests ents i ++ padRequests ents i).map (fun c => (i, c)))

/-- The requests of one `configurePipeline` call on the entities `ents` after
binding, with their loop index (the link reset precedes the loop; it is filed
under index 0). -/
def configureRequests (ents : List MediaEntity) : List (Nat × Call) :=
  (0, Call.media_reset_links) :: configureLoop ents

/-- The method `MediaDevice::configurePipeline`: the new device state and the
requests issued.  The return values of the three libmediactl calls are not
looked at. -/
def MediaDevice.configurePipeline (pipeline_config : List EntityConfig) (d : MediaDevice) :
    MediaDevice × List Call :=
  let ents := bindConfigs pipeline_config d.pipeline_entities_
  ({ d with pipeline_entities_ := ents }, (configureRequests ents).map Prod.snd)

/-! ## The second loop of configurePipeline, access by access -/

/-- What the second loop of `configurePipeline` does, step by step: it forms
the address of element `j` of `pipeline_entities_` (`addr`, the expression
`&pipeline_entities_[j]`), it reads the entity at index `j` through a pointer
(`read`), or it issues a request. -/
inductive LoopEvent where
  | addr (j : Nat)
  | read (j : Nat)
  | request (c : Call)
  deriving DecidableEq, Repr

/-- The link part of round `i` with its accesses to the vector.  A pointer
into the vector is the index of its element.  The three addresses are formed
before the test; the two entities are read, for `createLinkString`, only when
the test passes.  The second component is `false` when an entity outside the
vector is read (undefined behaviour). -/
def linkEvents (ents : List MediaEntity) (i : Nat) : List LoopEvent × Bool :=
  let first_entity := i
  let next_entity := i + 1
  let end_of_pipeline := ents.length
  let formed :=
    [LoopEvent.addr first_entity, LoopEvent.addr next_entity, LoopEvent.addr end_of_pipeline]
  if next_entity ≠ end_of_pipeline then
    match ents[first_entity]?, ents[next_entity]? with
    | some source, some sink =>
      let link_str := createLinkString source sink
      (formed ++ [LoopEvent.read first_entity, LoopEvent.read next_entity] ++
        (if !link_str.isEmpty then [LoopEvent.request (Call.media_parse_setup_links link_str)]
         else []), true)
    | _, _ => (formed ++ [LoopEvent.read first_entity, LoopEvent.read next_entity], false)
  else (formed, true)

/-- The pad-format part of round `i` with its accesses to the vector: the
entity `i` is read through `first_entity`. -/
def padEvents (ents : List MediaEntity) (i : Nat) : List LoopEvent × Bool :=
  match ents[i]? with
  | some first_entity =>
    let sink_pad_conf_str := createPadFormatString first_entity.name first_entity.config.sink_pad
    let src_pad_conf_str := createPadFormatString first_entity.name first_entity.config.source_pad
    ([LoopEvent.read i] ++
      (if !sink_pad_conf_str.isEmpty then
        [LoopEvent.request (Call.v4l2_subdev_parse_setup_formats sink_pad_conf_str)] else []) ++
      (if !src_pad_conf_str.isEmpty then
        [LoopEvent.request (Call.v4l2_subdev_parse_setup_formats src_pad_conf_str)] else []),
     true)
  | none => ([LoopEvent.read i], false)

/-- Round `i` of the second loop with its accesses to the vector. -/
def roundEvents (ents : List MediaEntity) (i : Nat) : List LoopEvent × Bool :=
  let l := linkEvents ents i
  if !l.2 then l
  else
    let p := padEvents ents i
    (l.1 ++ p.1, p.2)

/-- The rounds `i`, `i + 1`, .. of the second loop, `todo` of them; a read
outside the vector ends the run.  The counter, a `std::uint32_t`, is followed
as a natural number, as in `configureLoop`. -/
def loopEvents (ents : List MediaEntity) : Nat → Nat → List LoopEvent × Bool
  | 0, _ => ([], true)
  | todo + 1, i =>
    let r := roundEvents ents i
    if !r.2 then r
    else
      let rest := loopEvents ents todo (i + 1)
      (r.1 ++ rest.1, rest.2)

/-- The second loop of `configurePipeline`, `for (i = 0; i < size; i++)`, with
its accesses to the vector. -/
def configureEvents (ents : List MediaEntity) : List LoopEvent × Bool :=
  loopEvents ents ents.length 0

/-- The request of an event. -/
def LoopEvent.requested : LoopEvent → Option Call
  | LoopEvent.request c => some c
  | _ => none

/-! ## DmaBuffer (dma_buffer.cpp) -/

/-- What the memory manager hands back for one buffer: the outputs of
`mmngr_alloc_in_user_ext` (`puser_virt_addr = 0` is the null pointer) and the
descriptor written by `mmngr_export_start_in_user_ext`.  The return codes of
both calls are not looked at by the constructor. -/
structure MmngrWorld where
  id : Nat
  phard_addr : Nat
  puser_virt_addr : Nat
  dma_fd : Int

/-- The members of a `DmaBuffer`. -/
structure DmaBuffer where
  index_ : Nat
  fd_ : Int
  size_ : Nat
  count_ : Nat
  physical_address_ : Nat
  mem_ : Nat
  deriving DecidableEq, Repr

/-- How a method of `Camera` ends: by returning a value, by an exception that
leaves it, by never coming back from a retried call, or by an access outside
the memory it owns (undefined behaviour). -/
inductive Outcome where
  | returned (b : Bool)
  | threw
  | blocked
  | fault
  deriving DecidableEq, Repr

/-- The constructor `DmaBuffer(size, count)`.  The region is cleared with
`memset` before the pointer is tested: with a null pointer and a size that is
not zero this writes through the null pointer (`Outcome.fault`); the
`throw std::runtime_error` is reached for a null pointer and size zero. -/
def DmaBuffer.new (w : MmngrWorld) (size : Nat) (count : Nat) :
    Except Outcome DmaBuffer × List Call :=
  let size_ := (size * count) % 2 ^ 32
  if w.puser_virt_addr = 0 then
    if size_ = 0 then (Except.error Outcome.threw, [Call.mmngr_alloc_in_user_ext size_])
    else (Except.error Outcome.fault, [Call.mmngr_alloc_in_user_ext size_])
  else
    (Except.ok { index_ := w.id, fd_ := w.dma_fd, size_ := size_, count_ := count,
                 physical_address_ := w.phard_addr, mem_ := w.puser_virt_addr },
     [Call.mmngr_alloc_in_user_ext size_, Call.mmngr_export_start_in_user_ext w.id])

/-- The method `DmaBuffer::flush`; `rc` is what `mmngr_flush` returns. -/
def DmaBuffer.flush (rc : Int) (b : DmaBuffer) : Bool × List Call :=
  (rc == 0, [Call.mmngr_flush b.index_ 0 b.size_])

/-! ## Camera (camera.hpp, camera.cpp) -/

/-- The enumeration `Camera::CameraSource`. -/
inductive CameraSource where
  | CRU0
  | CRU1
  | CRU2
  | CRU3
  | UVC0
  | UVC1
  deriving DecidableEq, Repr

/-- The underlying value of a `CameraSource`. -/
def CameraSource.toNat : CameraSource → Nat
  | CameraSource.CRU0 => 0
  | CameraSource.CRU1 => 1
  | CameraSource.CRU2 => 2
  | CameraSource.CRU3 => 3
  | CameraSource.UVC0 => 4
  | CameraSource.UVC1 => 5

/-- The constant `V4L2_BUF_TYPE_VIDEO_CAPTURE`. -/
def V4L2_BUF_TYPE_VIDEO_CAPTURE : Nat := 1

/-- The constant `V4L2_MEMORY_DMABUF`. -/
def V4L2_MEMORY_DMABUF : Nat := 4

/-- The constant `EINTR`. -/
def EINTR : Int := 4

/-- What one system call answers: its return value and the `errno` it leaves. -/
structure SysResult where
  ret : Int
  errno : Int := 0
  deriving DecidableEq, Repr

/-- The members of a `Camera`.  `number_of_capture_buffers_` is initialised
with the constant `CAP_BUF_NUM` of define.h, which the constructor takes as a
parameter here. -/
structure Camera where
  cam_src_ : CameraSource
  capture_width_ : Nat
  capture_height_ : Nat
  number_of_capture_buffers_ : Nat
  fd_ : Int
  capture_dma_buffers_ : List DmaBuffer := []
  active_capture_buffer_ : V4l2Buffer := {}
  deriving DecidableEq, Repr

/-- The constructor `Camera(camera_source, width, height)`.  It leaves `fd_`
and `active_capture_buffer_` uninitialised; `fd0` and `buf0` are what they
happen to hold. -/
def Camera.new (CAP_BUF_NUM : Nat) (camera_source : CameraSource) (width height : Nat)
    (fd0 : Int) (buf0 : V4l2Buffer) : Camera :=
  { cam_src_ := camera_source, capture_width_ := width, capture_height_ := height,
    number_of_capture_buffers_ := CAP_BUF_NUM, fd_ := fd0, capture_dma_buffers_ := [],
    active_capture_buffer_ := buf0 }

/-- The function `xioctl`: the request is repeated while it answers -1 with
`errno` equal to `EINTR`.  The list holds the answers of the successive
attempts; `none` says that every answer at hand was an interruption, so the
loop has not come to an end. -/
def xioctl (req : IoctlReq) : List SysResult → Option Bool × List Call
  | [] => (none, [])
  | r :: rest =>
    if r.ret = -1 ∧ r.errno = EINTR then
      ((xioctl req rest).1, Call.sys_ioctl req :: (xioctl req rest).2)
    else (some (r.ret != -1), [Call.sys_ioctl req])

/-- The answers of the platform during one `startCamera`. -/
structure StartWorld where
  /-- the media device constructed in `startCamera` -/
  media_start : MediaWorld
  /-- return value of `media_reset_links`, `media_parse_setup_links` and
  `v4l2_subdev_parse_setup_formats` for each request; `configurePipeline`
  discards it -/
  graph_rc : Call → Int
  /-- the media device constructed in `openCaptureDevice` -/
  media_capture : MediaWorld
  /-- return value of `::open` -/
  open_fd : Int
  s_fmt : List SysResult
  s_parm : SysResult
  reqbufs : List SysResult
  /-- the memory manager's answer for the n-th buffer -/
  mmngr : Nat → MmngrWorld
  /-- the answers to `VIDIOC_QBUF` for the n-th buffer -/
  qbuf : Nat → List SysResult
  streamon : List SysResult

/-- The pad plan built in `startCamera`. -/
def Camera.entity_configs (cam : Camera) : List EntityConfig :=
  [ { type := EntityType.VideoIsp,
      source_pad := { type := PadType.SOURCE, index := 0, img_fmt_str := "YUYV",
                      resolution := ⟨cam.capture_width_, cam.capture_height_⟩ } },
    { type := EntityType.CsiMipiReceiver,
      sink_pad := { type := PadType.SINK, index := 0, img_fmt_str := "YUYV",
                    resolution := ⟨cam.capture_width_, cam.capture_height_⟩ },
      source_pad := { type := PadType.SOURCE, index := 1, img_fmt_str := "YUYV",
                      resolution := ⟨cam.capture_width_, cam.capture_height_⟩ } },
    { type := EntityType.VideoCapture,
      sink_pad := { type := PadType.SINK, index := 0, img_fmt_str := "YUYV",
                    resolution := ⟨cam.capture_width_, cam.capture_height_⟩ },
      source_pad := { type := PadType.SOURCE, index := 1, img_fmt_str := "YUYV",
                      resolution := ⟨cam.capture_width_, cam.capture_height_⟩ } } ]

/-- The method `Camera::openCaptureDevice`. -/
def Camera.openCaptureDevice (w : StartWorld) (cam : Camera) : Bool × Camera × List Call :=
  let media_dev := MediaDevice.ofId w.media_capture cam.cam_src_.toNat
  if !media_dev.1.isOpen then (false, cam, media_dev.2)
  else
    let capture_dev_name := media_dev.1.getVideoCaptureDevice
    if capture_dev_name.length = 0 then (false, cam, media_dev.2)
    else
      let fd := w.open_fd
      if fd ≠ -1 then
        (true, { cam with fd_ := fd }, media_dev.2 ++ [Call.sys_open capture_dev_name])
      else (false, cam, media_dev.2 ++ [Call.sys_open capture_dev_name])

/-- The method `Camera::setCaptureFormat`: `VIDIOC_S_PARM` is issued by a plain
`ioctl`, and its failure is only logged. -/
def Camera.setCaptureFormat (w : StartWorld) (_cam : Camera) : Option Bool × List Call :=
  match xioctl IoctlReq.VIDIOC_S_FMT w.s_fmt with
  | (none, t) => (none, t)
  | (some false, t) => (some false, t)
  | (some true, t) =>
    if w.s_parm.ret < 0 then (some true, t ++ [Call.sys_ioctl IoctlReq.VIDIOC_S_PARM])
    else (some true, t ++ [Call.sys_ioctl IoctlReq.VIDIOC_S_PARM])

/-- The method `Camera::requestCaptureBuffers`. -/
def Camera.requestCaptureBuffers (w : StartWorld) (_cam : Camera) : Option Bool × List Call :=
  match xioctl IoctlReq.VIDIOC_REQBUFS w.reqbufs with
  | (none, t) => (none, t)
  | (some false, t) => (some false, t)
  | (some true, t) => (some true, t)

/-- The method `Camera::startCapture`. -/
def Camera.startCapture (w : StartWorld) (_cam : Camera) : Option Bool × List Call :=
  xioctl IoctlReq.VIDIOC_STREAMON w.streamon

/-- The buffer loop of `startCamera`, `todo` rounds from index `n` on.  The
first component is `none` when the loop runs to its end and otherwise the way
`startCamera` is left from inside the loop.  `CAPTUREBUF` is the size every
buffer is requested with. -/
def Camera.queueBuffers (CAPTUREBUF : Nat) (w : StartWorld) :
    Nat → Nat → Camera → Option Outcome × Camera × List Call
  | 0, _, cam => (none, cam, [])
  | todo + 1, n, cam =>
    match DmaBuffer.new (w.mmngr n) CAPTUREBUF 1 with
    | (Except.error out, t) => (some out, cam, t)
    | (Except.ok b, t) =>
      let cam1 := { cam with capture_dma_buffers_ := cam.capture_dma_buffers_ ++ [b] }
      match cam1.capture_dma_buffers_[n]? with
      | none => (some Outcome.fault, cam1, t)
      | some buf =>
        let cam2 :=
          { cam1 with
            active_capture_buffer_ :=
              { type := V4L2_BUF_TYPE_VIDEO_CAPTURE, memory := V4L2_MEMORY_DMABUF, index := n,
                fd := buf.fd_, length := buf.size_ } }
        match xioctl (IoctlReq.VIDIOC_QBUF cam2.active_capture_buffer_) (w.qbuf n) with
        | (none, t1) => (some Outcome.blocked, cam2, t ++ t1)
        | (some false, t1) => (some (Outcome.returned false), cam2, t ++ t1)
        | (some true, t1) =>
          let r := Camera.queueBuffers CAPTUREBUF w todo (n + 1) cam2
          (r.1, r.2.1, t ++ t1 ++ r.2.2)

/-- The method `Camera::startCamera`. -/
def Camera.startCamera (CAPTUREBUF : Nat) (w : StartWorld) (cam : Camera) :
    Outcome × Camera × List Call :=
  let media_dev := MediaDevice.ofId w.media_start cam.cam_src_.toNat
  if !media_dev.1.isOpen then (Outcome.returned false, cam, media_dev.2)
  else
    let t1 :=
      if cam.cam_src_.toNat < CameraSource.UVC0.toNat then
        (MediaDevice.configurePipeline cam.entity_configs media_dev.1).2
      else []
    match cam.openCaptureDevice w with
    | (false, cam1, t2) => (Outcome.returned false, cam1, media_dev.2 ++ t1 ++ t2)
    | (true, cam1, t2) =>
      match cam1.setCaptureFormat w with
      | (none, t3) => (Outcome.blocked, cam1, media_dev.2 ++ t1 ++ t2 ++ t3)
      | (some false, t3) => (Outcome.returned false, cam1, media_dev.2 ++ t1 ++ t2 ++ t3)
      | (some true, t3) =>
        match cam1.requestCaptureBuffers w with
        | (none, t4) => (Outcome.blocked, cam1, media_dev.2 ++ t1 ++ t2 ++ t3 ++ t4)
        | (some false, t4) =>
          (Outcome.returned false, cam1, media_dev.2 ++ t1 ++ t2 ++ t3 ++ t4)
        | (some true, t4) =>
          match Camera.queueBuffers CAPTUREBUF w cam1.number_of_capture_buffers_ 0 cam1 with
          | (some out, cam2, t5) => (out, cam2, media_dev.2 ++ t1 ++ t2 ++ t3 ++ t4 ++ t5)
          | (none, cam2, t5) =>
            match cam2.startCapture w with
            | (none, t6) =>
              (Outcome.blocked, cam2, media_dev.2 ++ t1 ++ t2 ++ t3 ++ t4 ++ t5 ++ t6)
            | (some false, t6) =>
              (Outcome.returned false, cam2, media_dev.2 ++ t1 ++ t2 ++ t3 ++ t4 ++ t5 ++ t6)
            | (some true, t6) =>
              (Outcome.returned true, cam2, media_dev.2 ++ t1 ++ t2 ++ t3 ++ t4 ++ t5 ++ t6)

/-- The answers of the platform during one `captureImage`. -/
structure CaptureWorld where
  /-- the answers of the successive `select` calls -/
  select : List SysResult
  /-- the answers to `VIDIOC_DQBUF` -/
  dqbuf : List SysResult
  /-- what the driver writes into the `v4l2_buffer` when the dequeue succeeds -/
  dequeued : V4l2Buffer
  /-- return value of `mmngr_flush` -/
  flush_rc : Int

/-- The `while (1)` loop of `captureImage` around `select`: `some true` when
the loop is left by `break`, `some false` when it is left by `return false`,
`none` when every answer at hand was an interruption. -/
def waitForFrame : List SysResult → Option Bool × List Call
  | [] => (none, [])
  | r :: rest =>
    if 0 > r.ret then
      if r.errno = EINTR then ((waitForFrame rest).1, Call.sys_select :: (waitForFrame rest).2)
      else (some false, [Call.sys_select])
    else (some true, [Call.sys_select])

/-- The method `Camera::captureImage`. -/
def Camera.captureImage (w : CaptureWorld) (cam : Camera) : Outcome × Camera × List Call :=
  match waitForFrame w.select with
  | (none, t) => (Outcome.blocked, cam, t)
  | (some false, t) => (Outcome.returned false, cam, t)
  | (some true, t) =>
    match xioctl IoctlReq.VIDIOC_DQBUF w.dqbuf with
    | (none, t1) => (Outcome.blocked, cam, t ++ t1)
    | (some false, t1) => (Outcome.returned false, cam, t ++ t1)
    | (some true, t1) =>
      let cam1 := { cam with active_capture_buffer_ := w.dequeued }
      match cam1.capture_dma_buffers_[cam1.active_capture_buffer_.index]? with
      | none => (Outcome.fault, cam1, t ++ t1)
      | some buf =>
        if !(buf.flush w.flush_rc).1 then
          (Outcome.returned false, cam1, t ++ t1 ++ (buf.flush w.flush_rc).2)
        else (Outcome.returned true, cam1, t ++ t1 ++ (buf.flush w.flush_rc).2)

/-- The method `Camera::queueCaptureBuffer`; `answers` are those to
`VIDIOC_QBUF`. -/
def Camera.queueCaptureBuffer (answers : List SysResult) (cam : Camera) :
    Option Bool × List Call :=
  xioctl (IoctlReq.VIDIOC_QBUF cam.active_capture_buffer_) answers

/-- The method `Camera::stopCapture`; `answers` are those to `VIDIOC_STREAMOFF`. -/
def Camera.stopCapture (answers : List SysResult) (_cam : Camera) : Option Bool × List Call :=
  xioctl IoctlReq.VIDIOC_STREAMOFF answers

/-- The method `Camera::closeCamera`, which the destructor runs; the result
says whether it comes back. -/
def Camera.closeCamera (answers : List SysResult) (cam : Camera) : Option Unit × List Call :=
  match cam.stopCapture answers with
  | (none, t) => (none, t)
  | (some false, t) => (some (), t)
  | (some true, t) => (some (), t ++ [Call.sys_close cam.fd_])

/-! ## Calls on a MediaDevice in sequence -/

/-- One call of a public method that changes a `MediaDevice`; `open` comes with
what the platform answers to it. -/
inductive MediaOp where
  | open (w : MediaWorld) (dev_name : String)
  | close
  | configurePipeline (pipeline_config : List EntityConfig)

/-- The device after one call. -/
def MediaDevice.apply (d : MediaDevice) : MediaOp → MediaDevice
  | MediaOp.open w dev_name => (MediaDevice.open w dev_name d).2.1
  | MediaOp.close => d.close
  | MediaOp.configurePipeline pipeline_config => (d.configurePipeline pipeline_config).1

/-- The device after a sequence of calls. -/
def MediaDevice.run (d : MediaDevice) (ops : List MediaOp) : MediaDevice :=
  ops.foldl MediaDevice.apply d

/-! ## The capture queue of the driver -/

/-- The capture queue of the driver as a FIFO of the buffers handed to it: a
`VIDIOC_QBUF` appends its buffer, a `VIDIOC_DQBUF` takes the head, every other
call leaves the queue as it is.  This is the driver answering every request at
once, without interruption. -/
def kernelApply (q : List V4l2Buffer) : Call → List V4l2Buffer
  | Call.sys_ioctl (IoctlReq.VIDIOC_QBUF b) => q ++ [b]
  | Call.sys_ioctl IoctlReq.VIDIOC_DQBUF => q.tail
  | _ => q

/-- The queue after the calls of a trace. -/
def kernelRun (q : List V4l2Buffer) (tr : List Call) : List V4l2Buffer :=
  tr.foldl kernelApply q

/-- What the FIFO driver with queue `q` answers during one `captureImage`: the
head of the queue becomes ready and is handed back by `VIDIOC_DQBUF`; with an
empty queue no frame becomes ready.  The cache flush succeeds. -/
def fifoCaptureWorld : List V4l2Buffer → CaptureWorld
  | [] => { select := [], dqbuf := [], dequeued := {}, flush_rc := 0 }
  | b :: _ => { select := [{ ret := 1 }], dqbuf := [{ ret := 0 }], dequeued := b, flush_rc := 0 }

/-- What is seen of one round of `captureImage` followed by
`queueCaptureBuffer`. -/
structure Round where
  /-- how `captureImage` ended -/
  capture : Outcome
  /-- index of the active buffer after `captureImage` -/
  dequeued : Nat
  /-- the queue of the driver between the two calls -/
  mid : List V4l2Buffer
  /-- what `queueCaptureBuffer` returned -/
  requeue : Option Bool
  /-- the camera after the round -/
  cam : Camera
  /-- the queue of the driver after the round -/
  queue : List V4l2Buffer

/-- One round of `captureImage` followed by `queueCaptureBuffer` against the
FIFO driver. -/
def captureRound (cam : Camera) (q : List V4l2Buffer) : Round :=
  let r := cam.captureImage (fifoCaptureWorld q)
  let mid := kernelRun q r.2.2
  let r2 := r.2.1.queueCaptureBuffer [{ ret := 0 }]
  { capture := r.1, dequeued := r.2.1.active_capture_buffer_.index, mid := mid,
    requeue := r2.1, cam := r.2.1, queue := kernelRun mid r2.2 }

/-- The rounds of `k` successive captures. -/
def captureRounds : Nat → Camera → List V4l2Buffer → List Round
  | 0, _, _ => []
  | k + 1, cam, q =>
    captureRound cam q :: captureRounds k (captureRound cam q).cam (captureRound cam q).queue

/-! ## Specification vocabulary -/

/-- The segment `seg` is what the role `t` with name pattern `pat` should
contribute for the topology `topo`: nothing when no entity name has `pat` as a
substring, and otherwise the entity of lowest index whose name has. -/
def FirstMatch (topo : List EntityDesc) (t : EntityType) (pat : String)
    (seg : List MediaEntity) : Prop :=
  ((∀ e ∈ topo, ¬ pat.data <:+: e.name.data) ∧ seg = []) ∨
  (∃ (i : Nat) (e : EntityDesc), topo[i]? = some e ∧ pat.data <:+: e.name.data ∧
    (∀ (j : Nat) (e2 : EntityDesc), j < i → topo[j]? = some e2 → ¬ pat.data <:+: e2.name.data) ∧
    seg = [{ type := t, name := e.name, config := {} }])

/-- Position of a request inside the second loop of `configurePipeline`: round
`i` first issues its link request, then its pad-format requests. -/
def reqKey : Nat × Call → Nat
  | (i, Call.v4l2_subdev_parse_setup_formats _) => 2 * i + 1
  | (i, _) => 2 * i

/-- The answer `r` of an ioctl is an interruption: -1 with `errno = EINTR`. -/
def Interrupted (r : SysResult) : Prop := r.ret = -1 ∧ r.errno = EINTR

/-- A retried request succeeds: after interruptions only, an answer other than
-1 arrives. -/
def RequestSucceeds (answers : List SysResult) : Prop :=
  ∃ pre r rest, answers = pre ++ r :: rest ∧ (∀ x ∈ pre, Interrupted x) ∧ r.ret ≠ -1

/-- A retried request fails: after interruptions only, the answer -1 arrives
with an `errno` other than `EINTR`. -/
def RequestFails (answers : List SysResult) : Prop :=
  ∃ pre r rest, answers = pre ++ r :: rest ∧ (∀ x ∈ pre, Interrupted x) ∧
    r.ret = -1 ∧ r.errno ≠ EINTR

/-- A retried request comes to an end: some answer is not an interruption. -/
def Resolves (answers : List SysResult) : Prop := ∃ r ∈ answers, ¬ Interrupted r

/-- The answer `r` of `select` is an interruption: negative with
`errno = EINTR`. -/
def WaitInterrupted (r : SysResult) : Prop := r.ret < 0 ∧ r.errno = EINTR

/-- The readiness wait succeeds: after interruptions only, `select` answers a
value that is not negative. -/
def WaitSucceeds (answers : List SysResult) : Prop :=
  ∃ pre r rest, answers = pre ++ r :: rest ∧ (∀ x ∈ pre, WaitInterrupted x) ∧ 0 ≤ r.ret

/-- The readiness wait fails with an error other than `EINTR`. -/
def WaitFails (answers : List SysResult) : Prop :=
  ∃ pre r rest, answers = pre ++ r :: rest ∧ (∀ x ∈ pre, WaitInterrupted x) ∧
    r.ret < 0 ∧ r.errno ≠ EINTR

/-- The startup step of `startCamera` a call belongs to: 1 media-device open
(the capture-device open repeats these two calls), 2 graph configuration,
3 capture-device open, 4 format negotiation, 5 kernel buffer request,
6 allocation and queueing of the buffers, 7 stream-on; 8 for the calls that
are not part of the startup. -/
def Call.step : Call → Nat
  | Call.media_device_new _ => 1
  | Call.media_device_enumerate => 1
  | Call.media_reset_links => 2
  | Call.media_parse_setup_links _ => 2
  | Call.v4l2_subdev_parse_setup_formats _ => 2
  | Call.sys_open _ => 3
  | Call.sys_ioctl IoctlReq.VIDIOC_S_FMT => 4
  | Call.sys_ioctl IoctlReq.VIDIOC_S_PARM => 4
  | Call.sys_ioctl IoctlReq.VIDIOC_REQBUFS => 5
  | Call.mmngr_alloc_in_user_ext _ => 6
  | Call.mmngr_export_start_in_user_ext _ => 6
  | Call.sys_ioctl (IoctlReq.VIDIOC_QBUF _) => 6
  | Call.sys_ioctl IoctlReq.VIDIOC_STREAMON => 7
  | _ => 8

/-- The call is a link request of the media graph. -/
def Call.isLink : Call → Bool
  | Call.media_parse_setup_links _ => true
  | _ => false

/-- The `v4l2_buffer` that `startCamera` fills for index `n` from the buffer
`b`. -/
def v4l2BufferFor (n : Nat) (b : DmaBuffer) : V4l2Buffer :=
  { type := V4L2_BUF_TYPE_VIDEO_CAPTURE, memory := V4L2_MEMORY_DMABUF, index := n,
    fd := b.fd_, length := b.size_ }

/-- The buffer a call hands to the driver, for a `VIDIOC_QBUF`. -/
def Call.queued : Call → Option V4l2Buffer
  | Call.sys_ioctl (IoctlReq.VIDIOC_QBUF b) => some b
  | _ => none

/-- The call is an allocation request to the memory manager. -/
def Call.isAlloc : Call → Bool
  | Call.mmngr_alloc_in_user_ext _ => true
  | _ => false

/-- The media device opens: `media_device_new` hands back a handle and the
enumeration succeeds. -/
def MediaOpens (m : MediaWorld) : Prop := m.new_ok = true ∧ m.enumerated ≠ none

/-- The capture device opens: the media device opens, some entity has a
device-node name containing "/dev/video", and `::open` does not answer -1. -/
def CaptureOpens (w : StartWorld) : Prop :=
  w.media_capture.new_ok = true ∧
  (∃ topo, w.media_capture.enumerated = some topo ∧
    ∃ e ∈ topo, "/dev/video".data <:+: e.devname.data) ∧
  w.open_fd ≠ -1

/-- The memory manager hands back a buffer for index `n`. -/
def AllocOk (w : StartWorld) (n : Nat) : Prop := (w.mmngr n).puser_virt_addr ≠ 0

/-- Every checked step of `startCamera` with `N` buffers succeeds. -/
def AllStepsSucceed (w : StartWorld) (N : Nat) : Prop :=
  MediaOpens w.media_start ∧ CaptureOpens w ∧ RequestSucceeds w.s_fmt ∧
  RequestSucceeds w.reqbufs ∧ (∀ n, n < N → AllocOk w n ∧ RequestSucceeds (w.qbuf n)) ∧
  RequestSucceeds w.streamon

/-- No retried request of `startCamera` with `N` buffers is interrupted for
ever. -/
def Responsive (w : StartWorld) (N : Nat) : Prop :=
  Resolves w.s_fmt ∧ Resolves w.reqbufs ∧ (∀ n, n < N → Resolves (w.qbuf n)) ∧
  Resolves w.streamon

/-! ## Concrete inputs -/

/-- A topology with the four entities of the MIPI pipeline. -/
def sampleTopology : List EntityDesc :=
  [ { name := "ar1335 0-0036" }, { name := "ap1302.0-003c" },
    { name := "rzg2l_csi2 10830400.csi2" }, { name := "CRU output", devname := "/dev/video0" } ]

/-- A platform on which every checked step of `startCamera` succeeds, while
every graph-configuration request and `VIDIOC_S_PARM` fail. -/
def sampleWorld : StartWorld :=
  { media_start := ⟨true, some sampleTopology⟩
    graph_rc := fun _ => -1
    media_capture := ⟨true, some sampleTopology⟩
    open_fd := 3
    s_fmt := [{ ret := 0 }]
    s_parm := { ret := -1, errno := 25 }
    reqbufs := [{ ret := -1, errno := EINTR }, { ret := 0 }]
    mmngr := fun n => { id := n + 10, phard_addr := 4096 * (n + 1),
                        puser_virt_addr := 8192 * (n + 1), dma_fd := 20 + n }
    qbuf := fun _ => [{ ret := 0 }]
    streamon := [{ ret := 0 }] }

/-- The media device as its constructor leaves it on the sample topology. -/
def sampleDevice : MediaDevice := (MediaDevice.ofId ⟨true, some sampleTopology⟩ 0).1

/-- A camera on the first CRU with two capture buffers. -/
def sampleCamera : Camera := Camera.new 2 CameraSource.CRU0 640 480 (-1) {}

/-- A camera on the first external source. -/
def sampleUvcCamera : Camera := Camera.new 2 CameraSource.UVC0 640 480 (-1) {}

/-! ## Strings: lemmas -/

theorem strFind_isSome_iff (pat l : List Char) : (strFind pat l).isSome = true ↔ pat <:+: l := by
  induction l with
  | nil =>
    cases pat with
    | nil => simp [strFind]
    | cons p ps => simp [strFind, List.isPrefixOf]
  | cons c cs ih =>
    unfold strFind
    rw [List.infix_cons_iff]
    by_cases h : pat.isPrefixOf (c :: cs) = true
    · simp only [h, if_true, Option.isSome_some, true_iff]
      exact Or.inl (List.isPrefixOf_iff_prefix.mp h)
    · have h2 : ¬ pat <+: c :: cs := fun hp => h (List.isPrefixOf_iff_prefix.mpr hp)
      simp only [h, Option.isSome_map', h2, false_or]
      simpa using ih

theorem contains_iff (s pat : String) : contains s pat = true ↔ pat.data <:+: s.data := by
  unfold contains
  exact strFind_isSome_iff _ _

theorem scanEntities_spec (t : EntityType) (topo : List EntityDesc) :
    FirstMatch topo t (kEntityNameLookup t) (scanEntities t topo).toList := by
  unfold FirstMatch
  induction topo with
  | nil => left; simp [scanEntities]
  | cons e rest ih =>
    unfold scanEntities
    by_cases h : contains e.name (kEntityNameLookup t) = true
    · right
      refine ⟨0, e, by simp, (contains_iff _ _).mp h, ?_, by simp [h]⟩
      intro j e2 hj
      omega
    · simp only [h]
      have hno : ¬ (kEntityNameLookup t).data <:+: e.name.data := fun hh => h ((contains_iff _ _).mpr hh)
      rcases ih with ⟨hall, hnil⟩ | ⟨i, e1, hi, hin, hmin, hseg⟩
      · left
        refine ⟨?_, by simpa using hnil⟩
        intro x hx
        rcases List.mem_cons.mp hx with rfl | hx
        · exact hno
        · exact hall x hx
      · right
        refine ⟨i + 1, e1, by simpa using hi, hin, ?_, by simpa using hseg⟩
        intro j e2 hj hget
        cases j with
        | zero =>
          simp at hget
          subst hget
          exact hno
        | succ k =>
          simp at hget
          exact hmin k e2 (by omega) hget

theorem enumerateRole_eq (topo : List EntityDesc) (p : List MediaEntity) (t : EntityType) :
    enumerateRole topo p t = p ++ (scanEntities t topo).toList := by
  unfold enumerateRole
  cases scanEntities t topo <;> simp

theorem scanEntities_type (t : EntityType) (topo : List EntityDesc) :
    ∀ e ∈ (scanEntities t topo).toList, e.type = t ∧ e.config = {} := by
  induction topo with
  | nil => simp [scanEntities]
  | cons x rest ih =>
    unfold scanEntities
    by_cases h : contains x.name (kEntityNameLookup t) = true
    · simp [h]
    · simpa [h] using ih

theorem Enumerate_pipeline (new_ok : Bool) (topo : List EntityDesc) (d : MediaDevice) :
    (MediaDevice.Enumerate ⟨new_ok, some topo⟩ d).2.1.pipeline_entities_ =
      d.pipeline_entities_ ++ (scanEntities EntityType.Sensor topo).toList ++
        (scanEntities EntityType.VideoIsp topo).toList ++
        (scanEntities EntityType.CsiMipiReceiver topo).toList ++
        (scanEntities EntityType.VideoCapture topo).toList := by
  simp [MediaDevice.Enumerate, kSimplePipeline, enumerateRole_eq]

/-! ## The request loop of configurePipeline: lemmas -/

theorem mem_of_getElem?_eq_some {α : Type} (l : List α) (i : Nat) (a : α)
    (h : l[i]? = some a) : a ∈ l := by
  rcases List.getElem?_eq_some.mp h with ⟨hi, rfl⟩
  exact List.getElem_mem hi

theorem linkRequests_mem (ents : List MediaEntity) (i : Nat) (c : Call)
    (h : c ∈ linkRequests ents i) :
    ∃ a b, ents[i]? = some a ∧ ents[i + 1]? = some b ∧
      c = Call.media_parse_setup_links (createLinkString a b) ∧ createLinkString a b ≠ "" := by
  unfold linkRequests at h
  split at h
  · split at h
    · rename_i a b ha hb
      dsimp only at h
      split at h
      · rename_i hne
        simp only [List.mem_singleton] at h
        refine ⟨a, b, ha, hb, h, ?_⟩
        intro he
        rw [he] at hne
        exact absurd hne (by decide)
      · simp at h
    · simp at h
  · simp at h

theorem padRequests_mem (ents : List MediaEntity) (i : Nat) (c : Call)
    (h : c ∈ padRequests ents i) :
    ∃ a, ents[i]? = some a ∧
      ((c = Call.v4l2_subdev_parse_setup_formats (createPadFormatString a.name a.config.sink_pad) ∧
          createPadFormatString a.name a.config.sink_pad ≠ "") ∨
        (c = Call.v4l2_subdev_parse_setup_formats (createPadFormatString a.name a.config.source_pad) ∧
          createPadFormatString a.name a.config.source_pad ≠ "")) := by
  unfold padRequests at h
  split at h
  · rename_i a ha
    refine ⟨a, ha, ?_⟩
    rcases List.mem_append.mp h with h | h
    · left
      split at h
      · rename_i hne
        simp only [List.mem_singleton] at h
        refine ⟨h, ?_⟩
        intro he
        rw [he] at hne
        exact absurd hne (by decide)
      · simp at h
    · right
      split at h
      · rename_i hne
        simp only [List.mem_singleton] at h
        refine ⟨h, ?_⟩
        intro he
        rw [he] at hne
        exact absurd hne (by decide)
      · simp at h
  · simp at h

theorem configureLoop_mem (ents : List MediaEntity) (x : Nat × Call)
    (h : x ∈ configureLoop ents) :
    x.1 < ents.length ∧ (x.2 ∈ linkRequests ents x.1 ∨ x.2 ∈ padRequests ents x.1) := by
  unfold configureLoop at h
  rcases List.mem_flatMap.mp h with ⟨i, hi, hx⟩
  rcases List.mem_map.mp hx with ⟨c, hc, rfl⟩
  exact ⟨List.mem_range.mp hi, List.mem_append.mp hc⟩

theorem reqKey_link (ents : List MediaEntity) (i : Nat) (c : Call)
    (h : c ∈ linkRequests ents i) : reqKey (i, c) = 2 * i := by
  rcases linkRequests_mem ents i c h with ⟨a, b, _, _, rfl, _⟩
  rfl

theorem reqKey_pad (ents : List MediaEntity) (i : Nat) (c : Call)
    (h : c ∈ padRequests ents i) : reqKey (i, c) = 2 * i + 1 := by
  rcases padRequests_mem ents i c h with ⟨a, _, ⟨rfl, _⟩ | ⟨rfl, _⟩⟩ <;> rfl

theorem configureLoop_pairwise (ents : List MediaEntity) :
    List.Pairwise (fun a b => reqKey a ≤ reqKey b) (configureLoop ents) := by
  unfold configureLoop
  rw [List.pairwise_flatMap]
  constructor
  · intro i _
    rw [List.pairwise_map, List.pairwise_append]
    refine ⟨?_, ?_, ?_⟩
    · rw [List.pairwise_iff_forall_sublist]
      intro a b hab
      have ha : a ∈ linkRequests ents i := hab.subset (by simp)
      have hb : b ∈ linkRequests ents i := hab.subset (by simp)
      rw [reqKey_link ents i a ha, reqKey_link ents i b hb]
    · rw [List.pairwise_iff_forall_sublist]
      intro a b hab
      have ha : a ∈ padRequests ents i := hab.subset (by simp)
      have hb : b ∈ padRequests ents i := hab.subset (by simp)
      rw [reqKey_pad ents i a ha, reqKey_pad ents i b hb]
    · intro a ha b hb
      rw [reqKey_link ents i a ha, reqKey_pad ents i b hb]
      omega
  · refine (List.pairwise_lt_range _).imp ?_
    intro i j hij x hx y hy
    rcases List.mem_map.mp hx with ⟨c, hc, rfl⟩
    rcases List.mem_map.mp hy with ⟨e, he, rfl⟩
    have h1 : reqKey (i, c) ≤ 2 * i + 1 := by
      rcases List.mem_append.mp hc with h | h
      · rw [reqKey_link ents i c h]; omega
      · rw [reqKey_pad ents i c h]
    have h2 : 2 * j ≤ reqKey (j, e) := by
      rcases List.mem_append.mp he with h | h
      · rw [reqKey_link ents j e h]
      · rw [reqKey_pad ents j e h]; omega
    omega

/-! ## Binding of configurations: lemmas -/

theorem bindConfig_of_no_entity (c : EntityConfig) (es : List MediaEntity)
    (h : ∀ e ∈ es, e.type ≠ c.type) : bindConfig c es = es := by
  induction es with
  | nil => rfl
  | cons e rest ih =>
    have he : e.type ≠ c.type := h e (by simp)
    simp only [bindConfig, he, if_false]
    rw [ih (fun x hx => h x (by simp [hx]))]

theorem bindConfig_types (c : EntityConfig) (es : List MediaEntity) :
    (bindConfig c es).map MediaEntity.type = es.map MediaEntity.type := by
  induction es with
  | nil => rfl
  | cons e rest ih =>
    unfold bindConfig
    by_cases he : e.type = c.type
    · simp [he]
    · simp [he, ih]

theorem bindConfig_cons_eq (c : EntityConfig) (e : MediaEntity) (rest : List MediaEntity)
    (h : e.type = c.type) : bindConfig c (e :: rest) = { e with config := c } :: rest := by
  simp only [bindConfig, if_pos h]

theorem bindConfig_cons_ne (c : EntityConfig) (e : MediaEntity) (rest : List MediaEntity)
    (h : e.type ≠ c.type) : bindConfig c (e :: rest) = e :: bindConfig c rest := by
  simp only [bindConfig, if_neg h]

theorem bindConfig_absorb (c d : EntityConfig) (h : c.type = d.type) (es : List MediaEntity) :
    bindConfig d (bindConfig c es) = bindConfig d es := by
  induction es with
  | nil => rfl
  | cons e rest ih =>
    by_cases he : e.type = c.type
    · have hd : e.type = d.type := he.trans h
      rw [bindConfig_cons_eq c e rest he, bindConfig_cons_eq d e rest hd,
        bindConfig_cons_eq d { e with config := c } rest hd]
    · have hd : e.type ≠ d.type := fun hh => he (hh.trans h.symm)
      rw [bindConfig_cons_ne c e rest he, bindConfig_cons_ne d e rest hd,
        bindConfig_cons_ne d e _ hd, ih]

theorem bindConfig_comm (c d : EntityConfig) (h : c.type ≠ d.type) (es : List MediaEntity) :
    bindConfig c (bindConfig d es) = bindConfig d (bindConfig c es) := by
  induction es with
  | nil => rfl
  | cons e rest ih =>
    by_cases hc : e.type = c.type
    · have hd : e.type ≠ d.type := fun hh => h (hc.symm.trans hh)
      rw [bindConfig_cons_ne d e rest hd, bindConfig_cons_eq c e _ hc,
        bindConfig_cons_eq c e rest hc, bindConfig_cons_ne d { e with config := c } rest hd]
    · by_cases hd : e.type = d.type
      · rw [bindConfig_cons_eq d e rest hd, bindConfig_cons_ne c e rest hc,
          bindConfig_cons_ne c { e with config := d } rest hc, bindConfig_cons_eq d e _ hd]
      · rw [bindConfig_cons_ne d e rest hd, bindConfig_cons_ne c e rest hc,
          bindConfig_cons_ne c e _ hc, bindConfig_cons_ne d e _ hd, ih]

theorem bindConfigs_nil (es : List MediaEntity) : bindConfigs [] es = es := rfl

theorem bindConfigs_cons (c : EntityConfig) (p : List EntityConfig) (es : List MediaEntity) :
    bindConfigs (c :: p) es = bindConfigs p (bindConfig c es) := rfl

theorem bindConfigs_types (p : List EntityConfig) (es : List MediaEntity) :
    (bindConfigs p es).map MediaEntity.type = es.map MediaEntity.type := by
  induction p generalizing es with
  | nil => rfl
  | cons c p ih => rw [bindConfigs_cons, ih, bindConfig_types]

/-- A later configuration of the same type overrides an earlier one. -/
theorem bindConfigs_override (c : EntityConfig) (p : List EntityConfig)
    (h : ∃ d ∈ p, d.type = c.type) (es : List MediaEntity) :
    bindConfigs p (bindConfig c es) = bindConfigs p es := by
  induction p generalizing es with
  | nil => simp at h
  | cons d p ih =>
    rw [bindConfigs_cons, bindConfigs_cons]
    by_cases hd : c.type = d.type
    · rw [bindConfig_absorb c d hd]
    · rw [bindConfig_comm d c (fun hh => hd hh.symm)]
      apply ih
      rcases h with ⟨x, hx, hxt⟩
      rcases List.mem_cons.mp hx with rfl | hx
      · exact absurd hxt.symm hd
      · exact ⟨x, hx, hxt⟩

/-- A configuration whose type no later one shares can be bound last. -/
theorem bindConfigs_defer (c : EntityConfig) (p : List EntityConfig)
    (h : ∀ d ∈ p, d.type ≠ c.type) (es : List MediaEntity) :
    bindConfigs p (bindConfig c es) = bindConfig c (bindConfigs p es) := by
  induction p generalizing es with
  | nil => rfl
  | cons d p ih =>
    rw [bindConfigs_cons, bindConfigs_cons]
    have hd : d.type ≠ c.type := h d (by simp)
    rw [bindConfig_comm d c hd]
    exact ih (fun x hx => h x (by simp [hx])) _

theorem bindConfigs_idem (p : List EntityConfig) (es : List MediaEntity) :
    bindConfigs p (bindConfigs p es) = bindConfigs p es := by
  induction p generalizing es with
  | nil => rfl
  | cons c p ih =>
    rw [bindConfigs_cons, bindConfigs_cons]
    by_cases h : ∃ d ∈ p, d.type = c.type
    · rw [bindConfigs_override c p h, ih]
    · have h2 : ∀ d ∈ p, d.type ≠ c.type := fun d hd hh => h ⟨d, hd, hh⟩
      rw [bindConfigs_defer c p h2 es, bindConfig_absorb c c rfl,
        bindConfigs_defer c p h2 (bindConfigs p es), ih]

theorem bindConfigs_filter (t : EntityType) (p : List EntityConfig) (es : List MediaEntity)
    (h : ∀ e ∈ es, e.type ≠ t) :
    bindConfigs p es = bindConfigs (p.filter (fun c => decide (c.type ≠ t))) es := by
  induction p generalizing es with
  | nil => rfl
  | cons c p ih =>
    by_cases hc : c.type = t
    · have hno : ∀ e ∈ es, e.type ≠ c.type := fun e he => hc ▸ h e he
      rw [bindConfigs_cons, bindConfig_of_no_entity c es hno]
      simp only [List.filter, hc, ne_eq, not_true_eq_false, decide_False]
      exact ih es h
    · have hkeep : (c :: p).filter (fun c => decide (c.type ≠ t)) =
          c :: p.filter (fun c => decide (c.type ≠ t)) :=
        List.filter_cons_of_pos (by simpa using hc)
      rw [hkeep, bindConfigs_cons, bindConfigs_cons]
      apply ih
      intro e he
      have hm : e.type ∈ (bindConfig c es).map MediaEntity.type := List.mem_map_of_mem _ he
      rw [bindConfig_types] at hm
      rcases List.mem_map.mp hm with ⟨e0, he0, heq⟩
      rw [← heq]
      exact h e0 he0

theorem bindConfig_config_type (t : EntityType) (c : EntityConfig) (es : List MediaEntity)
    (hty : ∀ e ∈ es, e.type ≠ t) (hcfg : ∀ e ∈ es, e.config.type ≠ t) :
    ∀ e ∈ bindConfig c es, e.config.type ≠ t := by
  induction es with
  | nil => simp [bindConfig]
  | cons x rest ih =>
    unfold bindConfig
    by_cases hx : x.type = c.type
    · simp only [hx, if_true]
      intro e he
      rcases List.mem_cons.mp he with rfl | he
      · show c.type ≠ t
        rw [← hx]
        exact hty x (by simp)
      · exact hcfg e (by simp [he])
    · simp only [hx, if_false]
      intro e he
      rcases List.mem_cons.mp he with rfl | he
      · exact hcfg e (by simp)
      · exact ih (fun y hy => hty y (by simp [hy])) (fun y hy => hcfg y (by simp [hy])) e he

theorem bindConfigs_config_type (t : EntityType) (p : List EntityConfig) (es : List MediaEntity)
    (hty : ∀ e ∈ es, e.type ≠ t) (hcfg : ∀ e ∈ es, e.config.type ≠ t) :
    ∀ e ∈ bindConfigs p es, e.config.type ≠ t := by
  induction p generalizing es with
  | nil => exact hcfg
  | cons c p ih =>
    rw [bindConfigs_cons]
    apply ih
    · intro e he
      have hm : e.type ∈ (bindConfig c es).map MediaEntity.type := List.mem_map_of_mem _ he
      rw [bindConfig_types] at hm
      rcases List.mem_map.mp hm with ⟨e0, he0, heq⟩
      rw [← heq]
      exact hty e0 he0
    · exact bindConfig_config_type t c es hty hcfg

/-! ## Retried calls: lemmas -/

theorem xioctl_trace (req : IoctlReq) (answers : List SysResult) :
    ∀ c ∈ (xioctl req answers).2, c = Call.sys_ioctl req := by
  induction answers with
  | nil => simp [xioctl]
  | cons r rest ih =>
    unfold xioctl
    by_cases h : r.ret = -1 ∧ r.errno = EINTR
    · simp only [h, and_self, if_true, List.mem_cons]
      rintro c (rfl | hc)
      · rfl
      · exact ih c hc
    · simp [h]

theorem xioctl_true_iff (req : IoctlReq) (answers : List SysResult) :
    (xioctl req answers).1 = some true ↔ RequestSucceeds answers := by
  induction answers with
  | nil => simp [xioctl, RequestSucceeds]
  | cons r rest ih =>
    unfold xioctl
    by_cases h : r.ret = -1 ∧ r.errno = EINTR
    · simp only [h, and_self, if_true, ih]
      constructor
      · rintro ⟨pre, x, tl, rfl, hpre, hx⟩
        refine ⟨r :: pre, x, tl, rfl, ?_, hx⟩
        intro y hy
        rcases List.mem_cons.mp hy with rfl | hy
        · exact h
        · exact hpre y hy
      · rintro ⟨pre, x, tl, heq, hpre, hx⟩
        cases pre with
        | nil =>
          simp only [List.nil_append, List.cons.injEq] at heq
          exact absurd (heq.1 ▸ h.1) hx
        | cons p pre =>
          simp only [List.cons_append, List.cons.injEq] at heq
          exact ⟨pre, x, tl, heq.2, fun y hy => hpre y (by simp [hy]), hx⟩
    · simp only [h, if_false]
      constructor
      · intro hv
        refine ⟨[], r, rest, rfl, by simp, ?_⟩
        intro hr
        simp [hr] at hv
      · rintro ⟨pre, x, tl, heq, hpre, hx⟩
        cases pre with
        | nil =>
          simp only [List.nil_append, List.cons.injEq] at heq
          rw [heq.1]
          simp [hx]
        | cons p pre =>
          simp only [List.cons_append, List.cons.injEq] at heq
          exact absurd (heq.1 ▸ hpre p (by simp)) h

theorem xioctl_false_iff (req : IoctlReq) (answers : List SysResult) :
    (xioctl req answers).1 = some false ↔ RequestFails answers := by
  induction answers with
  | nil => simp [xioctl, RequestFails]
  | cons r rest ih =>
    unfold xioctl
    by_cases h : r.ret = -1 ∧ r.errno = EINTR
    · simp only [h, and_self, if_true, ih]
      constructor
      · rintro ⟨pre, x, tl, rfl, hpre, hx⟩
        refine ⟨r :: pre, x, tl, rfl, ?_, hx⟩
        intro y hy
        rcases List.mem_cons.mp hy with rfl | hy
        · exact h
        · exact hpre y hy
      · rintro ⟨pre, x, tl, heq, hpre, hx⟩
        cases pre with
        | nil =>
          simp only [List.nil_append, List.cons.injEq] at heq
          exact absurd (heq.1 ▸ h.2) hx.2
        | cons p pre =>
          simp only [List.cons_append, List.cons.injEq] at heq
          exact ⟨pre, x, tl, heq.2, fun y hy => hpre y (by simp [hy]), hx⟩
    · simp only [h, if_false]
      constructor
      · intro hv
        have hr : r.ret = -1 := by
          by_contra hne
          simp [hne] at hv
        exact ⟨[], r, rest, rfl, by simp, hr, fun he => h ⟨hr, he⟩⟩
      · rintro ⟨pre, x, tl, heq, hpre, hx⟩
        cases pre with
        | nil =>
          simp only [List.nil_append, List.cons.injEq] at heq
          rw [heq.1]
          simp [hx.1]
        | cons p pre =>
          simp only [List.cons_append, List.cons.injEq] at heq
          exact absurd (heq.1 ▸ hpre p (by simp)) h

theorem xioctl_isSome_iff (req : IoctlReq) (answers : List SysResult) :
    (xioctl req answers).1 ≠ none ↔ Resolves answers := by
  induction answers with
  | nil => simp [xioctl, Resolves]
  | cons r rest ih =>
    unfold xioctl
    by_cases h : r.ret = -1 ∧ r.errno = EINTR
    · simp only [h, and_self, if_true, ih, Resolves, List.mem_cons]
      constructor
      · rintro ⟨x, hx, hni⟩
        exact ⟨x, Or.inr hx, hni⟩
      · rintro ⟨x, rfl | hx, hni⟩
        · exact absurd h hni
        · exact ⟨x, hx, hni⟩
    · simp only [h, if_false, ne_eq, not_false_eq_true, true_iff, reduceCtorEq]
      exact ⟨r, by simp, h⟩

theorem xioctl_result_cases (req : IoctlReq) (answers : List SysResult) (h : Resolves answers) :
    RequestSucceeds answers ∨ RequestFails answers := by
  have h1 := (xioctl_isSome_iff req answers).mpr h
  cases hx : (xioctl req answers).1 with
  | none => exact absurd hx h1
  | some b =>
    cases b with
    | true => exact Or.inl ((xioctl_true_iff req answers).mp hx)
    | false => exact Or.inr ((xioctl_false_iff req answers).mp hx)

theorem waitForFrame_trace (answers : List SysResult) :
    ∀ c ∈ (waitForFrame answers).2, c = Call.sys_select := by
  induction answers with
  | nil => simp [waitForFrame]
  | cons r rest ih =>
    unfold waitForFrame
    by_cases h1 : 0 > r.ret
    · by_cases h2 : r.errno = EINTR
      · simp only [h1, h2, if_true, List.mem_cons]
        rintro c (rfl | hc)
        · rfl
        · exact ih c hc
      · simp [h1, h2]
    · simp [h1]

theorem waitForFrame_true_iff (answers : List SysResult) :
    (waitForFrame answers).1 = some true ↔ WaitSucceeds answers := by
  induction answers with
  | nil => simp [waitForFrame, WaitSucceeds]
  | cons r rest ih =>
    unfold waitForFrame
    by_cases h1 : 0 > r.ret
    · by_cases h2 : r.errno = EINTR
      · simp only [h1, h2, if_true, ih]
        constructor
        · rintro ⟨pre, x, tl, rfl, hpre, hx⟩
          refine ⟨r :: pre, x, tl, rfl, ?_, hx⟩
          intro y hy
          rcases List.mem_cons.mp hy with rfl | hy
          · exact ⟨h1, h2⟩
          · exact hpre y hy
        · rintro ⟨pre, x, tl, heq, hpre, hx⟩
          cases pre with
          | nil =>
            simp only [List.nil_append, List.cons.injEq] at heq
            rw [heq.1] at h1
            omega
          | cons p pre =>
            simp only [List.cons_append, List.cons.injEq] at heq
            exact ⟨pre, x, tl, heq.2, fun y hy => hpre y (by simp [hy]), hx⟩
      · simp only [h1, h2, if_true, if_false, Option.some.injEq, Bool.false_eq_true, false_iff]
        rintro ⟨pre, x, tl, heq, hpre, hx⟩
        cases pre with
        | nil =>
          simp only [List.nil_append, List.cons.injEq] at heq
          rw [heq.1] at h1
          omega
        | cons p pre =>
          simp only [List.cons_append, List.cons.injEq] at heq
          exact h2 (heq.1 ▸ (hpre p (by simp)).2)
    · simp only [h1, if_false, true_iff]
      exact ⟨[], r, rest, rfl, by simp, by omega⟩

theorem waitForFrame_false_iff (answers : List SysResult) :
    (waitForFrame answers).1 = some false ↔ WaitFails answers := by
  induction answers with
  | nil => simp [waitForFrame, WaitFails]
  | cons r rest ih =>
    unfold waitForFrame
    by_cases h1 : 0 > r.ret
    · by_cases h2 : r.errno = EINTR
      · simp only [h1, h2, if_true, ih]
        constructor
        · rintro ⟨pre, x, tl, rfl, hpre, hx⟩
          refine ⟨r :: pre, x, tl, rfl, ?_, hx⟩
          intro y hy
          rcases List.mem_cons.mp hy with rfl | hy
          · exact ⟨h1, h2⟩
          · exact hpre y hy
        · rintro ⟨pre, x, tl, heq, hpre, hx⟩
          cases pre with
          | nil =>
            simp only [List.nil_append, List.cons.injEq] at heq
            exact absurd (heq.1 ▸ h2) hx.2
          | cons p pre =>
            simp only [List.cons_append, List.cons.injEq] at heq
            exact ⟨pre, x, tl, heq.2, fun y hy => hpre y (by simp [hy]), hx⟩
      · simp only [h1, h2, if_true, if_false, true_iff]
        exact ⟨[], r, rest, rfl, by simp, h1, h2⟩
    · simp only [h1, if_false, Option.some.injEq, Bool.true_eq_false, false_iff]
      rintro ⟨pre, x, tl, heq, hpre, hx⟩
      cases pre with
      | nil =>
        simp only [List.nil_append, List.cons.injEq] at heq
        exact h1 (heq.1 ▸ hx.1)
      | cons p pre =>
        simp only [List.cons_append, List.cons.injEq] at heq
        exact h1 (heq.1 ▸ (hpre p (by simp)).1)

theorem waitForFrame_skip (k : Nat) (answers : List SysResult) :
    (waitForFrame (List.replicate k { ret := -1, errno := EINTR } ++ answers)).1 =
        (waitForFrame answers).1 ∧
    (waitForFrame (List.replicate k { ret := -1, errno := EINTR } ++ answers)).2 =
        List.replicate k Call.sys_select ++ (waitForFrame answers).2 := by
  induction k with
  | zero => simp
  | succ k ih =>
    have hstep : ∀ rest : List SysResult,
        waitForFrame ({ ret := -1, errno := EINTR } :: rest) =
          ((waitForFrame rest).1, Call.sys_select :: (waitForFrame rest).2) := by
      intro rest
      simp [waitForFrame]
    rw [List.replicate_succ, List.cons_append, hstep, ih.1, ih.2]
    exact ⟨rfl, rfl⟩

/-! ## Startup of the camera: lemmas -/

theorem ofId_isOpen_iff (m : MediaWorld) (dev_id : Nat) :
    (MediaDevice.ofId m dev_id).1.isOpen = true ↔ MediaOpens m := by
  unfold MediaDevice.ofId MediaDevice.open MediaDevice.Enumerate MediaDevice.isOpen MediaOpens
  cases hn : m.new_ok <;> cases he : m.enumerated <;> simp

theorem ofId_media (m : MediaWorld) (dev_id : Nat) (h : MediaOpens m) :
    (MediaDevice.ofId m dev_id).1.media_ = m.enumerated := by
  unfold MediaOpens at h
  unfold MediaDevice.ofId MediaDevice.open MediaDevice.Enumerate
  cases he : m.enumerated with
  | none => exact absurd he h.2
  | some topo => simp [h.1]

theorem ofId_trace (m : MediaWorld) (dev_id : Nat) :
    ∀ c ∈ (MediaDevice.ofId m dev_id).2, c.step = 1 := by
  unfold MediaDevice.ofId MediaDevice.open MediaDevice.Enumerate
  cases hn : m.new_ok <;> cases he : m.enumerated <;> simp [Call.step]

theorem configurePipeline_trace (plan : List EntityConfig) (d : MediaDevice) :
    ∀ c ∈ (MediaDevice.configurePipeline plan d).2, c.step = 2 := by
  intro c hc
  unfold MediaDevice.configurePipeline at hc
  simp only [List.mem_map] at hc
  rcases hc with ⟨x, hx, rfl⟩
  unfold configureRequests at hx
  rcases List.mem_cons.mp hx with rfl | hx
  · rfl
  · rcases (configureLoop_mem _ x hx).2 with h | h
    · rcases linkRequests_mem _ _ _ h with ⟨_, _, _, _, hc, _⟩
      rw [hc]; rfl
    · rcases padRequests_mem _ _ _ h with ⟨_, _, ⟨hc, _⟩ | ⟨hc, _⟩⟩ <;> (rw [hc]; rfl)

theorem scanVideoNode_eq_empty_iff (topo : List EntityDesc) :
    scanVideoNode topo = "" ↔ ∀ e ∈ topo, ¬ "/dev/video".data <:+: e.devname.data := by
  induction topo with
  | nil => simp [scanVideoNode]
  | cons e rest ih =>
    unfold scanVideoNode
    by_cases h : contains e.devname "/dev/video" = true
    · have hin := (contains_iff _ _).mp h
      simp only [h, if_true, List.mem_cons, forall_eq_or_imp]
      constructor
      · intro hemp
        rw [hemp] at hin
        exact absurd hin (by decide)
      · intro hall
        exact absurd hin hall.1
    · have hno : ¬ "/dev/video".data <:+: e.devname.data := fun hh => h ((contains_iff _ _).mpr hh)
      simp only [h, Bool.false_eq_true, if_false, List.mem_cons, forall_eq_or_imp, hno,
        not_false_eq_true, true_and]
      exact ih

theorem string_length_eq_zero_iff (s : String) : s.length = 0 ↔ s = "" := by
  constructor
  · intro h
    apply String.ext
    exact List.length_eq_zero.mp h
  · rintro rfl
    rfl

theorem openCaptureDevice_true_iff (w : StartWorld) (cam : Camera) :
    (cam.openCaptureDevice w).1 = true ↔ CaptureOpens w := by
  unfold Camera.openCaptureDevice CaptureOpens
  by_cases hm : MediaOpens w.media_capture
  · have h1 := (ofId_isOpen_iff w.media_capture cam.cam_src_.toNat).mpr hm
    have h2 := ofId_media w.media_capture cam.cam_src_.toNat hm
    simp only [h1, Bool.not_true, Bool.false_eq_true, if_false, MediaDevice.getVideoCaptureDevice,
      h2, string_length_eq_zero_iff]
    rcases hm with ⟨hnew, hen⟩
    cases he : w.media_capture.enumerated with
    | none => exact absurd he hen
    | some topo =>
      simp only [Option.getD_some, hnew, true_and, Option.some.injEq, exists_eq_left']
      by_cases hs : scanVideoNode topo = ""
      · have := (scanVideoNode_eq_empty_iff topo).mp hs
        simp only [hs, if_true, Bool.false_eq_true, false_iff, not_and]
        rintro ⟨e, he, hin⟩
        exact absurd hin (this e he)
      · have hex : ∃ e ∈ topo, "/dev/video".data <:+: e.devname.data := by
          by_contra hcon
          apply hs
          rw [scanVideoNode_eq_empty_iff]
          intro e he hin
          exact hcon ⟨e, he, hin⟩
        by_cases hfd : w.open_fd = -1
        · simp [hs, hfd]
        · simp [hs, hfd, hex]
  · have h1 : (MediaDevice.ofId w.media_capture cam.cam_src_.toNat).1.isOpen = false := by
      rw [← Bool.not_eq_true, ofId_isOpen_iff]
      exact hm
    simp only [h1, Bool.not_false, if_true, Bool.false_eq_true, false_iff]
    rintro ⟨hnew, ⟨topo, he, _⟩, _⟩
    exact hm ⟨hnew, by simp [he]⟩

theorem openCaptureDevice_trace (w : StartWorld) (cam : Camera) :
    ∀ c ∈ (cam.openCaptureDevice w).2.2, c.step = 1 ∨ c.step = 3 := by
  have h0 := ofId_trace w.media_capture cam.cam_src_.toNat
  unfold Camera.openCaptureDevice
  intro c hc
  dsimp only at hc
  split at hc
  · exact Or.inl (h0 c hc)
  · split at hc
    · exact Or.inl (h0 c hc)
    · split at hc <;>
      · simp only [List.mem_append, List.mem_singleton] at hc
        rcases hc with hc | rfl
        · exact Or.inl (h0 c hc)
        · exact Or.inr rfl

theorem setCaptureFormat_result (w : StartWorld) (cam : Camera) :
    (cam.setCaptureFormat w).1 = (xioctl IoctlReq.VIDIOC_S_FMT w.s_fmt).1 := by
  unfold Camera.setCaptureFormat
  rcases xioctl IoctlReq.VIDIOC_S_FMT w.s_fmt with ⟨o, t⟩
  rcases o with _ | _ | _
  · rfl
  · rfl
  · simp

theorem setCaptureFormat_trace (w : StartWorld) (cam : Camera) :
    ∀ c ∈ (cam.setCaptureFormat w).2, c.step = 4 := by
  have h0 := xioctl_trace IoctlReq.VIDIOC_S_FMT w.s_fmt
  unfold Camera.setCaptureFormat
  rcases hx : xioctl IoctlReq.VIDIOC_S_FMT w.s_fmt with ⟨o, t⟩
  rw [hx] at h0
  simp only at h0
  have ht : ∀ c ∈ t, c.step = 4 := fun c hc => by rw [h0 c hc]; rfl
  rcases o with _ | _ | _
  · exact ht
  · exact ht
  · intro c hc
    simp only [ite_self, List.mem_append, List.mem_singleton] at hc
    rcases hc with hc | rfl
    · exact ht c hc
    · rfl

theorem requestCaptureBuffers_result (w : StartWorld) (cam : Camera) :
    (cam.requestCaptureBuffers w).1 = (xioctl IoctlReq.VIDIOC_REQBUFS w.reqbufs).1 := by
  unfold Camera.requestCaptureBuffers
  rcases xioctl IoctlReq.VIDIOC_REQBUFS w.reqbufs with ⟨o, t⟩
  rcases o with _ | _ | _ <;> rfl

theorem requestCaptureBuffers_trace (w : StartWorld) (cam : Camera) :
    ∀ c ∈ (cam.requestCaptureBuffers w).2, c.step = 5 := by
  have h0 := xioctl_trace IoctlReq.VIDIOC_REQBUFS w.reqbufs
  unfold Camera.requestCaptureBuffers
  rcases hx : xioctl IoctlReq.VIDIOC_REQBUFS w.reqbufs with ⟨o, t⟩
  rw [hx] at h0
  simp only at h0
  have ht : ∀ c ∈ t, c.step = 5 := fun c hc => by rw [h0 c hc]; rfl
  rcases o with _ | _ | _ <;> exact ht

theorem startCapture_trace (w : StartWorld) (cam : Camera) :
    ∀ c ∈ (cam.startCapture w).2, c.step = 7 := by
  intro c hc
  rw [xioctl_trace IoctlReq.VIDIOC_STREAMON w.streamon c hc]
  rfl

theorem resolves_of_succeeds (answers : List SysResult) (h : RequestSucceeds answers) :
    Resolves answers := by
  rw [← xioctl_isSome_iff IoctlReq.VIDIOC_S_FMT, (xioctl_true_iff _ _).mpr h]
  simp

theorem resolves_of_fails (answers : List SysResult) (h : RequestFails answers) :
    Resolves answers := by
  rw [← xioctl_isSome_iff IoctlReq.VIDIOC_S_FMT, (xioctl_false_iff _ _).mpr h]
  simp

theorem not_fails_of_succeeds (answers : List SysResult) (h : RequestSucceeds answers) :
    ¬ RequestFails answers := by
  intro hf
  have h1 := (xioctl_true_iff IoctlReq.VIDIOC_S_FMT answers).mpr h
  have h2 := (xioctl_false_iff IoctlReq.VIDIOC_S_FMT answers).mpr hf
  rw [h1] at h2
  cases h2

/-- One round of the buffer loop, seen from its result and its trace. -/
theorem queueBuffers_step (K : Nat) (w : StartWorld) (todo n : Nat) (cam : Camera)
    (hlen : n ≤ cam.capture_dma_buffers_.length) :
    (¬ AllocOk w n ∧
      ((Camera.queueBuffers K w (todo + 1) n cam).1 = some Outcome.threw ∨
        (Camera.queueBuffers K w (todo + 1) n cam).1 = some Outcome.fault) ∧
      (Camera.queueBuffers K w (todo + 1) n cam).2.2 =
        [Call.mmngr_alloc_in_user_ext ((K * 1) % 2 ^ 32)]) ∨
    (AllocOk w n ∧ ∃ cam2 : Camera, n + 1 ≤ cam2.capture_dma_buffers_.length ∧
      cam2.active_capture_buffer_.index = n ∧
      (((xioctl (IoctlReq.VIDIOC_QBUF cam2.active_capture_buffer_) (w.qbuf n)).1 = none ∧
          (Camera.queueBuffers K w (todo + 1) n cam).1 = some Outcome.blocked ∧
          (Camera.queueBuffers K w (todo + 1) n cam).2.2 =
            [Call.mmngr_alloc_in_user_ext ((K * 1) % 2 ^ 32),
              Call.mmngr_export_start_in_user_ext (w.mmngr n).id] ++
            (xioctl (IoctlReq.VIDIOC_QBUF cam2.active_capture_buffer_) (w.qbuf n)).2) ∨
        ((xioctl (IoctlReq.VIDIOC_QBUF cam2.active_capture_buffer_) (w.qbuf n)).1 = some false ∧
          (Camera.queueBuffers K w (todo + 1) n cam).1 = some (Outcome.returned false) ∧
          (Camera.queueBuffers K w (todo + 1) n cam).2.2 =
            [Call.mmngr_alloc_in_user_ext ((K * 1) % 2 ^ 32),
              Call.mmngr_export_start_in_user_ext (w.mmngr n).id] ++
            (xioctl (IoctlReq.VIDIOC_QBUF cam2.active_capture_buffer_) (w.qbuf n)).2) ∨
        ((xioctl (IoctlReq.VIDIOC_QBUF cam2.active_capture_buffer_) (w.qbuf n)).1 = some true ∧
          (Camera.queueBuffers K w (todo + 1) n cam).1 =
            (Camera.queueBuffers K w todo (n + 1) cam2).1 ∧
          (Camera.queueBuffers K w (todo + 1) n cam).2.2 =
            [Call.mmngr_alloc_in_user_ext ((K * 1) % 2 ^ 32),
              Call.mmngr_export_start_in_user_ext (w.mmngr n).id] ++
            (xioctl (IoctlReq.VIDIOC_QBUF cam2.active_capture_buffer_) (w.qbuf n)).2 ++
            (Camera.queueBuffers K w todo (n + 1) cam2).2.2))) := by
  by_cases ha : (w.mmngr n).puser_virt_addr = 0
  · left
    by_cases hz : K % 4294967296 = 0
    · refine ⟨fun h => h ha, Or.inl ?_, ?_⟩ <;>
        simp [Camera.queueBuffers, DmaBuffer.new, ha, hz]
    · refine ⟨fun h => h ha, Or.inr ?_, ?_⟩ <;>
        simp [Camera.queueBuffers, DmaBuffer.new, ha, hz]
  · right
    refine ⟨ha, ?_⟩
    have hget : ∀ b : DmaBuffer, ∃ buf, (cam.capture_dma_buffers_ ++ [b])[n]? = some buf := by
      intro b
      have hlt : n < (cam.capture_dma_buffers_ ++ [b]).length := by
        rw [List.length_append, List.length_singleton]
        omega
      exact ⟨_, List.getElem?_eq_getElem hlt⟩
    rcases hget (DmaBuffer.mk (w.mmngr n).id (w.mmngr n).dma_fd ((K * 1) % 2 ^ 32) 1
        (w.mmngr n).phard_addr (w.mmngr n).puser_virt_addr) with ⟨buf, hbuf⟩
    refine ⟨{ cam with
        capture_dma_buffers_ := cam.capture_dma_buffers_ ++
          [{ index_ := (w.mmngr n).id, fd_ := (w.mmngr n).dma_fd, size_ := (K * 1) % 2 ^ 32,
             count_ := 1, physical_address_ := (w.mmngr n).phard_addr,
             mem_ := (w.mmngr n).puser_virt_addr }],
        active_capture_buffer_ :=
          { type := V4L2_BUF_TYPE_VIDEO_CAPTURE, memory := V4L2_MEMORY_DMABUF, index := n,
            fd := buf.fd_, length := buf.size_ } }, ?_, rfl, ?_⟩
    · simp only [List.length_append, List.length_singleton]
      omega
    · dsimp only
      rcases hx : xioctl (IoctlReq.VIDIOC_QBUF
          { type := V4L2_BUF_TYPE_VIDEO_CAPTURE, memory := V4L2_MEMORY_DMABUF, index := n,
            fd := buf.fd_, length := buf.size_ }) (w.qbuf n) with ⟨o, t1⟩
      simp only [Nat.mul_one, Nat.reducePow] at hbuf
      rcases o with _ | _ | _
      · left
        simp [Camera.queueBuffers, DmaBuffer.new, ha, hbuf, hx]
      · right; left
        simp [Camera.queueBuffers, DmaBuffer.new, ha, hbuf, hx]
      · right; right
        simp [Camera.queueBuffers, DmaBuffer.new, ha, hbuf, hx]

theorem queueBuffers_trace (K : Nat) (w : StartWorld) (todo : Nat) :
    ∀ (n : Nat) (cam : Camera), n ≤ cam.capture_dma_buffers_.length →
      ∀ c ∈ (Camera.queueBuffers K w todo n cam).2.2, c.step = 6 := by
  induction todo with
  | zero => intro n cam _ c hc; simp [Camera.queueBuffers] at hc
  | succ todo ih =>
    intro n cam hlen c hc
    have hq : ∀ b, ∀ x ∈ (xioctl (IoctlReq.VIDIOC_QBUF b) (w.qbuf n)).2, x.step = 6 := by
      intro b x hx
      rw [xioctl_trace _ _ x hx]
      rfl
    rcases queueBuffers_step K w todo n cam hlen with
      ⟨_, _, ht⟩ | ⟨_, cam2, hl2, hidx, ⟨_, _, ht⟩ | ⟨_, _, ht⟩ | ⟨_, _, ht⟩⟩
    · rw [ht] at hc
      simp only [List.mem_singleton] at hc
      rw [hc]; rfl
    · rw [ht] at hc
      simp only [List.mem_append, List.mem_cons, List.mem_singleton, List.not_mem_nil,
        or_false] at hc
      rcases hc with (rfl | rfl) | hc
      · rfl
      · rfl
      · exact hq _ c hc
    · rw [ht] at hc
      simp only [List.mem_append, List.mem_cons, List.mem_singleton, List.not_mem_nil,
        or_false] at hc
      rcases hc with (rfl | rfl) | hc
      · rfl
      · rfl
      · exact hq _ c hc
    · rw [ht] at hc
      simp only [List.mem_append, List.mem_cons, List.mem_singleton, List.not_mem_nil,
        or_false] at hc
      rcases hc with ((rfl | rfl) | hc) | hc
      · rfl
      · rfl
      · exact hq _ c hc
      · exact ih (n + 1) cam2 hl2 c hc

/-- A buffer is queued only after every buffer before it was allocated and
queued, and after its own allocation. -/
theorem queueBuffers_qbuf (K : Nat) (w : StartWorld) (todo : Nat) :
    ∀ (n : Nat) (cam : Camera), n ≤ cam.capture_dma_buffers_.length →
      ∀ b, Call.sys_ioctl (IoctlReq.VIDIOC_QBUF b) ∈ (Camera.queueBuffers K w todo n cam).2.2 →
        n ≤ b.index ∧ b.index < n + todo ∧ AllocOk w b.index ∧
          ∀ j, n ≤ j → j < b.index → AllocOk w j ∧ RequestSucceeds (w.qbuf j) := by
  induction todo with
  | zero => intro n cam _ m hc; simp [Camera.queueBuffers] at hc
  | succ todo ih =>
    intro n cam hlen m hc
    have hq : ∀ b0 : V4l2Buffer, b0.index = n → Call.sys_ioctl (IoctlReq.VIDIOC_QBUF m) ∈
        (xioctl (IoctlReq.VIDIOC_QBUF b0) (w.qbuf n)).2 → m.index = n := by
      intro b0 hb0 hx
      have := xioctl_trace _ _ _ hx
      simp only [Call.sys_ioctl.injEq, IoctlReq.VIDIOC_QBUF.injEq] at this
      rw [this]
      exact hb0
    rcases queueBuffers_step K w todo n cam hlen with
      ⟨_, _, ht⟩ | ⟨ha, cam2, hl2, hidx, ⟨_, _, ht⟩ | ⟨_, _, ht⟩ | ⟨hx, _, ht⟩⟩
    · rw [ht] at hc
      simp at hc
    · rw [ht] at hc
      simp only [List.mem_append, List.mem_cons, List.mem_singleton, List.not_mem_nil,
        or_false, reduceCtorEq, false_or] at hc
      have := hq _ hidx hc
      rw [this]
      exact ⟨le_refl _, by omega, ha, fun j h1 h2 => by omega⟩
    · rw [ht] at hc
      simp only [List.mem_append, List.mem_cons, List.mem_singleton, List.not_mem_nil,
        or_false, reduceCtorEq, false_or] at hc
      have := hq _ hidx hc
      rw [this]
      exact ⟨le_refl _, by omega, ha, fun j h1 h2 => by omega⟩
    · rw [ht] at hc
      simp only [List.mem_append, List.mem_cons, List.mem_singleton, List.not_mem_nil,
        or_false, reduceCtorEq, false_or] at hc
      rcases hc with hc | hc
      · have := hq _ hidx hc
        rw [this]
        exact ⟨le_refl _, by omega, ha, fun j h1 h2 => by omega⟩
      · rcases ih (n + 1) cam2 hl2 m hc with ⟨h1, h2, h3, h4⟩
        refine ⟨by omega, by omega, h3, ?_⟩
        intro j hj1 hj2
        by_cases hjn : j = n
        · subst hjn
          exact ⟨ha, (xioctl_true_iff _ _).mp hx⟩
        · exact h4 j (by omega) hj2

/-- The loop runs to its end exactly when every buffer is allocated and
queued. -/
theorem queueBuffers_none_iff (K : Nat) (w : StartWorld) (todo : Nat) :
    ∀ (n : Nat) (cam : Camera), n ≤ cam.capture_dma_buffers_.length →
      ((Camera.queueBuffers K w todo n cam).1 = none ↔
        ∀ j, n ≤ j → j < n + todo → AllocOk w j ∧ RequestSucceeds (w.qbuf j)) := by
  induction todo with
  | zero =>
    intro n cam _
    simp only [Camera.queueBuffers, true_iff]
    intro j h1 h2
    omega
  | succ todo ih =>
    intro n cam hlen
    rcases queueBuffers_step K w todo n cam hlen with
      ⟨ha, ho, _⟩ | ⟨ha, cam2, hl2, hidx, ⟨hx, ho, _⟩ | ⟨hx, ho, _⟩ | ⟨hx, ho, _⟩⟩
    · have hne : (Camera.queueBuffers K w (todo + 1) n cam).1 ≠ none := by
        rcases ho with ho | ho <;> rw [ho] <;> simp
      simp only [hne, false_iff]
      intro hall
      exact ha (hall n (le_refl _) (by omega)).1
    · rw [ho]
      simp only [reduceCtorEq, false_iff]
      intro hall
      have := (xioctl_true_iff (IoctlReq.VIDIOC_QBUF cam2.active_capture_buffer_) _).mpr (hall n (le_refl _) (by omega)).2
      rw [hx] at this
      cases this
    · rw [ho]
      simp only [reduceCtorEq, false_iff]
      intro hall
      have := (xioctl_true_iff (IoctlReq.VIDIOC_QBUF cam2.active_capture_buffer_) _).mpr (hall n (le_refl _) (by omega)).2
      rw [hx] at this
      cases this
    · rw [ho, ih (n + 1) cam2 hl2]
      constructor
      · intro hall j h1 h2
        by_cases hjn : j = n
        · subst hjn
          exact ⟨ha, (xioctl_true_iff _ _).mp hx⟩
        · exact hall j (by omega) (by omega)
      · intro hall j h1 h2
        exact hall j (by omega) (by omega)

theorem queueBuffers_not_true (K : Nat) (w : StartWorld) (todo : Nat) :
    ∀ (n : Nat) (cam : Camera), n ≤ cam.capture_dma_buffers_.length →
      (Camera.queueBuffers K w todo n cam).1 ≠ some (Outcome.returned true) := by
  induction todo with
  | zero => intro n cam _; simp [Camera.queueBuffers]
  | succ todo ih =>
    intro n cam hlen
    rcases queueBuffers_step K w todo n cam hlen with
      ⟨_, ho, _⟩ | ⟨_, cam2, hl2, hidx, ⟨_, ho, _⟩ | ⟨_, ho, _⟩ | ⟨_, ho, _⟩⟩
    · rcases ho with ho | ho <;> rw [ho] <;> simp
    · rw [ho]; simp
    · rw [ho]; simp
    · rw [ho]; exact ih (n + 1) cam2 hl2

/-- With every allocation succeeding and no request interrupted for ever, the
loop either runs to its end or leaves by `return false`. -/
theorem queueBuffers_total (K : Nat) (w : StartWorld) (todo : Nat) :
    ∀ (n : Nat) (cam : Camera), n ≤ cam.capture_dma_buffers_.length →
      (∀ j, n ≤ j → j < n + todo → AllocOk w j ∧ Resolves (w.qbuf j)) →
      (Camera.queueBuffers K w todo n cam).1 = none ∨
        (Camera.queueBuffers K w todo n cam).1 = some (Outcome.returned false) := by
  induction todo with
  | zero => intro n cam _ _; left; rfl
  | succ todo ih =>
    intro n cam hlen hall
    rcases queueBuffers_step K w todo n cam hlen with
      ⟨ha, _, _⟩ | ⟨_, cam2, hl2, hidx, ⟨hx, _, _⟩ | ⟨_, ho, _⟩ | ⟨_, ho, _⟩⟩
    · exact absurd (hall n (le_refl _) (by omega)).1 ha
    · exact absurd hx ((xioctl_isSome_iff _ _).mpr (hall n (le_refl _) (by omega)).2)
    · right; exact ho
    · rw [ho]
      exact ih (n + 1) cam2 hl2 (fun j h1 h2 => hall j (by omega) (by omega))

/-- When buffer `j` is not both allocated and queued, at most `j - n + 1`
allocations are requested. -/
theorem queueBuffers_allocs (K : Nat) (w : StartWorld) (todo : Nat) :
    ∀ (n : Nat) (cam : Camera), n ≤ cam.capture_dma_buffers_.length →
      ∀ j, n ≤ j → j < n + todo → ¬ (AllocOk w j ∧ RequestSucceeds (w.qbuf j)) →
        ((Camera.queueBuffers K w todo n cam).2.2.filter Call.isAlloc).length ≤ j - n + 1 := by
  induction todo with
  | zero => intro n cam _ j h1 h2; omega
  | succ todo ih =>
    intro n cam hlen j h1 h2 hj
    have hq : ∀ b, (xioctl (IoctlReq.VIDIOC_QBUF b) (w.qbuf n)).2.filter Call.isAlloc = [] := by
      intro b
      rw [List.filter_eq_nil_iff]
      intro x hx
      rw [xioctl_trace _ _ x hx]
      simp [Call.isAlloc]
    rcases queueBuffers_step K w todo n cam hlen with
      ⟨_, _, ht⟩ | ⟨ha, cam2, hl2, hidx, ⟨_, _, ht⟩ | ⟨_, _, ht⟩ | ⟨hx, _, ht⟩⟩
    · rw [ht]
      simp [Call.isAlloc]
    · rw [ht, List.filter_append, hq]
      simp [Call.isAlloc]
    · rw [ht, List.filter_append, hq]
      simp [Call.isAlloc]
    · have hne : j ≠ n := by
        rintro rfl
        exact hj ⟨ha, (xioctl_true_iff _ _).mp hx⟩
      have := ih (n + 1) cam2 hl2 j (by omega) (by omega) hj
      rw [ht, List.filter_append, List.filter_append, hq]
      simp only [List.filter, Call.isAlloc, List.append_nil, List.length_append,
        List.length_cons, List.length_nil]
      omega

theorem openCaptureDevice_buffers (w : StartWorld) (cam : Camera) :
    (cam.openCaptureDevice w).2.1.number_of_capture_buffers_ = cam.number_of_capture_buffers_ := by
  unfold Camera.openCaptureDevice
  dsimp only
  split
  · rfl
  · split
    · rfl
    · split <;> rfl

/-- The runs of `startCamera`: the trace is made of the traces `t0` .. `t6` of
the seven steps, cut after the first step that does not succeed. -/
theorem startCamera_run (K : Nat) (w : StartWorld) (cam : Camera) :
    ∃ (t0 t1 t2 t3 t4 t5 t6 : List Call) (qbo : Option Outcome),
      t0 = (MediaDevice.ofId w.media_start cam.cam_src_.toNat).2 ∧
      t1 = (if cam.cam_src_.toNat < CameraSource.UVC0.toNat then
        (MediaDevice.configurePipeline cam.entity_configs
          (MediaDevice.ofId w.media_start cam.cam_src_.toNat).1).2 else []) ∧
      t5 = (Camera.queueBuffers K w cam.number_of_capture_buffers_ 0
        (cam.openCaptureDevice w).2.1).2.2 ∧
      qbo = (Camera.queueBuffers K w cam.number_of_capture_buffers_ 0
        (cam.openCaptureDevice w).2.1).1 ∧
      (∀ c ∈ t0, c.step = 1) ∧ (∀ c ∈ t1, c.step = 2) ∧ (∀ c ∈ t2, c.step = 1 ∨ c.step = 3) ∧
      (∀ c ∈ t3, c.step = 4) ∧ (∀ c ∈ t4, c.step = 5) ∧ (∀ c ∈ t5, c.step = 6) ∧
      (∀ c ∈ t6, c.step = 7) ∧
      (∀ b, Call.sys_ioctl (IoctlReq.VIDIOC_QBUF b) ∈ t5 →
        b.index < cam.number_of_capture_buffers_ ∧ AllocOk w b.index ∧
          ∀ j, j < b.index → AllocOk w j ∧ RequestSucceeds (w.qbuf j)) ∧
      (∀ j, j < cam.number_of_capture_buffers_ →
        ¬ (AllocOk w j ∧ RequestSucceeds (w.qbuf j)) →
        (t5.filter Call.isAlloc).length ≤ j + 1) ∧
      (qbo = none ↔
        ∀ j, j < cam.number_of_capture_buffers_ → AllocOk w j ∧ RequestSucceeds (w.qbuf j)) ∧
      qbo ≠ some (Outcome.returned true) ∧
      ((∀ j, j < cam.number_of_capture_buffers_ → AllocOk w j ∧ Resolves (w.qbuf j)) →
        qbo = none ∨ qbo = some (Outcome.returned false)) ∧
      ((¬ MediaOpens w.media_start ∧
          (cam.startCamera K w).1 = Outcome.returned false ∧ (cam.startCamera K w).2.2 = t0) ∨
        (MediaOpens w.media_start ∧ ¬ CaptureOpens w ∧
          (cam.startCamera K w).1 = Outcome.returned false ∧
          (cam.startCamera K w).2.2 = t0 ++ t1 ++ t2) ∨
        (MediaOpens w.media_start ∧ CaptureOpens w ∧ ¬ Resolves w.s_fmt ∧
          (cam.startCamera K w).1 = Outcome.blocked ∧
          (cam.startCamera K w).2.2 = t0 ++ t1 ++ t2 ++ t3) ∨
        (MediaOpens w.media_start ∧ CaptureOpens w ∧ RequestFails w.s_fmt ∧
          (cam.startCamera K w).1 = Outcome.returned false ∧
          (cam.startCamera K w).2.2 = t0 ++ t1 ++ t2 ++ t3) ∨
        (MediaOpens w.media_start ∧ CaptureOpens w ∧ RequestSucceeds w.s_fmt ∧
          ¬ Resolves w.reqbufs ∧ (cam.startCamera K w).1 = Outcome.blocked ∧
          (cam.startCamera K w).2.2 = t0 ++ t1 ++ t2 ++ t3 ++ t4) ∨
        (MediaOpens w.media_start ∧ CaptureOpens w ∧ RequestSucceeds w.s_fmt ∧
          RequestFails w.reqbufs ∧ (cam.startCamera K w).1 = Outcome.returned false ∧
          (cam.startCamera K w).2.2 = t0 ++ t1 ++ t2 ++ t3 ++ t4) ∨
        (MediaOpens w.media_start ∧ CaptureOpens w ∧ RequestSucceeds w.s_fmt ∧
          RequestSucceeds w.reqbufs ∧ (∃ out, qbo = some out ∧ (cam.startCamera K w).1 = out) ∧
          (cam.startCamera K w).2.2 = t0 ++ t1 ++ t2 ++ t3 ++ t4 ++ t5) ∨
        (MediaOpens w.media_start ∧ CaptureOpens w ∧ RequestSucceeds w.s_fmt ∧
          RequestSucceeds w.reqbufs ∧ qbo = none ∧ ¬ Resolves w.streamon ∧
          (cam.startCamera K w).1 = Outcome.blocked ∧
          (cam.startCamera K w).2.2 = t0 ++ t1 ++ t2 ++ t3 ++ t4 ++ t5 ++ t6) ∨
        (MediaOpens w.media_start ∧ CaptureOpens w ∧ RequestSucceeds w.s_fmt ∧
          RequestSucceeds w.reqbufs ∧ qbo = none ∧ RequestFails w.streamon ∧
          (cam.startCamera K w).1 = Outcome.returned false ∧
          (cam.startCamera K w).2.2 = t0 ++ t1 ++ t2 ++ t3 ++ t4 ++ t5 ++ t6) ∨
        (MediaOpens w.media_start ∧ CaptureOpens w ∧ RequestSucceeds w.s_fmt ∧
          RequestSucceeds w.reqbufs ∧ qbo = none ∧ RequestSucceeds w.streamon ∧
          (cam.startCamera K w).1 = Outcome.returned true ∧
          (cam.startCamera K w).2.2 = t0 ++ t1 ++ t2 ++ t3 ++ t4 ++ t5 ++ t6)) := by
  have hN := openCaptureDevice_buffers w cam
  have hlen0 : 0 ≤ (cam.openCaptureDevice w).2.1.capture_dma_buffers_.length := Nat.zero_le _
  have hmedia := ofId_isOpen_iff w.media_start cam.cam_src_.toNat
  have hcap := openCaptureDevice_true_iff w cam
  have hsf := setCaptureFormat_result w (cam.openCaptureDevice w).2.1
  have hrb := requestCaptureBuffers_result w (cam.openCaptureDevice w).2.1
  refine ⟨(MediaDevice.ofId w.media_start cam.cam_src_.toNat).2,
    (if cam.cam_src_.toNat < CameraSource.UVC0.toNat then
      (MediaDevice.configurePipeline cam.entity_configs
        (MediaDevice.ofId w.media_start cam.cam_src_.toNat).1).2 else []),
    (cam.openCaptureDevice w).2.2,
    ((cam.openCaptureDevice w).2.1.setCaptureFormat w).2,
    ((cam.openCaptureDevice w).2.1.requestCaptureBuffers w).2,
    (Camera.queueBuffers K w cam.number_of_capture_buffers_ 0 (cam.openCaptureDevice w).2.1).2.2,
    ((Camera.queueBuffers K w cam.number_of_capture_buffers_ 0
      (cam.openCaptureDevice w).2.1).2.1.startCapture w).2,
    (Camera.queueBuffers K w cam.number_of_capture_buffers_ 0 (cam.openCaptureDevice w).2.1).1,
    rfl, rfl, rfl, rfl,
    ofId_trace _ _, ?_, openCaptureDevice_trace w cam, setCaptureFormat_trace w _,
    requestCaptureBuffers_trace w _, queueBuffers_trace K w cam.number_of_capture_buffers_ 0 _ hlen0,
    startCapture_trace w _, ?_, ?_, ?_,
    queueBuffers_not_true K w cam.number_of_capture_buffers_ 0 _ hlen0, ?_, ?_⟩
  · intro c hc
    split at hc
    · exact configurePipeline_trace _ _ c hc
    · simp at hc
  · intro m hm
    rcases queueBuffers_qbuf K w cam.number_of_capture_buffers_ 0 _ hlen0 m hm with ⟨_, h2, h3, h4⟩
    exact ⟨by omega, h3, fun j hj => h4 j (Nat.zero_le _) hj⟩
  · intro j hj hnot
    have := queueBuffers_allocs K w cam.number_of_capture_buffers_ 0 _ hlen0 j (Nat.zero_le _) (by omega) hnot
    omega
  · rw [queueBuffers_none_iff K w cam.number_of_capture_buffers_ 0 _ hlen0]
    constructor
    · intro h j hj
      exact h j (Nat.zero_le _) (by omega)
    · intro h j _ hj
      exact h j (by omega)
  · intro h
    exact queueBuffers_total K w cam.number_of_capture_buffers_ 0 _ hlen0 (fun j _ hj => h j (by omega))
  · unfold Camera.startCamera
    dsimp only
    by_cases hm : MediaOpens w.media_start
    · have hopen := hmedia.mpr hm
      simp only [hopen, Bool.not_true, Bool.false_eq_true, if_false]
      right
      rcases hoc : cam.openCaptureDevice w with ⟨b, cam1, t2⟩
      simp only [hoc] at hcap hsf hrb hN ⊢
      cases b with
      | false =>
        left
        exact ⟨hm, fun h => Bool.noConfusion (hcap.mpr h), rfl, rfl⟩
      | true =>
        have hc : CaptureOpens w := hcap.mp rfl
        right
        rcases hs : cam1.setCaptureFormat w with ⟨o3, t3⟩
        simp only [hs] at hsf ⊢
        rcases o3 with _ | _ | _
        · left
          exact ⟨hm, hc, fun h => (xioctl_isSome_iff _ _).mpr h hsf.symm, rfl, rfl⟩
        · right; left
          exact ⟨hm, hc, (xioctl_false_iff _ _).mp hsf.symm, rfl, rfl⟩
        · have hsok := (xioctl_true_iff _ _).mp hsf.symm
          right; right
          rcases hr : cam1.requestCaptureBuffers w with ⟨o4, t4⟩
          simp only [hr] at hrb ⊢
          rcases o4 with _ | _ | _
          · left
            exact ⟨hm, hc, hsok, fun h => (xioctl_isSome_iff _ _).mpr h hrb.symm, rfl, rfl⟩
          · right; left
            exact ⟨hm, hc, hsok, (xioctl_false_iff _ _).mp hrb.symm, rfl, rfl⟩
          · have hrok := (xioctl_true_iff _ _).mp hrb.symm
            right; right
            rw [hN]
            rcases hq : Camera.queueBuffers K w cam.number_of_capture_buffers_ 0 cam1
              with ⟨qo, cam2, t5⟩
            cases qo with
            | some out =>
              left
              exact ⟨hm, hc, hsok, hrok, ⟨out, rfl, rfl⟩, rfl⟩
            | none =>
              right
              dsimp only
              have hst := xioctl_isSome_iff IoctlReq.VIDIOC_STREAMON w.streamon
              have hstt := xioctl_true_iff IoctlReq.VIDIOC_STREAMON w.streamon
              have hstf := xioctl_false_iff IoctlReq.VIDIOC_STREAMON w.streamon
              rcases hsc : cam2.startCapture w with ⟨o6, t6⟩
              have hsc1 : (xioctl IoctlReq.VIDIOC_STREAMON w.streamon).1 = o6 := by
                have := congrArg Prod.fst hsc
                exact this
              rw [hsc1] at hst hstt hstf
              rcases o6 with _ | _ | _
              · left
                refine ⟨hm, hc, hsok, hrok, ?_, fun h => hst.mpr h rfl, ?_, ?_⟩ <;> trivial
              · right; left
                refine ⟨hm, hc, hsok, hrok, ?_, hstf.mp rfl, ?_, ?_⟩ <;> trivial
              · right; right
                refine ⟨hm, hc, hsok, hrok, ?_, hstt.mp rfl, ?_, ?_⟩ <;> trivial
    · have hopen : (MediaDevice.ofId w.media_start cam.cam_src_.toNat).1.isOpen = false := by
        rw [← Bool.not_eq_true, hmedia]
        exact hm
      left
      rw [hopen]
      exact ⟨hm, rfl, rfl⟩

/-- A call of a later step is in the trace of `startCamera` only if every
earlier checked step succeeded. -/
theorem startCamera_progress (K : Nat) (w : StartWorld) (cam : Camera) :
    ∀ c ∈ (cam.startCamera K w).2.2,
      (2 ≤ c.step → MediaOpens w.media_start) ∧ (4 ≤ c.step → CaptureOpens w) ∧
      (5 ≤ c.step → RequestSucceeds w.s_fmt) ∧ (6 ≤ c.step → RequestSucceeds w.reqbufs) ∧
      (7 ≤ c.step →
        ∀ j, j < cam.number_of_capture_buffers_ → AllocOk w j ∧ RequestSucceeds (w.qbuf j)) ∧
      c.step ≤ 7 := by
  rcases startCamera_run K w cam with
    ⟨t0, t1, t2, t3, t4, t5, t6, qbo, _, _, _, _, h0, h1, h2, h3, h4, h5, h6, _, _, hqn, _, _, hl⟩
  intro c hcm
  rcases hl with ⟨_, _, ht⟩ | ⟨hm, _, _, ht⟩ | ⟨hm, hc, _, _, ht⟩ | ⟨hm, hc, _, _, ht⟩ |
    ⟨hm, hc, hsf, _, _, ht⟩ | ⟨hm, hc, hsf, _, _, ht⟩ | ⟨hm, hc, hsf, hrb, _, ht⟩ |
    ⟨hm, hc, hsf, hrb, hq, _, _, ht⟩ | ⟨hm, hc, hsf, hrb, hq, _, _, ht⟩ |
    ⟨hm, hc, hsf, hrb, hq, _, _, ht⟩
  · rw [ht] at hcm
    have := h0 c hcm
    refine ⟨fun h => ?_, fun h => ?_, fun h => ?_, fun h => ?_, fun h => ?_, ?_⟩ <;> omega
  · rw [ht] at hcm
    simp only [List.mem_append] at hcm
    have hk : c.step ≤ 3 := by
      rcases hcm with (h | h) | h
      · have := h0 c h; omega
      · have := h1 c h; omega
      · have := h2 c h; omega
    refine ⟨fun _ => hm, fun h => ?_, fun h => ?_, fun h => ?_, fun h => ?_, ?_⟩ <;> omega
  · rw [ht] at hcm
    simp only [List.mem_append] at hcm
    have hk : c.step ≤ 4 := by
      rcases hcm with ((h | h) | h) | h
      · have := h0 c h; omega
      · have := h1 c h; omega
      · have := h2 c h; omega
      · have := h3 c h; omega
    refine ⟨fun _ => hm, fun _ => hc, fun h => ?_, fun h => ?_, fun h => ?_, ?_⟩ <;> omega
  · rw [ht] at hcm
    simp only [List.mem_append] at hcm
    have hk : c.step ≤ 4 := by
      rcases hcm with ((h | h) | h) | h
      · have := h0 c h; omega
      · have := h1 c h; omega
      · have := h2 c h; omega
      · have := h3 c h; omega
    refine ⟨fun _ => hm, fun _ => hc, fun h => ?_, fun h => ?_, fun h => ?_, ?_⟩ <;> omega
  · rw [ht] at hcm
    simp only [List.mem_append] at hcm
    have hk : c.step ≤ 5 := by
      rcases hcm with (((h | h) | h) | h) | h
      · have := h0 c h; omega
      · have := h1 c h; omega
      · have := h2 c h; omega
      · have := h3 c h; omega
      · have := h4 c h; omega
    refine ⟨fun _ => hm, fun _ => hc, fun _ => hsf, fun h => ?_, fun h => ?_, ?_⟩ <;> omega
  · rw [ht] at hcm
    simp only [List.mem_append] at hcm
    have hk : c.step ≤ 5 := by
      rcases hcm with (((h | h) | h) | h) | h
      · have := h0 c h; omega
      · have := h1 c h; omega
      · have := h2 c h; omega
      · have := h3 c h; omega
      · have := h4 c h; omega
    refine ⟨fun _ => hm, fun _ => hc, fun _ => hsf, fun h => ?_, fun h => ?_, ?_⟩ <;> omega
  · rw [ht] at hcm
    simp only [List.mem_append] at hcm
    have hk : c.step ≤ 6 := by
      rcases hcm with ((((h | h) | h) | h) | h) | h
      · have := h0 c h; omega
      · have := h1 c h; omega
      · have := h2 c h; omega
      · have := h3 c h; omega
      · have := h4 c h; omega
      · have := h5 c h; omega
    refine ⟨fun _ => hm, fun _ => hc, fun _ => hsf, fun _ => hrb, fun h => ?_, ?_⟩ <;> omega
  all_goals
    rw [ht] at hcm
    simp only [List.mem_append] at hcm
    have hk : c.step ≤ 7 := by
      rcases hcm with (((((h | h) | h) | h) | h) | h) | h
      · have := h0 c h; omega
      · have := h1 c h; omega
      · have := h2 c h; omega
      · have := h3 c h; omega
      · have := h4 c h; omega
      · have := h5 c h; omega
      · have := h6 c h; omega
    exact ⟨fun _ => hm, fun _ => hc, fun _ => hsf, fun _ => hrb, fun _ => hqn.mp hq, hk⟩

/-- The buffers of `startCamera` are queued in order: `VIDIOC_QBUF m` is issued
only after the allocation of buffer `m` and after every buffer before it was
allocated and queued; a buffer that is not both allocated and queued is the
last one an allocation is requested for. -/
theorem startCamera_buffers (K : Nat) (w : StartWorld) (cam : Camera) :
    (∀ b, Call.sys_ioctl (IoctlReq.VIDIOC_QBUF b) ∈ (cam.startCamera K w).2.2 →
      b.index < cam.number_of_capture_buffers_ ∧ AllocOk w b.index ∧
        ∀ j, j < b.index → AllocOk w j ∧ RequestSucceeds (w.qbuf j)) ∧
    (∀ j, j < cam.number_of_capture_buffers_ →
      ¬ (AllocOk w j ∧ RequestSucceeds (w.qbuf j)) →
      ((cam.startCamera K w).2.2.filter Call.isAlloc).length ≤ j + 1) := by
  rcases startCamera_run K w cam with
    ⟨t0, t1, t2, t3, t4, t5, t6, qbo, _, _, _, _, h0, h1, h2, h3, h4, h5, h6, hqb, hal, hqn, _, _, hl⟩
  have hnq : ∀ (t : List Call) (m : V4l2Buffer), (∀ c ∈ t, c.step ≠ 6) →
      Call.sys_ioctl (IoctlReq.VIDIOC_QBUF m) ∉ t := by
    intro t m ht hmem
    exact ht _ hmem rfl
  have hna : ∀ (t : List Call), (∀ c ∈ t, c.step ≠ 6) → t.filter Call.isAlloc = [] := by
    intro t ht
    rw [List.filter_eq_nil_iff]
    intro c hc hal
    apply ht c hc
    cases c <;> simp [Call.isAlloc] at hal
    rfl
  have s0 : ∀ c ∈ t0, c.step ≠ 6 := fun c h => by have := h0 c h; omega
  have s1 : ∀ c ∈ t1, c.step ≠ 6 := fun c h => by have := h1 c h; omega
  have s2 : ∀ c ∈ t2, c.step ≠ 6 := fun c h => by have := h2 c h; omega
  have s3 : ∀ c ∈ t3, c.step ≠ 6 := fun c h => by have := h3 c h; omega
  have s4 : ∀ c ∈ t4, c.step ≠ 6 := fun c h => by have := h4 c h; omega
  have s6 : ∀ c ∈ t6, c.step ≠ 6 := fun c h => by have := h6 c h; omega
  have hmem : ∀ m, Call.sys_ioctl (IoctlReq.VIDIOC_QBUF m) ∈ (cam.startCamera K w).2.2 →
      Call.sys_ioctl (IoctlReq.VIDIOC_QBUF m) ∈ t5 := by
    intro m hm
    rcases hl with ⟨_, _, ht⟩ | ⟨_, _, _, ht⟩ | ⟨_, _, _, _, ht⟩ | ⟨_, _, _, _, ht⟩ |
      ⟨_, _, _, _, _, ht⟩ | ⟨_, _, _, _, _, ht⟩ | ⟨_, _, _, _, _, ht⟩ |
      ⟨_, _, _, _, _, _, _, ht⟩ | ⟨_, _, _, _, _, _, _, ht⟩ | ⟨_, _, _, _, _, _, _, ht⟩ <;>
    · rw [ht] at hm
      try simp only [List.mem_append] at hm
      have e0 := hnq t0 m s0
      have e1 := hnq t1 m s1
      have e2 := hnq t2 m s2
      have e3 := hnq t3 m s3
      have e4 := hnq t4 m s4
      have e6 := hnq t6 m s6
      tauto
  have hcount : ((cam.startCamera K w).2.2.filter Call.isAlloc).length ≤
      (t5.filter Call.isAlloc).length := by
    rcases hl with ⟨_, _, ht⟩ | ⟨_, _, _, ht⟩ | ⟨_, _, _, _, ht⟩ | ⟨_, _, _, _, ht⟩ |
      ⟨_, _, _, _, _, ht⟩ | ⟨_, _, _, _, _, ht⟩ | ⟨_, _, _, _, _, ht⟩ |
      ⟨_, _, _, _, _, _, _, ht⟩ | ⟨_, _, _, _, _, _, _, ht⟩ | ⟨_, _, _, _, _, _, _, ht⟩ <;>
    · rw [ht]
      have e0 := hna t0 s0
      have e1 := hna t1 s1
      have e2 := hna t2 s2
      have e3 := hna t3 s3
      have e4 := hna t4 s4
      have e6 := hna t6 s6
      simp only [List.filter_append, e0, e1, e2, e3, e4, e6, List.append_nil, List.nil_append,
        List.length_nil, Nat.zero_le, le_refl]
  exact ⟨fun m hm => hqb m (hmem m hm), fun j hj hnot => le_trans hcount (hal j hj hnot)⟩

theorem startCamera_true_iff (K : Nat) (w : StartWorld) (cam : Camera) :
    (cam.startCamera K w).1 = Outcome.returned true ↔
      AllStepsSucceed w cam.number_of_capture_buffers_ := by
  rcases startCamera_run K w cam with
    ⟨t0, t1, t2, t3, t4, t5, t6, qbo, _, _, _, _, _, _, _, _, _, _, _, _, _, hqn, hqt, _, hl⟩
  unfold AllStepsSucceed
  rcases hl with ⟨hm, ho, _⟩ | ⟨_, hc, ho, _⟩ | ⟨_, _, hs, ho, _⟩ | ⟨_, _, hs, ho, _⟩ |
    ⟨_, _, _, hr, ho, _⟩ | ⟨_, _, _, hr, ho, _⟩ | ⟨_, _, _, _, ⟨out, hq, ho⟩, _⟩ |
    ⟨_, _, _, _, _, hst, ho, _⟩ | ⟨_, _, _, _, _, hst, ho, _⟩ |
    ⟨hm, hc, hs, hr, hq, hst, ho, _⟩
  · rw [ho]
    simp only [reduceCtorEq, Outcome.returned.injEq, Bool.false_eq_true, false_iff]
    exact fun h => hm h.1
  · rw [ho]
    simp only [reduceCtorEq, Outcome.returned.injEq, Bool.false_eq_true, false_iff]
    exact fun h => hc h.2.1
  · rw [ho]
    simp only [reduceCtorEq, false_iff]
    exact fun h => hs (resolves_of_succeeds _ h.2.2.1)
  · rw [ho]
    simp only [reduceCtorEq, Outcome.returned.injEq, Bool.false_eq_true, false_iff]
    exact fun h => not_fails_of_succeeds _ h.2.2.1 hs
  · rw [ho]
    simp only [reduceCtorEq, false_iff]
    exact fun h => hr (resolves_of_succeeds _ h.2.2.2.1)
  · rw [ho]
    simp only [reduceCtorEq, Outcome.returned.injEq, Bool.false_eq_true, false_iff]
    exact fun h => not_fails_of_succeeds _ h.2.2.2.1 hr
  · rw [ho]
    constructor
    · intro h
      rw [h] at hq
      exact absurd hq hqt
    · intro h
      have := hqn.mpr h.2.2.2.2.1
      rw [this] at hq
      cases hq
  · rw [ho]
    simp only [reduceCtorEq, false_iff]
    exact fun h => hst (resolves_of_succeeds _ h.2.2.2.2.2)
  · rw [ho]
    simp only [reduceCtorEq, Outcome.returned.injEq, Bool.false_eq_true, false_iff]
    exact fun h => not_fails_of_succeeds _ h.2.2.2.2.2 hst
  · rw [ho]
    simp only [true_iff]
    exact ⟨hm, hc, hs, hr, hqn.mp hq, hst⟩

/-- With every allocation succeeding and no request interrupted for ever,
`startCamera` returns. -/
theorem startCamera_returns (K : Nat) (w : StartWorld) (cam : Camera)
    (hresp : Responsive w cam.number_of_capture_buffers_)
    (halloc : ∀ n, n < cam.number_of_capture_buffers_ → AllocOk w n) :
    (cam.startCamera K w).1 = Outcome.returned true ∨
      (cam.startCamera K w).1 = Outcome.returned false := by
  rcases startCamera_run K w cam with
    ⟨t0, t1, t2, t3, t4, t5, t6, qbo, _, _, _, _, _, _, _, _, _, _, _, _, _, _, _, htot, hl⟩
  rcases hresp with ⟨r1, r2, r3, r4⟩
  rcases hl with ⟨_, ho, _⟩ | ⟨_, _, ho, _⟩ | ⟨_, _, hs, ho, _⟩ | ⟨_, _, _, ho, _⟩ |
    ⟨_, _, _, hr, ho, _⟩ | ⟨_, _, _, _, ho, _⟩ | ⟨_, _, _, _, ⟨out, hq, ho⟩, _⟩ |
    ⟨_, _, _, _, _, hst, ho, _⟩ | ⟨_, _, _, _, _, _, ho, _⟩ | ⟨_, _, _, _, _, _, ho, _⟩
  · exact Or.inr ho
  · exact Or.inr ho
  · exact absurd r1 hs
  · exact Or.inr ho
  · exact absurd r2 hr
  · exact Or.inr ho
  · rcases htot (fun j hj => ⟨halloc j hj, r3 j hj⟩) with h | h
    · rw [h] at hq
      cases hq
    · rw [h] at hq
      right
      rw [ho]
      exact (Option.some.inj hq).symm
  · exact absurd r4 hst
  · exact Or.inr ho
  · exact Or.inl ho

theorem queueBuffers_congr (K : Nat) (w w2 : StartWorld) (h1 : w2.mmngr = w.mmngr)
    (h2 : w2.qbuf = w.qbuf) (todo : Nat) :
    ∀ (n : Nat) (cam : Camera),
      Camera.queueBuffers K w2 todo n cam = Camera.queueBuffers K w todo n cam := by
  induction todo with
  | zero => intro n cam; rfl
  | succ todo ih =>
    intro n cam
    simp only [Camera.queueBuffers, h1, h2, ih]

/-- The answers to the graph-configuration requests and to `VIDIOC_S_PARM` have
no influence on `startCamera`. -/
theorem startCamera_unchecked (K : Nat) (w : StartWorld) (cam : Camera) (g : Call → Int)
    (p : SysResult) :
    cam.startCamera K { w with graph_rc := g, s_parm := p } = cam.startCamera K w := by
  have hq := queueBuffers_congr K w { w with graph_rc := g, s_parm := p } rfl rfl
  unfold Camera.startCamera
  simp only [Camera.openCaptureDevice, Camera.setCaptureFormat, Camera.requestCaptureBuffers,
    Camera.startCapture, hq, ite_self]

/-! ## Shutdown, loop bounds and camera sources: lemmas -/

theorem xioctl_trace_replicate (req : IoctlReq) (answers : List SysResult) :
    ∃ k, (xioctl req answers).2 = List.replicate k (Call.sys_ioctl req) ∧
      (answers ≠ [] → 1 ≤ k) ∧ k ≤ answers.length := by
  induction answers with
  | nil => exact ⟨0, rfl, fun h => absurd rfl h, le_refl _⟩
  | cons r rest ih =>
    rcases ih with ⟨k, hk, _, hle⟩
    unfold xioctl
    by_cases h : r.ret = -1 ∧ r.errno = EINTR
    · refine ⟨k + 1, ?_, fun _ => by omega, by simp; omega⟩
      simp only [h, and_self, if_true, hk, List.replicate_succ]
    · refine ⟨1, ?_, fun _ => le_refl _, by simp⟩
      simp [h]

theorem linkRequests_isLink (ents : List MediaEntity) (i : Nat) :
    ∀ c ∈ linkRequests ents i, c.isLink = true := by
  intro c hc
  rcases linkRequests_mem ents i c hc with ⟨_, _, _, _, rfl, _⟩
  rfl

theorem padRequests_isLink (ents : List MediaEntity) (i : Nat) :
    ∀ c ∈ padRequests ents i, c.isLink = false := by
  intro c hc
  rcases padRequests_mem ents i c hc with ⟨_, _, ⟨rfl, _⟩ | ⟨rfl, _⟩⟩ <;> rfl

theorem linkRequests_length_le (ents : List MediaEntity) (i : Nat) :
    (linkRequests ents i).length ≤ 1 := by
  unfold linkRequests
  split
  · split
    · dsimp only
      split <;> simp
    · simp
  · simp

theorem linkRequests_last (ents : List MediaEntity) (i : Nat) (h : i + 1 = ents.length) :
    linkRequests ents i = [] := by
  unfold linkRequests
  simp [h]

/-- The link requests among the requests of the rounds `0 .. m - 1`. -/
theorem links_of_rounds_le (ents : List MediaEntity) (m : Nat) (hm : m ≤ ents.length) :
    (((List.range m).flatMap
        (fun i => (linkRequests ents i ++ padRequests ents i).map (fun c => (i, c)))).filter
      (fun x => x.2.isLink)).length ≤ min m (ents.length - 1) := by
  have hseg : ∀ i, (((linkRequests ents i ++ padRequests ents i).map (fun c => (i, c))).filter
      (fun x : Nat × Call => x.2.isLink)).length = (linkRequests ents i).length := by
    intro i
    rw [List.filter_map, List.length_map, List.filter_append]
    have h1 : (linkRequests ents i).filter ((fun x : Nat × Call => x.2.isLink) ∘ fun c => (i, c)) =
        linkRequests ents i := by
      rw [List.filter_eq_self]
      intro c hc
      exact linkRequests_isLink ents i c hc
    have h2 : (padRequests ents i).filter ((fun x : Nat × Call => x.2.isLink) ∘ fun c => (i, c)) =
        [] := by
      rw [List.filter_eq_nil_iff]
      intro c hc
      simp [padRequests_isLink ents i c hc]
    rw [h1, h2, List.append_nil]
  induction m with
  | zero => simp
  | succ m ih =>
    rw [List.range_succ, List.flatMap_append, List.filter_append, List.length_append]
    simp only [List.flatMap_cons, List.flatMap_nil, List.append_nil, hseg]
    have ih' := ih (by omega)
    by_cases hlast : m + 1 = ents.length
    · rw [linkRequests_last ents m hlast]
      simp only [List.length_nil]
      omega
    · have := linkRequests_length_le ents m
      omega

theorem ofId_head (m : MediaWorld) (dev_id : Nat) :
    (MediaDevice.ofId m dev_id).2.head? =
      some (Call.media_device_new ("/dev/media" ++ toString dev_id)) := by
  unfold MediaDevice.ofId MediaDevice.open MediaDevice.Enumerate
  cases hn : m.new_ok <;> cases he : m.enumerated <;> simp

theorem head?_append_of_head? {α : Type} (l r : List α) (a : α) (h : l.head? = some a) :
    (l ++ r).head? = some a := by
  cases l with
  | nil => simp at h
  | cons x xs => simpa using h

theorem configurePipeline_head (plan : List EntityConfig) (d : MediaDevice) :
    Call.media_reset_links ∈ (MediaDevice.configurePipeline plan d).2 := by
  simp [MediaDevice.configurePipeline, configureRequests]

/-! ## The capture queue: lemmas -/

theorem kernelRun_append (q : List V4l2Buffer) (a b : List Call) :
    kernelRun q (a ++ b) = kernelRun (kernelRun q a) b := by
  unfold kernelRun
  rw [List.foldl_append]

theorem kernelRun_startup (tr : List Call) :
    ∀ q : List V4l2Buffer, (∀ c ∈ tr, c.step ≠ 8) →
      kernelRun q tr = q ++ tr.filterMap Call.queued := by
  induction tr with
  | nil => intro q _; simp [kernelRun]
  | cons c rest ih =>
    intro q h
    have hc := h c (List.mem_cons_self _ _)
    have ih2 := fun q => ih q (fun c hc => h c (List.mem_cons_of_mem _ hc))
    unfold kernelRun at ih2 ⊢
    rw [List.foldl_cons, ih2]
    cases c with
    | sys_ioctl req =>
      cases req <;> first
        | exact absurd rfl hc
        | simp [kernelApply, Call.queued]
    | _ => simp [kernelApply, Call.queued]

theorem queued_step (c : Call) (b : V4l2Buffer) (h : c.queued = some b) : c.step = 6 := by
  cases c with
  | sys_ioctl req => cases req <;> first | rfl | simp [Call.queued] at h
  | _ => simp [Call.queued] at h

theorem filterMap_queued_nil (t : List Call) (h : ∀ c ∈ t, c.step ≠ 6) :
    t.filterMap Call.queued = [] := by
  rw [List.filterMap_eq_nil_iff]
  intro c hc
  cases hq : c.queued with
  | none => rfl
  | some b => exact absurd (queued_step c b hq) (h c hc)

theorem xioctl_at_once (req : IoctlReq) (r : SysResult) (rest : List SysResult)
    (h : ¬ Interrupted r) :
    xioctl req (r :: rest) = (some (r.ret != -1), [Call.sys_ioctl req]) := by
  unfold xioctl
  unfold Interrupted at h
  rw [if_neg h]

theorem succeeds_at_once (answers : List SysResult) (hs : RequestSucceeds answers)
    (hq : ∀ r, answers.head? = some r → ¬ Interrupted r) :
    ∃ r rest, answers = r :: rest ∧ ¬ Interrupted r ∧ r.ret ≠ -1 := by
  rcases hs with ⟨pre, r, rest, he, hpre, hr⟩
  cases pre with
  | nil =>
    refine ⟨r, rest, by simpa using he, ?_, hr⟩
    exact hq r (by simp [he])
  | cons x xs =>
    exact absurd (hpre x (List.mem_cons_self _ _)) (hq x (by simp [he]))

theorem queueBuffers_succ_ok (K : Nat) (w : StartWorld) (todo n : Nat) (cam : Camera)
    (hlen : cam.capture_dma_buffers_.length = n) (ha : AllocOk w n)
    (hs : RequestSucceeds (w.qbuf n))
    (hq : ∀ r, (w.qbuf n).head? = some r → ¬ Interrupted r) :
    ∃ b : DmaBuffer, (DmaBuffer.new (w.mmngr n) K 1).1 = Except.ok b ∧
      (∀ c ∈ (DmaBuffer.new (w.mmngr n) K 1).2, c.queued = none) ∧
      Camera.queueBuffers K w (todo + 1) n cam =
        ((Camera.queueBuffers K w todo (n + 1)
            { cam with capture_dma_buffers_ := cam.capture_dma_buffers_ ++ [b],
                       active_capture_buffer_ := v4l2BufferFor n b }).1,
         (Camera.queueBuffers K w todo (n + 1)
            { cam with capture_dma_buffers_ := cam.capture_dma_buffers_ ++ [b],
                       active_capture_buffer_ := v4l2BufferFor n b }).2.1,
         (DmaBuffer.new (w.mmngr n) K 1).2 ++
           [Call.sys_ioctl (IoctlReq.VIDIOC_QBUF (v4l2BufferFor n b))] ++
           (Camera.queueBuffers K w todo (n + 1)
            { cam with capture_dma_buffers_ := cam.capture_dma_buffers_ ++ [b],
                       active_capture_buffer_ := v4l2BufferFor n b }).2.2) := by
  rcases succeeds_at_once _ hs hq with ⟨r, rest, he, hni, hr⟩
  have hnew : DmaBuffer.new (w.mmngr n) K 1 =
      (Except.ok { index_ := (w.mmngr n).id, fd_ := (w.mmngr n).dma_fd,
                   size_ := (K * 1) % 2 ^ 32, count_ := 1,
                   physical_address_ := (w.mmngr n).phard_addr,
                   mem_ := (w.mmngr n).puser_virt_addr },
        [Call.mmngr_alloc_in_user_ext ((K * 1) % 2 ^ 32),
          Call.mmngr_export_start_in_user_ext (w.mmngr n).id]) := by
    unfold DmaBuffer.new
    unfold AllocOk at ha
    simp only [if_neg ha]
  refine ⟨_, by rw [hnew], ?_, ?_⟩
  · rw [hnew]
    intro c hc
    simp only [List.mem_cons, List.mem_singleton, List.not_mem_nil, or_false] at hc
    rcases hc with rfl | rfl <;> rfl
  · rw [Camera.queueBuffers, hnew]
    have hget : ∀ b : DmaBuffer, (cam.capture_dma_buffers_ ++ [b])[n]? = some b := by
      intro b
      rw [← hlen]
      simp
    simp only [hget, he, xioctl_at_once _ r rest hni]
    have hb : (r.ret != -1) = true := by simpa using hr
    simp only [hb]
    rfl

theorem queueBuffers_fifo (K : Nat) (w : StartWorld) (todo : Nat) :
    ∀ (n : Nat) (cam : Camera), cam.capture_dma_buffers_.length = n →
      (∀ j, n ≤ j → j < n + todo → AllocOk w j ∧ RequestSucceeds (w.qbuf j)) →
      (∀ j, n ≤ j → j < n + todo → ∀ r, (w.qbuf j).head? = some r → ¬ Interrupted r) →
      ∃ bufs : List DmaBuffer, bufs.length = todo ∧
        (∀ i b, bufs[i]? = some b → (DmaBuffer.new (w.mmngr (n + i)) K 1).1 = Except.ok b) ∧
        (Camera.queueBuffers K w todo n cam).2.1.capture_dma_buffers_ =
          cam.capture_dma_buffers_ ++ bufs ∧
        (Camera.queueBuffers K w todo n cam).2.2.filterMap Call.queued =
          List.zipWith v4l2BufferFor (List.range' n todo) bufs := by
  induction todo with
  | zero =>
    intro n cam _ _ _
    exact ⟨[], rfl, by simp, by simp [Camera.queueBuffers], by simp [Camera.queueBuffers]⟩
  | succ todo ih =>
    intro n cam hlen hall hq
    rcases queueBuffers_succ_ok K w todo n cam hlen (hall n (le_refl _) (by omega)).1
      (hall n (le_refl _) (by omega)).2 (hq n (le_refl _) (by omega)) with ⟨b, hb, hnq, heq⟩
    rcases ih (n + 1)
      { cam with capture_dma_buffers_ := cam.capture_dma_buffers_ ++ [b],
                 active_capture_buffer_ := v4l2BufferFor n b }
      (by simp [hlen]) (fun j h1 h2 => hall j (by omega) (by omega))
      (fun j h1 h2 => hq j (by omega) (by omega)) with ⟨bufs, hl, hmk, hcam, htr⟩
    refine ⟨b :: bufs, by simp [hl], ?_, ?_, ?_⟩
    · intro i x hx
      cases i with
      | zero =>
        simp only [List.getElem?_cons_zero, Option.some.injEq] at hx
        subst hx
        exact hb
      | succ i =>
        simp only [List.getElem?_cons_succ] at hx
        have := hmk i x hx
        rw [show n + (i + 1) = n + 1 + i by omega]
        exact this
    · rw [heq]
      simp only [hcam, List.append_assoc, List.singleton_append]
    · rw [heq]
      have h0 : (DmaBuffer.new (w.mmngr n) K 1).2.filterMap Call.queued = [] := by
        rw [List.filterMap_eq_nil_iff]
        exact hnq
      simp only [List.filterMap_append, h0, htr, List.nil_append, List.range'_succ,
        List.zipWith_cons_cons]
      rfl

theorem openCaptureDevice_dma (w : StartWorld) (cam : Camera) :
    (cam.openCaptureDevice w).2.1.capture_dma_buffers_ = cam.capture_dma_buffers_ := by
  unfold Camera.openCaptureDevice
  dsimp only
  split
  · rfl
  · split
    · rfl
    · split <;> rfl

theorem startCamera_true_cam (K : Nat) (w : StartWorld) (cam : Camera)
    (h : (cam.startCamera K w).1 = Outcome.returned true) :
    (cam.startCamera K w).2.1 =
      (Camera.queueBuffers K w cam.number_of_capture_buffers_ 0
        (cam.openCaptureDevice w).2.1).2.1 := by
  have hN := openCaptureDevice_buffers w cam
  unfold Camera.startCamera at h ⊢
  dsimp only at h ⊢
  cases hopen : (MediaDevice.ofId w.media_start cam.cam_src_.toNat).1.isOpen
  · simp [hopen] at h
  · simp only [hopen, Bool.not_true, Bool.false_eq_true, if_false] at h ⊢
    rcases hoc : cam.openCaptureDevice w with ⟨b, cam1, t2⟩
    simp only [hoc] at h hN ⊢
    cases b with
    | false => simp at h
    | true =>
      rcases hs : cam1.setCaptureFormat w with ⟨o3, t3⟩
      simp only [hs] at h ⊢
      rcases o3 with _ | _ | _
      · simp at h
      · simp at h
      · rcases hr : cam1.requestCaptureBuffers w with ⟨o4, t4⟩
        simp only [hr] at h ⊢
        rcases o4 with _ | _ | _
        · simp at h
        · simp at h
        · rw [hN] at h ⊢
          rcases hq : Camera.queueBuffers K w cam.number_of_capture_buffers_ 0 cam1
            with ⟨qo, cam2, t5⟩
          simp only [hq] at h ⊢
          cases qo with
          | some out => rfl
          | none =>
            dsimp only at h ⊢
            rcases hsc : cam2.startCapture w with ⟨o6, t6⟩
            rcases o6 with _ | _ | _ <;> rfl

theorem captureRound_fifo (cam : Camera) (b : V4l2Buffer) (rest : List V4l2Buffer)
    (h : b.index < cam.capture_dma_buffers_.length) :
    captureRound cam (b :: rest) =
      { capture := Outcome.returned true, dequeued := b.index, mid := rest,
        requeue := some true, cam := { cam with active_capture_buffer_ := b },
        queue := rest ++ [b] } := by
  have hget : cam.capture_dma_buffers_[b.index]? = some cam.capture_dma_buffers_[b.index] :=
    List.getElem?_eq_getElem h
  have hcap : cam.captureImage (fifoCaptureWorld (b :: rest)) =
      (Outcome.returned true, { cam with active_capture_buffer_ := b },
        [Call.sys_select, Call.sys_ioctl IoctlReq.VIDIOC_DQBUF] ++
          (cam.capture_dma_buffers_[b.index].flush 0).2) := by
    simp [Camera.captureImage, fifoCaptureWorld, waitForFrame, xioctl, hget, DmaBuffer.flush]
  unfold captureRound
  rw [hcap]
  simp [kernelRun, kernelApply, Camera.queueCaptureBuffer, xioctl, DmaBuffer.flush]

theorem captureRounds_length (k : Nat) :
    ∀ (cam : Camera) (q : List V4l2Buffer), (captureRounds k cam q).length = k := by
  induction k with
  | zero => intro _ _; rfl
  | succ k ih => intro cam q; simp [captureRounds, ih]

theorem captureRounds_fifo (k : Nat) :
    ∀ (cam : Camera) (q : List V4l2Buffer), q ≠ [] →
      (∀ b ∈ q, b.index < cam.capture_dma_buffers_.length) →
      ∀ j, j < k → ∃ R : Round, (captureRounds k cam q)[j]? = some R ∧
        R.capture = Outcome.returned true ∧ R.requeue = some true ∧
        q.rotate j = R.cam.active_capture_buffer_ :: R.mid ∧
        R.dequeued = R.cam.active_capture_buffer_.index ∧
        R.queue = q.rotate (j + 1) := by
  induction k with
  | zero => intro _ _ _ _ j hj; omega
  | succ k ih =>
    intro cam q hne hall j hj
    cases q with
    | nil => exact absurd rfl hne
    | cons b rest =>
      have hb := hall b (List.mem_cons_self _ _)
      rw [captureRounds, captureRound_fifo cam b rest hb]
      cases j with
      | zero =>
        refine ⟨Round.mk (Outcome.returned true) b.index rest (some true)
          { cam with active_capture_buffer_ := b } (rest ++ [b]), ?_, rfl, rfl, ?_, rfl, ?_⟩
        · simp
        · simp
        · simp [List.rotate_cons_succ]
      | succ j =>
        rcases ih { cam with active_capture_buffer_ := b } (rest ++ [b]) (by simp)
          (fun x hx => hall x (by
            rcases List.mem_append.mp hx with h | h
            · exact List.mem_cons_of_mem _ h
            · simp only [List.mem_singleton] at h
              subst h
              exact List.mem_cons_self _ _)) j (by omega) with ⟨R, h1, h2, h3, h4, h5, h6⟩
        refine ⟨R, ?_, h2, h3, ?_, h5, ?_⟩
        · simpa using h1
        · rw [List.rotate_cons_succ]
          exact h4
        · rw [List.rotate_cons_succ]
          exact h6

theorem zipWith_v4l2BufferFor_index (bufs : List DmaBuffer) :
    ∀ n : Nat, (List.zipWith v4l2BufferFor (List.range' n bufs.length) bufs).map
      V4l2Buffer.index = List.range' n bufs.length := by
  induction bufs with
  | nil => intro n; rfl
  | cons b rest ih =>
    intro n
    simp only [List.length_cons, List.range'_succ, List.zipWith_cons_cons, List.map_cons, ih]
    rfl

theorem zipWith_v4l2BufferFor_get (bufs : List DmaBuffer) (n : Nat) (b : DmaBuffer)
    (h : bufs[n]? = some b) :
    (List.zipWith v4l2BufferFor (List.range' 0 bufs.length) bufs)[n]? =
      some (v4l2BufferFor n b) := by
  have hn : n < bufs.length := (List.getElem?_eq_some.mp h).1
  rw [List.getElem?_zipWith, h, List.getElem?_range' _ _ hn]
  simp

/-- The queue of the driver after a successful `startCamera` on a camera with
no buffers yet. -/
theorem startCamera_queue (K : Nat) (w : StartWorld) (cam : Camera)
    (hfresh : cam.capture_dma_buffers_ = [])
    (hok : (cam.startCamera K w).1 = Outcome.returned true)
    (hq : ∀ n, n < cam.number_of_capture_buffers_ →
      ∀ r, (w.qbuf n).head? = some r → ¬ Interrupted r) :
    ∃ bufs : List DmaBuffer, bufs.length = cam.number_of_capture_buffers_ ∧
      (∀ i b, bufs[i]? = some b → (DmaBuffer.new (w.mmngr i) K 1).1 = Except.ok b) ∧
      (cam.startCamera K w).2.1.capture_dma_buffers_ = bufs ∧
      (cam.startCamera K w).2.2.filterMap Call.queued =
        List.zipWith v4l2BufferFor (List.range' 0 bufs.length) bufs ∧
      kernelRun [] (cam.startCamera K w).2.2 = (cam.startCamera K w).2.2.filterMap Call.queued := by
  have hall := ((startCamera_true_iff K w cam).mp hok).2.2.2.2.1
  have hlen : (cam.openCaptureDevice w).2.1.capture_dma_buffers_.length = 0 := by
    rw [openCaptureDevice_dma, hfresh]
    rfl
  rcases queueBuffers_fifo K w cam.number_of_capture_buffers_ 0 (cam.openCaptureDevice w).2.1 hlen
    (fun j _ hj => hall j (by omega)) (fun j _ hj => hq j (by omega)) with
    ⟨bufs, hl, hmk, hcam, htr⟩
  rcases startCamera_run K w cam with
    ⟨t0, t1, t2, t3, t4, t5, t6, qbo, _, _, e5, _, h0, h1, h2, h3, h4, h5, h6, _, _, _, hqt, _,
      hleaf⟩
  have htrace : (cam.startCamera K w).2.2 = t0 ++ t1 ++ t2 ++ t3 ++ t4 ++ t5 ++ t6 := by
    rcases hleaf with ⟨_, ho, _⟩ | ⟨_, _, ho, _⟩ | ⟨_, _, _, ho, _⟩ | ⟨_, _, _, ho, _⟩ |
      ⟨_, _, _, _, ho, _⟩ | ⟨_, _, _, _, ho, _⟩ | ⟨_, _, _, _, ⟨out, hqo, ho⟩, _⟩ |
      ⟨_, _, _, _, _, _, ho, _⟩ | ⟨_, _, _, _, _, _, ho, _⟩ | ⟨_, _, _, _, _, _, _, ht⟩
    · rw [ho] at hok; cases hok
    · rw [ho] at hok; cases hok
    · rw [ho] at hok; cases hok
    · rw [ho] at hok; cases hok
    · rw [ho] at hok; cases hok
    · rw [ho] at hok; cases hok
    · rw [ho] at hok
      rw [hok] at hqo
      exact absurd hqo hqt
    · rw [ho] at hok; cases hok
    · rw [ho] at hok; cases hok
    · exact ht
  have hsteps : ∀ c ∈ (cam.startCamera K w).2.2, c.step ≠ 8 := by
    intro c hc
    rw [htrace] at hc
    simp only [List.mem_append] at hc
    rcases hc with (((((hc | hc) | hc) | hc) | hc) | hc) | hc
    · have := h0 c hc; omega
    · have := h1 c hc; omega
    · have := h2 c hc; omega
    · have := h3 c hc; omega
    · have := h4 c hc; omega
    · have := h5 c hc; omega
    · have := h6 c hc; omega
  refine ⟨bufs, hl, ?_, ?_, ?_, ?_⟩
  · intro i b hb
    have := hmk i b hb
    rwa [Nat.zero_add] at this
  · rw [startCamera_true_cam K w cam hok, hcam, openCaptureDevice_dma, hfresh]
    rfl
  · rw [htrace]
    simp only [List.filterMap_append]
    rw [filterMap_queued_nil t0 (fun c hc => by have := h0 c hc; omega),
      filterMap_queued_nil t1 (fun c hc => by have := h1 c hc; omega),
      filterMap_queued_nil t2 (fun c hc => by have := h2 c hc; omega),
      filterMap_queued_nil t3 (fun c hc => by have := h3 c hc; omega),
      filterMap_queued_nil t4 (fun c hc => by have := h4 c hc; omega),
      filterMap_queued_nil t6 (fun c hc => by have := h6 c hc; omega), e5, htr, hl]
    simp
  · rw [kernelRun_startup _ [] hsteps]
    rfl

/-! ## Accesses of the second loop: lemmas -/

theorem filterMap_requested_map (l : List Call) :
    (l.map LoopEvent.request).filterMap LoopEvent.requested = l := by
  induction l with
  | nil => rfl
  | cons c rest ih => simp [LoopEvent.requested, ih]

theorem filterMap_flatMap_eq {α β γ : Type} (f : β → Option γ) (g : α → List β) (l : List α) :
    (l.flatMap g).filterMap f = l.flatMap (fun x => (g x).filterMap f) := by
  induction l with
  | nil => rfl
  | cons x rest ih => simp [List.flatMap_cons, List.filterMap_append, ih]

theorem map_flatMap_eq {α β γ : Type} (f : β → γ) (g : α → List β) (l : List α) :
    (l.flatMap g).map f = l.flatMap (fun x => (g x).map f) := by
  induction l with
  | nil => rfl
  | cons x rest ih => simp [List.flatMap_cons, ih]

/-- Round `i < n` stays inside the vector; its events. -/
theorem roundEvents_inside (ents : List MediaEntity) (i : Nat) (hi : i < ents.length) :
    roundEvents ents i =
      ([LoopEvent.addr i, LoopEvent.addr (i + 1), LoopEvent.addr ents.length] ++
        (if i + 1 ≠ ents.length then [LoopEvent.read i, LoopEvent.read (i + 1)] else []) ++
        (linkRequests ents i).map LoopEvent.request ++ [LoopEvent.read i] ++
        (padRequests ents i).map LoopEvent.request, true) := by
  have ha : ents[i]? = some ents[i] := List.getElem?_eq_getElem hi
  have hp : padEvents ents i = (LoopEvent.read i :: (padRequests ents i).map LoopEvent.request,
      true) := by
    unfold padEvents padRequests
    simp only [ha]
    split <;> split <;> simp
  by_cases hne : i + 1 ≠ ents.length
  · have h1 : i + 1 < ents.length := by omega
    have hb : ents[i + 1]? = some ents[i + 1] := List.getElem?_eq_getElem h1
    have hl : linkEvents ents i =
        ([LoopEvent.addr i, LoopEvent.addr (i + 1), LoopEvent.addr ents.length] ++
          [LoopEvent.read i, LoopEvent.read (i + 1)] ++
          (linkRequests ents i).map LoopEvent.request, true) := by
      unfold linkEvents linkRequests
      simp only [ha, hb, if_pos hne]
      split <;> simp
    unfold roundEvents
    simp only [hl, hp, if_pos hne]
    simp
  · have hl : linkEvents ents i =
        ([LoopEvent.addr i, LoopEvent.addr (i + 1), LoopEvent.addr ents.length], true) := by
      unfold linkEvents
      simp only [if_neg hne]
    have hr : linkRequests ents i = [] := by
      unfold linkRequests
      simp only [if_neg hne]
    unfold roundEvents
    simp only [hl, hp, hr, if_neg hne]
    simp

theorem loopEvents_inside (ents : List MediaEntity) (todo : Nat) :
    ∀ i, i + todo = ents.length →
      loopEvents ents todo i =
        ((List.range' i todo).flatMap (fun k => (roundEvents ents k).1), true) := by
  induction todo with
  | zero => intro i _; rfl
  | succ todo ih =>
    intro i hi
    have hr := roundEvents_inside ents i (by omega)
    have hrest := ih (i + 1) (by omega)
    have h2 : (roundEvents ents i).2 = true := by rw [hr]
    rw [loopEvents]
    simp only [h2, hrest, List.range'_succ, List.flatMap_cons]
    rfl

theorem configureEvents_inside (ents : List MediaEntity) :
    configureEvents ents =
      ((List.range ents.length).flatMap (fun k => (roundEvents ents k).1), true) := by
  unfold configureEvents
  rw [loopEvents_inside ents ents.length 0 (by omega), List.range_eq_range']

theorem roundEvents_requests (ents : List MediaEntity) (i : Nat) (hi : i < ents.length) :
    (roundEvents ents i).1.filterMap LoopEvent.requested =
      linkRequests ents i ++ padRequests ents i := by
  rw [roundEvents_inside ents i hi]
  simp only [List.filterMap_append, filterMap_requested_map]
  split <;> simp [LoopEvent.requested]

theorem flatMap_congr_mem {α β : Type} (l : List α) (f g : α → List β)
    (h : ∀ x ∈ l, f x = g x) : l.flatMap f = l.flatMap g := by
  induction l with
  | nil => rfl
  | cons x rest ih =>
    simp only [List.flatMap_cons]
    rw [h x (List.mem_cons_self _ _), ih (fun y hy => h y (List.mem_cons_of_mem _ hy))]

theorem configureEvents_requests (ents : List MediaEntity) :
    (configureEvents ents).1.filterMap LoopEvent.requested =
      (configureLoop ents).map Prod.snd := by
  rw [configureEvents_inside]
  unfold configureLoop
  rw [filterMap_flatMap_eq, map_flatMap_eq]
  apply flatMap_congr_mem
  intro i hi
  rw [roundEvents_requests ents i (List.mem_range.mp hi)]
  simp [List.map_map, Function.comp_def]

theorem map_request_no_read (l : List Call) (j : Nat) :
    LoopEvent.read j ∉ l.map LoopEvent.request := by
  simp

theorem map_request_no_addr (l : List Call) (j : Nat) :
    LoopEvent.addr j ∉ l.map LoopEvent.request := by
  simp

/-- The reads of round `i < n`: entity `i`, and entity `i + 1` exactly when it
is not the end of the vector. -/
theorem roundEvents_read (ents : List MediaEntity) (i j : Nat) (hi : i < ents.length) :
    LoopEvent.read j ∈ (roundEvents ents i).1 ↔ j = i ∨ (j = i + 1 ∧ i + 1 < ents.length) := by
  rw [roundEvents_inside ents i hi]
  by_cases hne : i + 1 ≠ ents.length
  · simp [hne]
    constructor
    · rintro (h | h | h)
      · exact Or.inl h
      · exact Or.inr ⟨h, by omega⟩
      · exact Or.inl h
    · rintro (h | ⟨h, _⟩)
      · exact Or.inl h
      · exact Or.inr (Or.inl h)
  · simp [hne]
    intro h1 h2
    omega

theorem roundEvents_addr (ents : List MediaEntity) (i j : Nat) (hi : i < ents.length) :
    LoopEvent.addr j ∈ (roundEvents ents i).1 ↔ j = i ∨ j = i + 1 ∨ j = ents.length := by
  rw [roundEvents_inside ents i hi]
  by_cases hne : i + 1 ≠ ents.length <;> simp [hne]

/-- A round at an index that is not below the length reads outside the
vector. -/
theorem roundEvents_outside (ents : List MediaEntity) (i : Nat) (hi : ents.length ≤ i) :
    (roundEvents ents i).2 = false ∧ LoopEvent.read i ∈ (roundEvents ents i).1 := by
  have ha : ents[i]? = none := List.getElem?_eq_none hi
  have hne : i + 1 ≠ ents.length := by omega
  have hl : linkEvents ents i =
      ([LoopEvent.addr i, LoopEvent.addr (i + 1), LoopEvent.addr ents.length] ++
        [LoopEvent.read i, LoopEvent.read (i + 1)], false) := by
    unfold linkEvents
    simp only [ha, if_pos hne]
  unfold roundEvents
  simp [hl]

theorem request_mem_iff (l : List LoopEvent) (c : Call) :
    LoopEvent.request c ∈ l ↔ c ∈ l.filterMap LoopEvent.requested := by
  rw [List.mem_filterMap]
  constructor
  · intro h
    exact ⟨_, h, rfl⟩
  · rintro ⟨e, he, hc⟩
    cases e with
    | request c2 =>
      simp only [LoopEvent.requested, Option.some.injEq] at hc
      subst hc
      exact he
    | addr j => simp [LoopEvent.requested] at hc
    | read j => simp [LoopEvent.requested] at hc

/-! ## Claims -/

/-- C1: `Enumerate` visits the roles in the order Sensor, VideoIsp,
CsiMipiReceiver, VideoCapture and appends for each the entity of lowest
enumeration index whose name contains the pattern of the role ("ar1335",
"ap1302", "csi2", "CRU"), or nothing when there is none; the roles appended are
a subsequence of the four roles in that order, and on a freshly constructed
device they are the whole pipeline. -/
theorem C1_enumerate_first_match (new_ok : Bool) (topo : List EntityDesc) (d : MediaDevice)
    (dev_id : Nat) :
    ∃ s0 s1 s2 s3 : List MediaEntity,
      (MediaDevice.Enumerate ⟨new_ok, some topo⟩ d).2.1.pipeline_entities_
        = d.pipeline_entities_ ++ s0 ++ s1 ++ s2 ++ s3 ∧
      (MediaDevice.ofId ⟨true, some topo⟩ dev_id).1.pipeline_entities_ = s0 ++ s1 ++ s2 ++ s3 ∧
      FirstMatch topo EntityType.Sensor "ar1335" s0 ∧
      FirstMatch topo EntityType.VideoIsp "ap1302" s1 ∧
      FirstMatch topo EntityType.CsiMipiReceiver "csi2" s2 ∧
      FirstMatch topo EntityType.VideoCapture "CRU" s3 ∧
      ((s0 ++ s1 ++ s2 ++ s3).map MediaEntity.type).Sublist
        [EntityType.Sensor, EntityType.VideoIsp, EntityType.CsiMipiReceiver,
         EntityType.VideoCapture] := by
  refine ⟨_, _, _, _, Enumerate_pipeline new_ok topo d, ?_,
    scanEntities_spec EntityType.Sensor topo,
    scanEntities_spec EntityType.VideoIsp topo,
    scanEntities_spec EntityType.CsiMipiReceiver topo,
    scanEntities_spec EntityType.VideoCapture topo, ?_⟩
  · have h := Enumerate_pipeline true topo { media_ := some [], open_ := true }
    simp only [List.nil_append] at h
    rw [← h]
    simp [MediaDevice.ofId, MediaDevice.open, MediaDevice.Enumerate]
  · have h0 := scanEntities_type EntityType.Sensor topo
    have h1 := scanEntities_type EntityType.VideoIsp topo
    have h2 := scanEntities_type EntityType.CsiMipiReceiver topo
    have h3 := scanEntities_type EntityType.VideoCapture topo
    cases hs0 : scanEntities EntityType.Sensor topo <;>
    cases hs1 : scanEntities EntityType.VideoIsp topo <;>
    cases hs2 : scanEntities EntityType.CsiMipiReceiver topo <;>
    cases hs3 : scanEntities EntityType.VideoCapture topo <;>
    simp [hs0, hs1, hs2, hs3] at h0 h1 h2 h3 ⊢ <;>
    simp [h0, h1, h2, h3]

/-- C2: `createLinkString` returns the empty string exactly when the source pad
of the source entity or the sink pad of the sink entity has type NONE or one of
the two names is empty; otherwise it returns
`'<src_name>':<src_pad> -> '<sink_name>':<sink_pad> [1]` with the pad indices
in decimal.  For an adjacent pair of the pipeline the link request is issued
with that string, and no request is issued when the string is empty. -/
theorem C2_createLinkString (source sink : MediaEntity) :
    (createLinkString source sink = "" ↔
      (source.config.source_pad.type = PadType.NONE ∨ sink.config.sink_pad.type = PadType.NONE ∨
        source.name = "" ∨ sink.name = "")) ∧
    (¬ (source.config.source_pad.type = PadType.NONE ∨ sink.config.sink_pad.type = PadType.NONE ∨
        source.name = "" ∨ sink.name = "") →
      createLinkString source sink =
        "'" ++ source.name ++ "':" ++ toString source.config.source_pad.index ++ " -> '" ++
          sink.name ++ "':" ++ toString sink.config.sink_pad.index ++ " [1]") ∧
    (∀ (ents : List MediaEntity) (i : Nat), ents[i]? = some source → ents[i + 1]? = some sink →
      linkRequests ents i =
        if createLinkString source sink = "" then []
        else [Call.media_parse_setup_links (createLinkString source sink)]) := by
  have hfmt : ∀ (a b : String) (n m : Nat),
      format "'%s':%u -> '%s':%u [1]" [Arg.str a, Arg.uint n, Arg.str b, Arg.uint m] =
        "'" ++ a ++ "':" ++ toString n ++ " -> '" ++ b ++ "':" ++ toString m ++ " [1]" := by
    intro a b n m
    apply String.ext
    simp [format, formatAux]
    rfl
  have hne : ∀ (a b : String) (n m : Nat),
      format "'%s':%u -> '%s':%u [1]" [Arg.str a, Arg.uint n, Arg.str b, Arg.uint m] ≠ "" := by
    intro a b n m h
    have := congrArg String.data h
    simp [format, formatAux] at this
  refine ⟨?_, ?_, ?_⟩
  · unfold createLinkString
    by_cases h1 : source.config.source_pad.type = PadType.NONE <;>
    by_cases h2 : sink.config.sink_pad.type = PadType.NONE <;>
    by_cases h3 : source.name = "" <;>
    by_cases h4 : sink.name = "" <;>
    simp [h1, h2, h3, h4, hne, String.isEmpty_iff]
  · intro h
    rw [not_or, not_or, not_or] at h
    unfold createLinkString
    simp [h.1, h.2.1, h.2.2.1, h.2.2.2, String.isEmpty_iff, hfmt]
  · intro ents i h1 h2
    have hlt : i + 1 < ents.length := (List.getElem?_eq_some.mp h2).1
    unfold linkRequests
    by_cases he : createLinkString source sink = ""
    · have he1 : (createLinkString source sink).isEmpty = true := (String.isEmpty_iff _).mpr he
      simp only [h1, h2, Nat.ne_of_lt hlt, he1]
      simp [he]
    · have he2 : (createLinkString source sink).isEmpty = false := by
        rw [Bool.eq_false_iff, Ne, String.isEmpty_iff]
        exact he
      simp [h1, h2, Nat.ne_of_lt hlt, he, he2]

/-- C3 (the code departs from the claim): for a sink pad tagged "UYVY", for
which `kMbusFormats` gives UYVY8_1X16, `createPadFormatString` prints the code
YUYV8_1X16; the tag of the pad is not consulted. -/
theorem C3_createPadFormatString_fixed_code :
    createPadFormatString "csi2"
        { type := PadType.SINK, index := 0, img_fmt_str := "UYVY",
          resolution := { width := 640, height := 480 } }
      = "'csi2':0 [fmt:YUYV8_1X16/640x480 field:none]" ∧
    kMbusFormats.lookup "UYVY" = some "UYVY8_1X16" ∧
    (∀ (entity_name : String) (pad : EntityPad) (tag : String),
      createPadFormatString entity_name { pad with img_fmt_str := tag } =
        createPadFormatString entity_name pad) := by
  refine ⟨by decide, by decide, ?_⟩
  intro entity_name pad tag
  rfl

/-- C4: in the requests of one `configurePipeline` call the link reset is the
first request and is issued once; a link request issued in round `i` is the
link from entity `i` to entity `i + 1`, a pad-format request issued in round
`j` is built from entity `j`; and every link request of round `i` precedes
every pad-format request of entity `i` and of entity `i + 1`. -/
theorem C4_link_before_pad_format (pipeline_config : List EntityConfig) (d : MediaDevice) :
    (MediaDevice.configurePipeline pipeline_config d).2 =
        (configureRequests (MediaDevice.configurePipeline pipeline_config d).1.pipeline_entities_).map
          Prod.snd ∧
    (configureRequests (MediaDevice.configurePipeline pipeline_config d).1.pipeline_entities_)[0]? =
        some (0, Call.media_reset_links) ∧
    (∀ (p i : Nat), 0 < p →
      (configureRequests (MediaDevice.configurePipeline pipeline_config d).1.pipeline_entities_)[p]? ≠
        some (i, Call.media_reset_links)) ∧
    (∀ (p i : Nat) (link : String),
      (configureRequests (MediaDevice.configurePipeline pipeline_config d).1.pipeline_entities_)[p]? =
          some (i, Call.media_parse_setup_links link) →
      ∃ a b, (MediaDevice.configurePipeline pipeline_config d).1.pipeline_entities_[i]? = some a ∧
        (MediaDevice.configurePipeline pipeline_config d).1.pipeline_entities_[i + 1]? = some b ∧
        link = createLinkString a b) ∧
    (∀ (q j : Nat) (fmt : String),
      (configureRequests (MediaDevice.configurePipeline pipeline_config d).1.pipeline_entities_)[q]? =
          some (j, Call.v4l2_subdev_parse_setup_formats fmt) →
      ∃ a, (MediaDevice.configurePipeline pipeline_config d).1.pipeline_entities_[j]? = some a ∧
        (fmt = createPadFormatString a.name a.config.sink_pad ∨
          fmt = createPadFormatString a.name a.config.source_pad)) ∧
    (∀ (p q i j : Nat) (link fmt : String),
      (configureRequests (MediaDevice.configurePipeline pipeline_config d).1.pipeline_entities_)[p]? =
          some (i, Call.media_parse_setup_links link) →
      (configureRequests (MediaDevice.configurePipeline pipeline_config d).1.pipeline_entities_)[q]? =
          some (j, Call.v4l2_subdev_parse_setup_formats fmt) →
      (j = i ∨ j = i + 1) → p < q) := by
  generalize hE : (MediaDevice.configurePipeline pipeline_config d).1.pipeline_entities_ = ents
  have hmemLoop : ∀ (p : Nat) (x : Nat × Call), (configureRequests ents)[p]? = some x →
      x ≠ (0, Call.media_reset_links) → ∃ p0, p = p0 + 1 ∧ (configureLoop ents)[p0]? = some x := by
    intro p x hp hx
    cases p with
    | zero =>
      simp [configureRequests] at hp
      exact absurd hp.symm hx
    | succ p0 => exact ⟨p0, rfl, by simpa [configureRequests] using hp⟩
  refine ⟨?_, by simp [configureRequests], ?_, ?_, ?_, ?_⟩
  · simp [MediaDevice.configurePipeline, ← hE]
  · intro p i hp hget
    cases p with
    | zero => omega
    | succ p0 =>
      have h1 : (configureLoop ents)[p0]? = some (i, Call.media_reset_links) := by
        simpa [configureRequests] using hget
      have hmem := configureLoop_mem ents _ (mem_of_getElem?_eq_some _ _ _ h1)
      rcases hmem.2 with h | h
      · rcases linkRequests_mem ents _ _ h with ⟨_, _, _, _, hc, _⟩
        simp at hc
      · rcases padRequests_mem ents _ _ h with ⟨_, _, ⟨hc, _⟩ | ⟨hc, _⟩⟩ <;> simp at hc
  · intro p i link hget
    rcases hmemLoop p _ hget (by simp) with ⟨p0, _, h1⟩
    have hmem := configureLoop_mem ents _ (mem_of_getElem?_eq_some _ _ _ h1)
    rcases hmem.2 with h | h
    · rcases linkRequests_mem ents _ _ h with ⟨a, b, ha, hb, hc, _⟩
      simp only [Call.media_parse_setup_links.injEq] at hc
      exact ⟨a, b, ha, hb, hc⟩
    · rcases padRequests_mem ents _ _ h with ⟨_, _, ⟨hc, _⟩ | ⟨hc, _⟩⟩ <;> simp at hc
  · intro q j fmt hget
    rcases hmemLoop q _ hget (by simp) with ⟨q0, _, h1⟩
    have hmem := configureLoop_mem ents _ (mem_of_getElem?_eq_some _ _ _ h1)
    rcases hmem.2 with h | h
    · rcases linkRequests_mem ents _ _ h with ⟨_, _, _, _, hc, _⟩
      simp at hc
    · rcases padRequests_mem ents _ _ h with ⟨a, ha, ⟨hc, _⟩ | ⟨hc, _⟩⟩
      · simp only [Call.v4l2_subdev_parse_setup_formats.injEq] at hc
        exact ⟨a, ha, Or.inl hc⟩
      · simp only [Call.v4l2_subdev_parse_setup_formats.injEq] at hc
        exact ⟨a, ha, Or.inr hc⟩
  · intro p q i j link fmt hp hq hij
    rcases hmemLoop p _ hp (by simp) with ⟨p0, rfl, h1⟩
    rcases hmemLoop q _ hq (by simp) with ⟨q0, rfl, h2⟩
    rcases List.getElem?_eq_some.mp h1 with ⟨hp0, e1⟩
    rcases List.getElem?_eq_some.mp h2 with ⟨hq0, e2⟩
    by_contra hlt
    have hne : q0 ≠ p0 := by
      intro he
      subst he
      rw [e1] at e2
      simp at e2
    have hqp : q0 < p0 := by omega
    have hpw := List.pairwise_iff_getElem.mp (configureLoop_pairwise ents) q0 p0 hq0 hp0 hqp
    rw [e1, e2] at hpw
    simp only [reqKey] at hpw
    omega

/-- Witness for C4: on the sample topology with the pad plan of `startCamera`,
the link from the ISP to the CSI-2 receiver is the request at position 1 and
the sink-pad format of the receiver is the request at position 4. -/
theorem C4_link_before_pad_format_witness :
    (configureRequests (MediaDevice.configurePipeline sampleCamera.entity_configs
        sampleDevice).1.pipeline_entities_)[1]? =
      some (1, Call.media_parse_setup_links
        "'ap1302.0-003c':0 -> 'rzg2l_csi2 10830400.csi2':0 [1]") ∧
    (configureRequests (MediaDevice.configurePipeline sampleCamera.entity_configs
        sampleDevice).1.pipeline_entities_)[4]? =
      some (2, Call.v4l2_subdev_parse_setup_formats
        "'rzg2l_csi2 10830400.csi2':0 [fmt:YUYV8_1X16/640x480 field:none]") ∧
    1 < 4 :=
  ⟨by decide, by decide,
   (C4_link_before_pad_format sampleCamera.entity_configs sampleDevice).2.2.2.2.2 1 4 1 2
      "'ap1302.0-003c':0 -> 'rzg2l_csi2 10830400.csi2':0 [1]"
      "'rzg2l_csi2 10830400.csi2':0 [fmt:YUYV8_1X16/640x480 field:none]"
      (by decide) (by decide) (Or.inr rfl)⟩

/-- C5: `configurePipeline` is idempotent: a second call with the same plan
leaves the device, and so the configurations bound to its pipeline entities,
as the first call left them, and issues the same sequence of requests, which
starts with the link reset. -/
theorem C5_configurePipeline_idempotent (pipeline_config : List EntityConfig) (d : MediaDevice) :
    (MediaDevice.configurePipeline pipeline_config
        (MediaDevice.configurePipeline pipeline_config d).1).1 =
      (MediaDevice.configurePipeline pipeline_config d).1 ∧
    (MediaDevice.configurePipeline pipeline_config
        (MediaDevice.configurePipeline pipeline_config d).1).2 =
      (MediaDevice.configurePipeline pipeline_config d).2 ∧
    (MediaDevice.configurePipeline pipeline_config d).2.head? = some Call.media_reset_links := by
  refine ⟨?_, ?_, ?_⟩
  · simp [MediaDevice.configurePipeline, bindConfigs_idem]
  · simp [MediaDevice.configurePipeline, bindConfigs_idem]
  · simp [MediaDevice.configurePipeline, configureRequests]

/-- C6: when no entity name contains "ap1302", `Enumerate` returns true and,
on a device whose pipeline holds no VideoIsp entity so far (a freshly
constructed one in particular), yields no VideoIsp entity; a following
`configurePipeline` then behaves, in the device state it leaves and in the
requests it issues, as if the VideoIsp configurations were not in the plan,
and no entity ends up with a configuration of type VideoIsp. -/
theorem C6_missing_isp (new_ok : Bool) (topo : List EntityDesc) (d : MediaDevice)
    (h : ∀ e ∈ topo, ¬ "ap1302".data <:+: e.name.data)
    (hd : ∀ e ∈ d.pipeline_entities_,
      e.type ≠ EntityType.VideoIsp ∧ e.config.type ≠ EntityType.VideoIsp) :
    (MediaDevice.Enumerate ⟨new_ok, some topo⟩ d).1 = true ∧
    (∀ e ∈ (MediaDevice.Enumerate ⟨new_ok, some topo⟩ d).2.1.pipeline_entities_,
      e.type ≠ EntityType.VideoIsp) ∧
    (∀ pipeline_config : List EntityConfig,
      MediaDevice.configurePipeline pipeline_config
          (MediaDevice.Enumerate ⟨new_ok, some topo⟩ d).2.1 =
        MediaDevice.configurePipeline
          (pipeline_config.filter (fun c => decide (c.type ≠ EntityType.VideoIsp)))
          (MediaDevice.Enumerate ⟨new_ok, some topo⟩ d).2.1 ∧
      ∀ e ∈ (MediaDevice.configurePipeline pipeline_config
          (MediaDevice.Enumerate ⟨new_ok, some topo⟩ d).2.1).1.pipeline_entities_,
        e.config.type ≠ EntityType.VideoIsp) := by
  have hisp : scanEntities EntityType.VideoIsp topo = none := by
    rcases scanEntities_spec EntityType.VideoIsp topo with ⟨_, hnil⟩ | ⟨i, e, hi, hin, _, _⟩
    · cases hs : scanEntities EntityType.VideoIsp topo with
      | none => rfl
      | some x => rw [hs] at hnil; simp at hnil
    · exact absurd hin (h e (mem_of_getElem?_eq_some _ _ _ hi))
  have hpipe := Enumerate_pipeline new_ok topo d
  simp only [hisp, Option.toList, List.append_nil] at hpipe
  have hprop : ∀ e ∈ (MediaDevice.Enumerate ⟨new_ok, some topo⟩ d).2.1.pipeline_entities_,
      e.type ≠ EntityType.VideoIsp ∧ e.config.type ≠ EntityType.VideoIsp := by
    intro e he
    rw [hpipe] at he
    have key : ∀ t, t ≠ EntityType.VideoIsp → ∀ x ∈ (scanEntities t topo).toList,
        x.type ≠ EntityType.VideoIsp ∧ x.config.type ≠ EntityType.VideoIsp := by
      intro t ht x hx
      have := scanEntities_type t topo x hx
      rw [this.1, this.2]
      exact ⟨ht, by decide⟩
    simp only [List.mem_append] at he
    rcases he with ((he | he) | he) | he
    · exact hd e he
    · exact key _ (by decide) e he
    · exact key _ (by decide) e he
    · exact key _ (by decide) e he
  refine ⟨rfl, fun e he => (hprop e he).1, ?_⟩
  intro pipeline_config
  constructor
  · unfold MediaDevice.configurePipeline
    rw [← bindConfigs_filter EntityType.VideoIsp pipeline_config _ (fun e he => (hprop e he).1)]
  · exact bindConfigs_config_type EntityType.VideoIsp pipeline_config _
      (fun e he => (hprop e he).1) (fun e he => (hprop e he).2)

/-- Witness for C6: a topology with a sensor, a CSI-2 receiver and a CRU
capture node but no ISP, enumerated by a device with an empty pipeline. -/
theorem C6_missing_isp_witness :
    (∀ e ∈ [({ name := "ar1335 0-0036" } : EntityDesc), { name := "rzg2l_csi2 10830400.csi2" },
        { name := "CRU output", devname := "/dev/video0" }],
      ¬ "ap1302".data <:+: e.name.data) ∧
    (∀ e ∈ ({ media_ := some [], open_ := true } : MediaDevice).pipeline_entities_,
      e.type ≠ EntityType.VideoIsp ∧ e.config.type ≠ EntityType.VideoIsp) ∧
    (MediaDevice.Enumerate ⟨true, some [{ name := "ar1335 0-0036" },
        { name := "rzg2l_csi2 10830400.csi2" }, { name := "CRU output", devname := "/dev/video0" }]⟩
      { media_ := some [], open_ := true }).1 = true ∧
    (∀ e ∈ (MediaDevice.Enumerate ⟨true, some [{ name := "ar1335 0-0036" },
        { name := "rzg2l_csi2 10830400.csi2" }, { name := "CRU output", devname := "/dev/video0" }]⟩
      { media_ := some [], open_ := true }).2.1.pipeline_entities_,
      e.type ≠ EntityType.VideoIsp) :=
  ⟨by decide, by decide,
   (C6_missing_isp true [{ name := "ar1335 0-0036" }, { name := "rzg2l_csi2 10830400.csi2" },
      { name := "CRU output", devname := "/dev/video0" }] { media_ := some [], open_ := true }
      (by decide) (by decide)).1,
   (C6_missing_isp true [{ name := "ar1335 0-0036" }, { name := "rzg2l_csi2 10830400.csi2" },
      { name := "CRU output", devname := "/dev/video0" }] { media_ := some [], open_ := true }
      (by decide) (by decide)).2.1⟩

/-- C7, as stated, fails: with every graph-configuration request and
VIDIOC_S_PARM failing, `startCamera` goes on to open the capture device and
to stream-on, and returns true. -/
theorem C7_unchecked_failures :
    (∀ c, sampleWorld.graph_rc c = -1) ∧ sampleWorld.s_parm.ret = -1 ∧
    Call.media_reset_links ∈ (sampleCamera.startCamera 614400 sampleWorld).2.2 ∧
    Call.sys_open "/dev/video0" ∈ (sampleCamera.startCamera 614400 sampleWorld).2.2 ∧
    Call.sys_ioctl IoctlReq.VIDIOC_STREAMON ∈
      (sampleCamera.startCamera 614400 sampleWorld).2.2 ∧
    (sampleCamera.startCamera 614400 sampleWorld).1 = Outcome.returned true := by
  refine ⟨fun _ => rfl, rfl, by decide, by decide, by decide, by decide⟩

/-- C7, amended: a call of a later step of `startCamera` is issued only if
every earlier checked step succeeded (media-device open, capture-device open,
VIDIOC_S_FMT, VIDIOC_REQBUFS, allocation and queueing of the buffers before);
it returns true exactly when all checked steps succeeded; when no retried
request is interrupted for ever and every allocation succeeds it returns false
exactly when a checked step failed; the answers to the graph-configuration
requests and to VIDIOC_S_PARM do not influence it. -/
theorem C7_startCamera_failures (K : Nat) (w : StartWorld) (cam : Camera) :
    ((cam.startCamera K w).1 = Outcome.returned true ↔
      AllStepsSucceed w cam.number_of_capture_buffers_) ∧
    (∀ c ∈ (cam.startCamera K w).2.2,
      (2 ≤ c.step → MediaOpens w.media_start) ∧ (4 ≤ c.step → CaptureOpens w) ∧
      (5 ≤ c.step → RequestSucceeds w.s_fmt) ∧ (6 ≤ c.step → RequestSucceeds w.reqbufs) ∧
      (7 ≤ c.step →
        ∀ j, j < cam.number_of_capture_buffers_ → AllocOk w j ∧ RequestSucceeds (w.qbuf j)) ∧
      c.step ≤ 7) ∧
    (∀ b, Call.sys_ioctl (IoctlReq.VIDIOC_QBUF b) ∈ (cam.startCamera K w).2.2 →
      b.index < cam.number_of_capture_buffers_ ∧ AllocOk w b.index ∧
        ∀ j, j < b.index → AllocOk w j ∧ RequestSucceeds (w.qbuf j)) ∧
    (∀ j, j < cam.number_of_capture_buffers_ →
      ¬ (AllocOk w j ∧ RequestSucceeds (w.qbuf j)) →
      ((cam.startCamera K w).2.2.filter Call.isAlloc).length ≤ j + 1) ∧
    (Responsive w cam.number_of_capture_buffers_ →
      (∀ n, n < cam.number_of_capture_buffers_ → AllocOk w n) →
      ((cam.startCamera K w).1 = Outcome.returned false ↔
        ¬ AllStepsSucceed w cam.number_of_capture_buffers_)) ∧
    (∀ (g : Call → Int) (p : SysResult),
      cam.startCamera K { w with graph_rc := g, s_parm := p } = cam.startCamera K w) := by
  refine ⟨startCamera_true_iff K w cam, startCamera_progress K w cam,
    (startCamera_buffers K w cam).1, (startCamera_buffers K w cam).2, ?_,
    startCamera_unchecked K w cam⟩
  intro hresp halloc
  have htrue := startCamera_true_iff K w cam
  constructor
  · intro hf hall
    rw [htrue.mpr hall] at hf
    cases hf
  · intro hnot
    rcases startCamera_returns K w cam hresp halloc with h | h
    · exact absurd (htrue.mp h) hnot
    · exact h

/-- Witness for C7: on the sample platform `startCamera` returns true, so
every checked step succeeded there. -/
theorem C7_startCamera_failures_witness :
    (sampleCamera.startCamera 614400 sampleWorld).1 = Outcome.returned true ∧
    AllStepsSucceed sampleWorld sampleCamera.number_of_capture_buffers_ :=
  ⟨by decide, (C7_startCamera_failures 614400 sampleWorld sampleCamera).1.mp (by decide)⟩

/-- C8: when no entity of the media device has a device-node name containing
"/dev/video", or when `::open` answers -1, the capture device is not opened,
`startCamera` returns false, and its trace holds no ioctl (so no VIDIOC_S_FMT,
VIDIOC_S_PARM, VIDIOC_REQBUFS, VIDIOC_QBUF or VIDIOC_STREAMON) and no buffer
allocation; in the first case `getVideoCaptureDevice` returns the empty
string. -/
theorem C8_capture_open_failure (K : Nat) (w : StartWorld) (cam : Camera)
    (h : (∀ topo, w.media_capture.enumerated = some topo →
            ∀ e ∈ topo, ¬ "/dev/video".data <:+: e.devname.data) ∨ w.open_fd = -1) :
    (cam.openCaptureDevice w).1 = false ∧
    (cam.startCamera K w).1 = Outcome.returned false ∧
    (∀ req, Call.sys_ioctl req ∉ (cam.startCamera K w).2.2) ∧
    (∀ c ∈ (cam.startCamera K w).2.2, c.isAlloc = false) ∧
    ((∀ topo, w.media_capture.enumerated = some topo →
        ∀ e ∈ topo, ¬ "/dev/video".data <:+: e.devname.data) →
      (MediaDevice.ofId w.media_capture cam.cam_src_.toNat).1.getVideoCaptureDevice = "") := by
  have hnc : ¬ CaptureOpens w := by
    rintro ⟨_, ⟨topo, he, e, hmem, hin⟩, hfd⟩
    rcases h with h | h
    · exact h topo he e hmem hin
    · exact hfd h
  have hoc : (cam.openCaptureDevice w).1 = false := by
    rw [← Bool.not_eq_true, openCaptureDevice_true_iff]
    exact hnc
  have hsteps : (cam.startCamera K w).1 = Outcome.returned false ∧
      ∀ c ∈ (cam.startCamera K w).2.2, c.step ≤ 3 := by
    rcases startCamera_run K w cam with
      ⟨t0, t1, t2, t3, t4, t5, t6, qbo, _, _, _, _, h0, h1, h2, _, _, _, _, _, _, _, _, _, hl⟩
    rcases hl with ⟨_, ho, ht⟩ | ⟨_, _, ho, ht⟩ | ⟨_, hc, _⟩ | ⟨_, hc, _⟩ | ⟨_, hc, _⟩ |
      ⟨_, hc, _⟩ | ⟨_, hc, _⟩ | ⟨_, hc, _⟩ | ⟨_, hc, _⟩ | ⟨_, hc, _⟩
    · refine ⟨ho, fun c hcm => ?_⟩
      rw [ht] at hcm
      have := h0 c hcm
      omega
    · refine ⟨ho, fun c hcm => ?_⟩
      rw [ht] at hcm
      simp only [List.mem_append] at hcm
      rcases hcm with (hx | hx) | hx
      · have := h0 c hx; omega
      · have := h1 c hx; omega
      · have := h2 c hx; omega
    all_goals exact absurd hc hnc
  refine ⟨hoc, hsteps.1, ?_, ?_, ?_⟩
  · intro req hmem
    have := hsteps.2 _ hmem
    cases req <;> simp [Call.step] at this
  · intro c hmem
    have := hsteps.2 _ hmem
    cases c <;> simp [Call.step] at this <;> rfl
  · intro hA
    unfold MediaDevice.ofId MediaDevice.open MediaDevice.Enumerate
      MediaDevice.getVideoCaptureDevice
    cases hn : w.media_capture.new_ok <;> cases he : w.media_capture.enumerated
    · simp [scanVideoNode]
    · simp [scanVideoNode]
    · simp [scanVideoNode]
    · rename_i topo
      simp only [Bool.false_eq_true, if_false, Bool.not_true, Option.getD_some]
      exact (scanVideoNode_eq_empty_iff topo).mpr (hA topo he)

/-- Witness for C8: the sample platform with `::open` answering -1. -/
theorem C8_capture_open_failure_witness :
    ({ sampleWorld with open_fd := -1 } : StartWorld).open_fd = -1 ∧
    (sampleCamera.startCamera 614400 { sampleWorld with open_fd := -1 }).1 =
      Outcome.returned false ∧
    (∀ req, Call.sys_ioctl req ∉
      (sampleCamera.startCamera 614400 { sampleWorld with open_fd := -1 }).2.2) :=
  ⟨rfl,
   (C8_capture_open_failure 614400 { sampleWorld with open_fd := -1 } sampleCamera
      (Or.inr rfl)).2.1,
   (C8_capture_open_failure 614400 { sampleWorld with open_fd := -1 } sampleCamera
      (Or.inr rfl)).2.2.1⟩

/-- C9, as stated, fails: with a wait that succeeds and a dequeue that
succeeds, `captureImage` still returns false when the cache flush of the
dequeued buffer fails. -/
theorem C9_flush_failure_returns_false :
    ¬ WaitFails [{ ret := 1 }] ∧ ¬ RequestFails [{ ret := 0 }] ∧
    (Camera.captureImage
        { select := [{ ret := 1 }], dqbuf := [{ ret := 0 }],
          dequeued := { type := 1, memory := 4, index := 0, fd := 20, length := 614400 },
          flush_rc := -1 }
        { cam_src_ := CameraSource.CRU0, capture_width_ := 640, capture_height_ := 480,
          number_of_capture_buffers_ := 1, fd_ := 3,
          capture_dma_buffers_ :=
            [{ index_ := 10, fd_ := 20, size_ := 614400, count_ := 1,
               physical_address_ := 4096, mem_ := 8192 }],
          active_capture_buffer_ := {} }).1 = Outcome.returned false := by
  refine ⟨?_, ?_, by decide⟩
  · rw [← waitForFrame_false_iff]
    decide
  · rw [← xioctl_false_iff IoctlReq.VIDIOC_DQBUF]
    decide

/-- C9, amended: `captureImage` returns false exactly when the readiness wait
fails with an error other than EINTR, or the wait succeeds and VIDIOC_DQBUF
fails, or both succeed and the cache flush of the dequeued buffer fails; it
returns true exactly when wait, dequeue and flush all succeed; the dequeued
index lies within the buffer pool in both flush cases.  Whenever the wait and
the dequeue come to an end and the index lies within the pool, it returns one
of the two. -/
theorem C9_captureImage_result (w : CaptureWorld) (cam : Camera) :
    ((cam.captureImage w).1 = Outcome.returned false ↔
      WaitFails w.select ∨ (WaitSucceeds w.select ∧ RequestFails w.dqbuf) ∨
      (WaitSucceeds w.select ∧ RequestSucceeds w.dqbuf ∧
        w.dequeued.index < cam.capture_dma_buffers_.length ∧ w.flush_rc ≠ 0)) ∧
    ((cam.captureImage w).1 = Outcome.returned true ↔
      WaitSucceeds w.select ∧ RequestSucceeds w.dqbuf ∧
        w.dequeued.index < cam.capture_dma_buffers_.length ∧ w.flush_rc = 0) ∧
    ((WaitSucceeds w.select ∨ WaitFails w.select) → Resolves w.dqbuf →
      w.dequeued.index < cam.capture_dma_buffers_.length →
      (cam.captureImage w).1 = Outcome.returned true ∨
        (cam.captureImage w).1 = Outcome.returned false) := by
  have hwt := waitForFrame_true_iff w.select
  have hwf := waitForFrame_false_iff w.select
  have hdt := xioctl_true_iff IoctlReq.VIDIOC_DQBUF w.dqbuf
  have hdf := xioctl_false_iff IoctlReq.VIDIOC_DQBUF w.dqbuf
  have hdr := xioctl_isSome_iff IoctlReq.VIDIOC_DQBUF w.dqbuf
  unfold Camera.captureImage
  rcases hsel : waitForFrame w.select with ⟨o, t⟩
  rw [hsel] at hwt hwf
  rcases hdq : xioctl IoctlReq.VIDIOC_DQBUF w.dqbuf with ⟨o1, t1⟩
  rw [hdq] at hdt hdf hdr
  simp only at hwt hwf hdt hdf hdr
  rcases o with _ | _ | _
  · simp [← hwt, ← hwf]
  · simp [← hwt, ← hwf]
  · rcases o1 with _ | _ | _
    · simp [← hwt, ← hwf, ← hdt, ← hdf, ← hdr]
    · simp [← hwt, ← hwf, ← hdt, ← hdf]
    · simp only [← hwt, ← hwf, ← hdt, ← hdf]
      by_cases hidx : w.dequeued.index < cam.capture_dma_buffers_.length
      · rw [List.getElem?_eq_getElem hidx]
        by_cases hrc : w.flush_rc = 0
        · simp [DmaBuffer.flush, hidx, hrc]
        · simp [DmaBuffer.flush, hidx, hrc]
      · rw [List.getElem?_eq_none (by omega)]
        simp [hidx]

/-- C10: interruptions of the readiness wait are retried transparently: `k`
answers -1/EINTR of `select` ahead of any further answers (so also ahead of a
success) change neither the result of `captureImage` nor the camera state it
leaves, active buffer included; they only add `k` calls of `select`.  Answers
-1/EINTR alone never make it return: it is still waiting. -/
theorem C10_eintr_retried (k : Nat) (w : CaptureWorld) (cam : Camera) :
    (cam.captureImage
        { w with select := List.replicate k { ret := -1, errno := EINTR } ++ w.select }).1 =
      (cam.captureImage w).1 ∧
    (cam.captureImage
        { w with select := List.replicate k { ret := -1, errno := EINTR } ++ w.select }).2.1 =
      (cam.captureImage w).2.1 ∧
    (cam.captureImage
        { w with select := List.replicate k { ret := -1, errno := EINTR } ++ w.select }).2.2 =
      List.replicate k Call.sys_select ++ (cam.captureImage w).2.2 ∧
    (cam.captureImage { w with select := List.replicate k { ret := -1, errno := EINTR } }).1 =
      Outcome.blocked := by
  have e2 : waitForFrame (List.replicate k { ret := -1, errno := EINTR } ++ w.select) =
      ((waitForFrame w.select).1, List.replicate k Call.sys_select ++ (waitForFrame w.select).2) :=
    Prod.ext (waitForFrame_skip k w.select).1 (waitForFrame_skip k w.select).2
  have e3 : waitForFrame (List.replicate k { ret := -1, errno := EINTR }) =
      (none, List.replicate k Call.sys_select) := by
    have h := waitForFrame_skip k []
    simp only [List.append_nil, waitForFrame] at h
    exact Prod.ext h.1 h.2
  unfold Camera.captureImage
  dsimp only
  rw [e2, e3]
  rcases waitForFrame w.select with ⟨o2, t⟩
  dsimp only
  rcases o2 with _ | _ | _
  · simp
  · simp
  · rcases xioctl IoctlReq.VIDIOC_DQBUF w.dqbuf with ⟨o1, t1⟩
    rcases o1 with _ | _ | _
    · simp
    · simp
    · simp only
      cases cam.capture_dma_buffers_[w.dequeued.index]? with
      | none => simp
      | some buf =>
        simp only
        split <;> simp

/-- C11, as stated, fails: when the only answer to `VIDIOC_STREAMOFF` is a
failure (errno 5), `closeCamera` issues the stream-off request and returns
without closing the device descriptor. -/
theorem C11_closeCamera_skips_close :
    RequestFails [{ ret := -1, errno := 5 }] ∧
    (sampleCamera.closeCamera [{ ret := -1, errno := 5 }]).2 =
      [Call.sys_ioctl IoctlReq.VIDIOC_STREAMOFF] ∧
    (∀ fd, Call.sys_close fd ∉ (sampleCamera.closeCamera [{ ret := -1, errno := 5 }]).2) := by
  refine ⟨?_, by decide, ?_⟩
  · rw [← xioctl_false_iff IoctlReq.VIDIOC_STREAMOFF]
    decide
  · intro fd h
    have e : (sampleCamera.closeCamera [{ ret := -1, errno := 5 }]).2 =
        [Call.sys_ioctl IoctlReq.VIDIOC_STREAMOFF] := by decide
    rw [e] at h
    simp at h

/-- C11, amended: `closeCamera` always attempts stream-off first; when
`VIDIOC_STREAMOFF` succeeds the device descriptor `fd_` is closed exactly once,
as the last call and after every stream-off attempt; when `VIDIOC_STREAMOFF`
fails `closeCamera` returns after the stream-off attempts without closing the
descriptor; a close in the trace is a close of `fd_` after a successful
stream-off. -/
theorem C11_closeCamera (answers : List SysResult) (cam : Camera) :
    (answers ≠ [] →
      (cam.closeCamera answers).2.head? = some (Call.sys_ioctl IoctlReq.VIDIOC_STREAMOFF)) ∧
    (RequestSucceeds answers → (cam.closeCamera answers).1 = some () ∧ ∃ k, 1 ≤ k ∧
      (cam.closeCamera answers).2 =
        List.replicate k (Call.sys_ioctl IoctlReq.VIDIOC_STREAMOFF) ++ [Call.sys_close cam.fd_]) ∧
    (RequestFails answers → (cam.closeCamera answers).1 = some () ∧ ∃ k, 1 ≤ k ∧
      (cam.closeCamera answers).2 =
        List.replicate k (Call.sys_ioctl IoctlReq.VIDIOC_STREAMOFF)) ∧
    (∀ fd, Call.sys_close fd ∈ (cam.closeCamera answers).2 →
      fd = cam.fd_ ∧ RequestSucceeds answers) := by
  have ht := xioctl_true_iff IoctlReq.VIDIOC_STREAMOFF answers
  have hf := xioctl_false_iff IoctlReq.VIDIOC_STREAMOFF answers
  rcases xioctl_trace_replicate IoctlReq.VIDIOC_STREAMOFF answers with ⟨k, hk, hk1, _⟩
  unfold Camera.closeCamera Camera.stopCapture
  rcases hx : xioctl IoctlReq.VIDIOC_STREAMOFF answers with ⟨o, t⟩
  rw [hx] at ht hf hk
  simp only at ht hf hk
  subst hk
  have hne : RequestSucceeds answers ∨ RequestFails answers → answers ≠ [] := by
    rintro (⟨pre, r, rest, h, _⟩ | ⟨pre, r, rest, h, _⟩) <;> simp [h]
  have hhead : answers ≠ [] → ∀ l : List Call,
      (List.replicate k (Call.sys_ioctl IoctlReq.VIDIOC_STREAMOFF) ++ l).head? =
        some (Call.sys_ioctl IoctlReq.VIDIOC_STREAMOFF) := by
    intro h l
    have := hk1 h
    obtain ⟨k', rfl⟩ : ∃ k', k = k' + 1 := ⟨k - 1, by omega⟩
    simp [List.replicate_succ]
  rcases o with _ | _ | _
  · refine ⟨fun h => by simpa using hhead h [], fun h => ?_, fun h => ?_, ?_⟩
    · exact absurd (ht.mpr h) (by simp)
    · exact absurd (hf.mpr h) (by simp)
    · intro fd hmem
      simp [List.mem_replicate] at hmem
  · refine ⟨fun h => by simpa using hhead h [], fun h => ?_, fun h => ?_, ?_⟩
    · exact absurd (ht.mpr h) (by simp)
    · exact ⟨rfl, k, hk1 (hne (Or.inr h)), rfl⟩
    · intro fd hmem
      simp [List.mem_replicate] at hmem
  · refine ⟨fun h => hhead h _, fun h => ?_, fun h => ?_, ?_⟩
    · exact ⟨rfl, k, hk1 (hne (Or.inl h)), rfl⟩
    · exact absurd (hf.mpr h) (by simp)
    · intro fd hmem
      simp [List.mem_replicate] at hmem
      exact ⟨hmem, ht.mp rfl⟩

/-- C12: with the capture queue of the driver a FIFO that answers at once, a
successful `startCamera` of a camera with `N ≥ 1` buffers and an empty pool
queues the indices `0 .. N - 1` once each and in this order, index `n` with the
export descriptor and the length of the `DmaBuffer` allocated for it, which is
the `n`-th of the pool; in each of `N + 1` successive rounds `captureImage`
returns true and takes one buffer out of the queue, index `j mod N` in round
`j`, the other `N - 1` indices staying queued, and `queueCaptureBuffer` puts
that same index back at the end of the queue, so that all `N` indices are
queued again; every index below `N` is dequeued in some round. -/
theorem C12_capture_queue (K : Nat) (w : StartWorld) (cam : Camera)
    (hN : 1 ≤ cam.number_of_capture_buffers_)
    (hfresh : cam.capture_dma_buffers_ = [])
    (hok : (cam.startCamera K w).1 = Outcome.returned true)
    (hq : ∀ n, n < cam.number_of_capture_buffers_ →
      ∀ r, (w.qbuf n).head? = some r → ¬ Interrupted r) :
    (cam.startCamera K w).2.2.filterMap Call.queued = kernelRun [] (cam.startCamera K w).2.2 ∧
    (kernelRun [] (cam.startCamera K w).2.2).map V4l2Buffer.index =
      List.range cam.number_of_capture_buffers_ ∧
    (∀ n, n < cam.number_of_capture_buffers_ → ∃ buf : DmaBuffer,
      (DmaBuffer.new (w.mmngr n) K 1).1 = Except.ok buf ∧
      (cam.startCamera K w).2.1.capture_dma_buffers_[n]? = some buf ∧
      (kernelRun [] (cam.startCamera K w).2.2)[n]? = some (v4l2BufferFor n buf)) ∧
    (captureRounds (cam.number_of_capture_buffers_ + 1) (cam.startCamera K w).2.1
      (kernelRun [] (cam.startCamera K w).2.2)).length = cam.number_of_capture_buffers_ + 1 ∧
    (∀ j, j ≤ cam.number_of_capture_buffers_ → ∃ R : Round,
      (captureRounds (cam.number_of_capture_buffers_ + 1) (cam.startCamera K w).2.1
        (kernelRun [] (cam.startCamera K w).2.2))[j]? = some R ∧
      R.capture = Outcome.returned true ∧
      R.dequeued = j % cam.number_of_capture_buffers_ ∧
      R.requeue = some true ∧
      (R.dequeued :: R.mid.map V4l2Buffer.index).Perm
        (List.range cam.number_of_capture_buffers_) ∧
      R.queue.map V4l2Buffer.index = R.mid.map V4l2Buffer.index ++ [R.dequeued] ∧
      (R.queue.map V4l2Buffer.index).Perm (List.range cam.number_of_capture_buffers_)) ∧
    (∀ n, n < cam.number_of_capture_buffers_ → ∃ (j : Nat) (R : Round),
      j ≤ cam.number_of_capture_buffers_ ∧
      (captureRounds (cam.number_of_capture_buffers_ + 1) (cam.startCamera K w).2.1
        (kernelRun [] (cam.startCamera K w).2.2))[j]? = some R ∧
      R.dequeued = n) := by
  rcases startCamera_queue K w cam hfresh hok hq with ⟨bufs, hl, hmk, hcam, htr, hrun⟩
  have hidx : (kernelRun [] (cam.startCamera K w).2.2).map V4l2Buffer.index =
      List.range cam.number_of_capture_buffers_ := by
    rw [hrun, htr, zipWith_v4l2BufferFor_index, hl, List.range_eq_range']
  generalize hq0 : kernelRun [] (cam.startCamera K w).2.2 = q0 at hidx hrun ⊢
  generalize hc : (cam.startCamera K w).2.1 = cam2 at hcam ⊢
  generalize hNN : cam.number_of_capture_buffers_ = N at hN hl hidx ⊢
  have hlen0 : q0.length = N := by
    have := congrArg List.length hidx
    simpa using this
  have hne : q0 ≠ [] := by
    intro h
    rw [h] at hlen0
    simp at hlen0
    omega
  have hmem : ∀ b ∈ q0, b.index < cam2.capture_dma_buffers_.length := by
    intro b hb
    have : b.index ∈ q0.map V4l2Buffer.index := List.mem_map_of_mem _ hb
    rw [hidx, List.mem_range] at this
    rw [hcam, hl]
    exact this
  have hround : ∀ j, j ≤ N → ∃ R : Round,
      (captureRounds (N + 1) cam2 q0)[j]? = some R ∧
      R.capture = Outcome.returned true ∧ R.dequeued = j % N ∧ R.requeue = some true ∧
      (R.dequeued :: R.mid.map V4l2Buffer.index).Perm (List.range N) ∧
      R.queue.map V4l2Buffer.index = R.mid.map V4l2Buffer.index ++ [R.dequeued] ∧
      (R.queue.map V4l2Buffer.index).Perm (List.range N) := by
    intro j hj
    rcases captureRounds_fifo (N + 1) cam2 q0 hne hmem j (by omega) with
      ⟨R, h1, h2, h3, h4, h5, h6⟩
    have hrot : (List.range N).rotate j = R.dequeued :: R.mid.map V4l2Buffer.index := by
      rw [← hidx, ← List.map_rotate, h4, h5]
      rfl
    refine ⟨R, h1, h2, ?_, h3, ?_, ?_, ?_⟩
    · have hlt : j % N < (List.range N).length := by
        rw [List.length_range]
        exact Nat.mod_lt _ (by omega)
      have hh := List.head?_rotate hlt
      rw [List.length_range] at hlt
      have hmod : (List.range N).rotate (j % N) = (List.range N).rotate j := by
        have := List.rotate_mod (List.range N) j
        rwa [List.length_range] at this
      rw [hmod, hrot, List.getElem?_range hlt] at hh
      simpa using hh
    · rw [← hrot]
      exact List.rotate_perm _ _
    · rw [h6, ← List.rotate_rotate, h4, h5]
      simp [List.rotate_cons_succ]
    · rw [h6, List.map_rotate, hidx]
      exact List.rotate_perm _ _
  refine ⟨hrun.symm, hidx, ?_, captureRounds_length _ _ _, hround, ?_⟩
  · intro n hn
    have hb : bufs[n]? = some bufs[n] := List.getElem?_eq_getElem (by omega)
    refine ⟨bufs[n], hmk n _ hb, by rw [hcam]; exact hb, ?_⟩
    have hz := zipWith_v4l2BufferFor_get bufs n _ hb
    rw [← htr, ← hrun] at hz
    exact hz
  · intro n hn
    rcases hround n (by omega) with ⟨R, h1, _, h3, _⟩
    exact ⟨n, R, by omega, h1, by rw [h3, Nat.mod_eq_of_lt hn]⟩

/-- Witness for C12: the sample camera, with two buffers and an empty pool,
starts on the sample platform, whose answers to `VIDIOC_QBUF` are not
interruptions, and the queue of the driver then holds the indices 0 and 1. -/
theorem C12_capture_queue_witness :
    1 ≤ sampleCamera.number_of_capture_buffers_ ∧
    sampleCamera.capture_dma_buffers_ = [] ∧
    (sampleCamera.startCamera 614400 sampleWorld).1 = Outcome.returned true ∧
    (∀ n, n < sampleCamera.number_of_capture_buffers_ →
      ∀ r, (sampleWorld.qbuf n).head? = some r → ¬ Interrupted r) ∧
    (kernelRun [] (sampleCamera.startCamera 614400 sampleWorld).2.2).map V4l2Buffer.index =
      List.range sampleCamera.number_of_capture_buffers_ :=
  have hq : ∀ n, n < sampleCamera.number_of_capture_buffers_ →
      ∀ r, (sampleWorld.qbuf n).head? = some r → ¬ Interrupted r := by
    intro n _ r h
    have hr : r = { ret := 0 } := by
      simpa [sampleWorld] using h.symm
    subst hr
    unfold Interrupted
    simp
  ⟨by decide, rfl, by decide, hq,
    (C12_capture_queue 614400 sampleWorld sampleCamera (by decide) rfl (by decide) hq).2.1⟩

/-- C13: `setCaptureFormat` returns true exactly when `VIDIOC_S_FMT` succeeds
and false exactly when it fails, its result and calls are the same for every
answer to `VIDIOC_S_PARM`, and `VIDIOC_S_PARM` is issued exactly when
`VIDIOC_S_FMT` succeeded, once, after all the `VIDIOC_S_FMT` attempts. -/
theorem C13_setCaptureFormat (w : StartWorld) (cam : Camera) :
    ((cam.setCaptureFormat w).1 = some true ↔ RequestSucceeds w.s_fmt) ∧
    ((cam.setCaptureFormat w).1 = some false ↔ RequestFails w.s_fmt) ∧
    (∀ p : SysResult, cam.setCaptureFormat { w with s_parm := p } = cam.setCaptureFormat w) ∧
    (Call.sys_ioctl IoctlReq.VIDIOC_S_PARM ∈ (cam.setCaptureFormat w).2 ↔
      RequestSucceeds w.s_fmt) ∧
    (RequestSucceeds w.s_fmt → ∃ k, 1 ≤ k ∧
      (cam.setCaptureFormat w).2 =
        List.replicate k (Call.sys_ioctl IoctlReq.VIDIOC_S_FMT) ++
          [Call.sys_ioctl IoctlReq.VIDIOC_S_PARM]) := by
  have ht := xioctl_true_iff IoctlReq.VIDIOC_S_FMT w.s_fmt
  have hf := xioctl_false_iff IoctlReq.VIDIOC_S_FMT w.s_fmt
  rcases xioctl_trace_replicate IoctlReq.VIDIOC_S_FMT w.s_fmt with ⟨k, hk, hk1, _⟩
  have hne : RequestSucceeds w.s_fmt → w.s_fmt ≠ [] := by
    rintro ⟨pre, r, rest, h, _⟩
    simp [h]
  refine ⟨?_, ?_, ?_, ?_, ?_⟩
  · rw [setCaptureFormat_result]; exact ht
  · rw [setCaptureFormat_result]; exact hf
  · intro p
    unfold Camera.setCaptureFormat
    simp only [ite_self]
  · unfold Camera.setCaptureFormat
    rcases hx : xioctl IoctlReq.VIDIOC_S_FMT w.s_fmt with ⟨o, t⟩
    rw [hx] at ht hk
    simp only at ht hk
    subst hk
    rcases o with _ | _ | _
    · simp [← ht, List.mem_replicate]
    · simp [← ht, List.mem_replicate]
    · simp [← ht]
  · intro hs
    unfold Camera.setCaptureFormat
    rcases hx : xioctl IoctlReq.VIDIOC_S_FMT w.s_fmt with ⟨o, t⟩
    rw [hx] at ht hk
    simp only at ht hk
    subst hk
    have ho : o = some true := ht.mpr hs
    subst ho
    simp only [ite_self]
    exact ⟨k, hk1 (hne hs), rfl⟩

/-- C14, as stated, fails: for the external source UVC0 `startCamera` first
opens and enumerates the media device "/dev/media4", and its result depends on
that device: with the same capture device it returns true when the media device
can be enumerated and false, after those two calls only, when it cannot. -/
theorem C14_uvc_opens_media_device :
    (sampleUvcCamera.startCamera 614400 sampleWorld).1 = Outcome.returned true ∧
    (sampleUvcCamera.startCamera 614400 sampleWorld).2.2.take 2 =
      [Call.media_device_new "/dev/media4", Call.media_device_enumerate] ∧
    (sampleUvcCamera.startCamera 614400
      { sampleWorld with media_start := ⟨true, none⟩ }).1 = Outcome.returned false ∧
    (sampleUvcCamera.startCamera 614400
      { sampleWorld with media_start := ⟨true, none⟩ }).2.2 =
      [Call.media_device_new "/dev/media4", Call.media_device_enumerate] := by
  refine ⟨by decide, by decide, by decide, by decide⟩

/-- C14, amended: for every source `startCamera` first opens the media device
of the source, and returns false after that when the device cannot be opened and
enumerated; for the external sources UVC0 and UVC1 it issues no link-reset, link
or pad-format request; the link reset is issued exactly for the internal sources
CRU0..CRU3 whose media device opens, and then the graph requests of the run are
those of `configurePipeline` on the plan of the camera. -/
theorem C14_graph_only_for_internal (K : Nat) (w : StartWorld) (cam : Camera) :
    (cam.startCamera K w).2.2.head? =
      some (Call.media_device_new ("/dev/media" ++ toString cam.cam_src_.toNat)) ∧
    (¬ MediaOpens w.media_start →
      (cam.startCamera K w).1 = Outcome.returned false ∧
      (cam.startCamera K w).2.2 = (MediaDevice.ofId w.media_start cam.cam_src_.toNat).2) ∧
    ((cam.cam_src_ = CameraSource.UVC0 ∨ cam.cam_src_ = CameraSource.UVC1) →
      ∀ c ∈ (cam.startCamera K w).2.2, c.step ≠ 2) ∧
    (Call.media_reset_links ∈ (cam.startCamera K w).2.2 ↔
      (cam.cam_src_ ≠ CameraSource.UVC0 ∧ cam.cam_src_ ≠ CameraSource.UVC1) ∧
        MediaOpens w.media_start) ∧
    ((cam.cam_src_ ≠ CameraSource.UVC0 ∧ cam.cam_src_ ≠ CameraSource.UVC1) →
      MediaOpens w.media_start →
      (cam.startCamera K w).2.2.filter (fun c => c.step == 2) =
        (MediaDevice.configurePipeline cam.entity_configs
          (MediaDevice.ofId w.media_start cam.cam_src_.toNat).1).2) := by
  have hsrc : cam.cam_src_.toNat < CameraSource.UVC0.toNat ↔
      (cam.cam_src_ ≠ CameraSource.UVC0 ∧ cam.cam_src_ ≠ CameraSource.UVC1) := by
    cases cam.cam_src_ <;> simp [CameraSource.toNat]
  rcases startCamera_run K w cam with
    ⟨t0, t1, t2, t3, t4, t5, t6, qbo, e0, e1, _, _, h0, h1, h2, h3, h4, h5, h6, _, _, _, _, _, hl⟩
  have hhead : ∀ r : List Call, (t0 ++ r).head? =
      some (Call.media_device_new ("/dev/media" ++ toString cam.cam_src_.toNat)) := by
    intro r
    exact head?_append_of_head? _ _ _ (e0 ▸ ofId_head _ _)
  -- the calls of step 2 in the trace are those of `t1`
  have hfil : ∀ (t : List Call), (∀ c ∈ t, c.step ≠ 2) → t.filter (fun c => c.step == 2) = [] := by
    intro t ht
    rw [List.filter_eq_nil_iff]
    intro c hc
    simpa using ht c hc
  have f0 := hfil t0 (fun c h => by have := h0 c h; omega)
  have f2 := hfil t2 (fun c h => by have := h2 c h; omega)
  have f3 := hfil t3 (fun c h => by have := h3 c h; omega)
  have f4 := hfil t4 (fun c h => by have := h4 c h; omega)
  have f5 := hfil t5 (fun c h => by have := h5 c h; omega)
  have f6 := hfil t6 (fun c h => by have := h6 c h; omega)
  have f1 : t1.filter (fun c => c.step == 2) = t1 := by
    rw [List.filter_eq_self]
    intro c hc
    simpa using h1 c hc
  have hstep2 : (MediaOpens w.media_start →
        (cam.startCamera K w).2.2.filter (fun c => c.step == 2) = t1) ∧
      (¬ MediaOpens w.media_start →
        (cam.startCamera K w).2.2.filter (fun c => c.step == 2) = []) := by
    rcases hl with ⟨hm, _, ht⟩ | ⟨hm, _, _, ht⟩ | ⟨hm, _, _, _, ht⟩ | ⟨hm, _, _, _, ht⟩ |
      ⟨hm, _, _, _, _, ht⟩ | ⟨hm, _, _, _, _, ht⟩ | ⟨hm, _, _, _, _, ht⟩ |
      ⟨hm, _, _, _, _, _, _, ht⟩ | ⟨hm, _, _, _, _, _, _, ht⟩ | ⟨hm, _, _, _, _, _, _, ht⟩ <;>
    · rw [ht]
      refine ⟨fun hy => ?_, fun hn => ?_⟩
      · first
          | exact absurd hy hm
          | simp only [List.filter_append, f0, f1, f2, f3, f4, f5, f6,
              List.append_nil, List.nil_append]
      · first
          | exact absurd hm hn
          | exact f0
  have hmem2 : ∀ c, c.step = 2 → (c ∈ (cam.startCamera K w).2.2 ↔
      MediaOpens w.media_start ∧ c ∈ t1) := by
    intro c hc
    have hiff : c ∈ (cam.startCamera K w).2.2 ↔
        c ∈ (cam.startCamera K w).2.2.filter (fun c => c.step == 2) := by
      simp [List.mem_filter, hc]
    rw [hiff]
    by_cases hm : MediaOpens w.media_start
    · rw [hstep2.1 hm]
      simp [hm]
    · rw [hstep2.2 hm]
      simp [hm]
  have hhead0 : t0.head? =
      some (Call.media_device_new ("/dev/media" ++ toString cam.cam_src_.toNat)) := by
    have hh := hhead []
    rwa [List.append_nil] at hh
  refine ⟨?_, ?_, ?_, ?_, ?_⟩
  · rcases hl with ⟨_, _, ht⟩ | ⟨_, _, _, ht⟩ | ⟨_, _, _, _, ht⟩ | ⟨_, _, _, _, ht⟩ |
      ⟨_, _, _, _, _, ht⟩ | ⟨_, _, _, _, _, ht⟩ | ⟨_, _, _, _, _, ht⟩ |
      ⟨_, _, _, _, _, _, _, ht⟩ | ⟨_, _, _, _, _, _, _, ht⟩ | ⟨_, _, _, _, _, _, _, ht⟩ <;>
    · rw [ht]
      first
        | exact hhead _
        | (simp only [List.append_assoc]; exact hhead _)
        | exact hhead0
  · intro hno
    rcases hl with ⟨_, ho, ht⟩ | ⟨hm, _⟩ | ⟨hm, _⟩ | ⟨hm, _⟩ | ⟨hm, _⟩ | ⟨hm, _⟩ | ⟨hm, _⟩ |
      ⟨hm, _⟩ | ⟨hm, _⟩ | ⟨hm, _⟩
    · exact ⟨ho, e0 ▸ ht⟩
    all_goals exact absurd hm hno
  · intro huvc c hc hstep
    have hnot : ¬ cam.cam_src_.toNat < CameraSource.UVC0.toNat := by
      rw [hsrc]
      rcases huvc with h | h <;> simp [h]
    have ht1 : t1 = [] := by rw [e1]; simp [hnot]
    have := (hmem2 c hstep).mp hc
    rw [ht1] at this
    simp at this
  · rw [hmem2 Call.media_reset_links rfl]
    constructor
    · rintro ⟨hm, hc⟩
      refine ⟨?_, hm⟩
      rw [← hsrc]
      by_contra hnot
      rw [e1] at hc
      simp [hnot] at hc
    · rintro ⟨hs, hm⟩
      refine ⟨hm, ?_⟩
      rw [e1, if_pos (hsrc.mpr hs)]
      exact configurePipeline_head _ _
  · intro hs hm
    rw [hstep2.1 hm, e1, if_pos (hsrc.mpr hs)]

/-- C15: in `configurePipeline` on a pipeline of `n` entities (the binding of
the plan keeps the length) the second loop, followed access by access, never
reads outside the vector and runs its rounds `0 .. n - 1` to the end; its
requests are the requests of `configurePipeline` after the link reset; every
entity read has an index below `n`, while element addresses are formed up to
index `n`, the end of the vector, which is formed and compared but not read;
in round `i` entity `i + 1` is read exactly when `i + 1 < n`; the round of the
last entity issues no link request; there are at most `n - 1` link requests;
every request belongs to a round `i < n`, a link request to a round with
`i + 1 < n`, and a pad-format request to a round below `n`; a round at an
index from `n` on would read outside the vector. -/
theorem C15_loop_bounds (pipeline_config : List EntityConfig) (d : MediaDevice) :
    (MediaDevice.configurePipeline pipeline_config d).1.pipeline_entities_.length =
        d.pipeline_entities_.length ∧
    (configureEvents (MediaDevice.configurePipeline pipeline_config d).1.pipeline_entities_).2 =
        true ∧
    (configureEvents (MediaDevice.configurePipeline pipeline_config d).1.pipeline_entities_).1 =
        (List.range d.pipeline_entities_.length).flatMap (fun i =>
          (roundEvents (MediaDevice.configurePipeline pipeline_config d).1.pipeline_entities_
            i).1) ∧
    (MediaDevice.configurePipeline pipeline_config d).2 =
        Call.media_reset_links ::
          (configureEvents
            (MediaDevice.configurePipeline pipeline_config d).1.pipeline_entities_).1.filterMap
              LoopEvent.requested ∧
    (∀ j, LoopEvent.read j ∈
        (configureEvents (MediaDevice.configurePipeline pipeline_config d).1.pipeline_entities_).1 →
      j < d.pipeline_entities_.length) ∧
    (∀ j, LoopEvent.addr j ∈
        (configureEvents (MediaDevice.configurePipeline pipeline_config d).1.pipeline_entities_).1 →
      j ≤ d.pipeline_entities_.length) ∧
    (0 < d.pipeline_entities_.length → LoopEvent.addr d.pipeline_entities_.length ∈
        (configureEvents (MediaDevice.configurePipeline pipeline_config d).1.pipeline_entities_).1) ∧
    (∀ i, i < d.pipeline_entities_.length →
      (LoopEvent.read (i + 1) ∈
          (roundEvents (MediaDevice.configurePipeline pipeline_config d).1.pipeline_entities_ i).1 ↔
        i + 1 < d.pipeline_entities_.length)) ∧
    (∀ i, i + 1 = d.pipeline_entities_.length → ∀ c, LoopEvent.request c ∈
        (roundEvents (MediaDevice.configurePipeline pipeline_config d).1.pipeline_entities_ i).1 →
      c.isLink = false) ∧
    ((MediaDevice.configurePipeline pipeline_config d).2.filter Call.isLink).length ≤
        d.pipeline_entities_.length - 1 ∧
    (∀ i c, (i, c) ∈
        configureLoop (MediaDevice.configurePipeline pipeline_config d).1.pipeline_entities_ →
      i < d.pipeline_entities_.length ∧
        (c.isLink = true → i + 1 < d.pipeline_entities_.length)) ∧
    (∀ j fmt, (j, Call.v4l2_subdev_parse_setup_formats fmt) ∈
        configureLoop (MediaDevice.configurePipeline pipeline_config d).1.pipeline_entities_ →
      j < d.pipeline_entities_.length) ∧
    (∀ i, d.pipeline_entities_.length ≤ i →
      (roundEvents (MediaDevice.configurePipeline pipeline_config d).1.pipeline_entities_ i).2 =
        false) := by
  have hlen : (MediaDevice.configurePipeline pipeline_config d).1.pipeline_entities_.length =
      d.pipeline_entities_.length := by
    have := congrArg List.length (bindConfigs_types pipeline_config d.pipeline_entities_)
    simpa [MediaDevice.configurePipeline] using this
  have htrace : (MediaDevice.configurePipeline pipeline_config d).2 =
      Call.media_reset_links ::
        (configureLoop (MediaDevice.configurePipeline pipeline_config d).1.pipeline_entities_).map
          Prod.snd := by
    simp [MediaDevice.configurePipeline, configureRequests]
  generalize hE : (MediaDevice.configurePipeline pipeline_config d).1.pipeline_entities_ = ents
    at hlen htrace
  generalize hT : (MediaDevice.configurePipeline pipeline_config d).2 = tr at htrace
  generalize hn : d.pipeline_entities_.length = n at hlen
  have hev := configureEvents_inside ents
  rw [hlen] at hev
  have hev1 : (configureEvents ents).1 =
      (List.range n).flatMap (fun i => (roundEvents ents i).1) := by rw [hev]
  refine ⟨hlen, by rw [hev], hev1, ?_, ?_, ?_, ?_, ?_, ?_, ?_, ?_, ?_, ?_⟩
  · rw [htrace, configureEvents_requests]
  · intro j hj
    rw [hev1] at hj
    rcases List.mem_flatMap.mp hj with ⟨i, hi, hm⟩
    have hi2 : i < ents.length := by rw [hlen]; exact List.mem_range.mp hi
    rcases (roundEvents_read ents i j hi2).mp hm with h | ⟨h, h2⟩ <;> omega
  · intro j hj
    rw [hev1] at hj
    rcases List.mem_flatMap.mp hj with ⟨i, hi, hm⟩
    have hi2 : i < ents.length := by rw [hlen]; exact List.mem_range.mp hi
    rcases (roundEvents_addr ents i j hi2).mp hm with h | h | h <;> omega
  · intro hpos
    rw [hev1]
    refine List.mem_flatMap.mpr ⟨0, List.mem_range.mpr hpos, ?_⟩
    rw [roundEvents_addr ents 0 n (by omega)]
    exact Or.inr (Or.inr hlen.symm)
  · intro i hi
    rw [roundEvents_read ents i (i + 1) (by omega), hlen]
    constructor
    · rintro (h | ⟨_, h⟩)
      · omega
      · exact h
    · intro h
      exact Or.inr ⟨rfl, h⟩
  · intro i hi c hc
    rw [request_mem_iff, roundEvents_requests ents i (by omega),
      linkRequests_last ents i (by omega), List.nil_append] at hc
    exact padRequests_isLink ents i c hc
  · rw [htrace]
    have h0 : (Call.media_reset_links :: (configureLoop ents).map Prod.snd).filter Call.isLink =
        ((configureLoop ents).filter (fun x => x.2.isLink)).map Prod.snd := by
      rw [List.filter_cons]
      simp only [Call.isLink, Bool.false_eq_true, if_false]
      rw [List.filter_map]
      rfl
    rw [h0, List.length_map]
    have := links_of_rounds_le ents ents.length (le_refl _)
    unfold configureLoop
    omega
  · intro i c hmem
    have h := configureLoop_mem ents (i, c) hmem
    refine ⟨by simpa [hlen] using h.1, fun hl => ?_⟩
    rcases h.2 with h2 | h2
    · rcases linkRequests_mem ents i c h2 with ⟨a, b, _, hb, _, _⟩
      have := (List.getElem?_eq_some.mp hb).1
      omega
    · have := padRequests_isLink ents i c h2
      simp only at this hl
      rw [this] at hl
      cases hl
  · intro j fmt hmem
    have h := configureLoop_mem ents _ hmem
    simpa [hlen] using h.1
  · intro i hi
    exact (roundEvents_outside ents i (by omega)).1

/-- C16, divergence: on a complete topology one `open` of a freshly
constructed `MediaDevice` gives the four roles in order, while `open`, `close`,
`open` gives each role twice, eight entities in all, since neither `close` nor
`Enumerate` empties `pipeline_entities_`. -/
theorem C16_reopen_duplicates :
    (((MediaDevice.run {} [MediaOp.open ⟨true, some sampleTopology⟩ "/dev/media0"]
        ).pipeline_entities_.map MediaEntity.type) =
      [EntityType.Sensor, EntityType.VideoIsp, EntityType.CsiMipiReceiver,
        EntityType.VideoCapture]) ∧
    (((MediaDevice.run {} [MediaOp.open ⟨true, some sampleTopology⟩ "/dev/media0", MediaOp.close,
        MediaOp.open ⟨true, some sampleTopology⟩ "/dev/media0"]).pipeline_entities_.map
          MediaEntity.type) =
      [EntityType.Sensor, EntityType.VideoIsp, EntityType.CsiMipiReceiver,
        EntityType.VideoCapture, EntityType.Sensor, EntityType.VideoIsp,
        EntityType.CsiMipiReceiver, EntityType.VideoCapture]) ∧
    (MediaDevice.run {} [MediaOp.open ⟨true, some sampleTopology⟩ "/dev/media0", MediaOp.close,
        MediaOp.open ⟨true, some sampleTopology⟩ "/dev/media0"]).pipeline_entities_.length = 8 := by
  refine ⟨by decide, by decide, by decide⟩

end Rzv
